import Mathlib

/-!
# Nebula per-key RGB keyboard driver: verification development

Shallow embedding of `src/backend/perkey-rgb.js` (the planar frame buffer and the
protocol driver) and of the lighting engine of `src/backend/bridge.js` (reactive mode,
smart idle/active lighting, neighbor flash, simple-mode reports).

Modelling conventions.

* JavaScript numbers that the code only ever uses as integers are `Int`.  Where the
  code leaves the integers the computation is done over `ℚ`, with `Math.round` as
  `jsRound` (nearest integer, ties upwards).  This agrees with IEEE double arithmetic
  on the operands that occur:
  - `Math.round((value / 255) * 63)`, `Math.round(reactiveColor.c * (brightness / 255))`
    and `Math.round(start + (end - start) * t)` with `t` a number of fifteenths: for
    integer operands the exact value is never half-way between two integers and stays
    at distance at least `1/510` (resp. `1/30`) from every rounding boundary, far more
    than the error of the double operations;
  - `Math.round((brightness / 100) * 63)` and `Math.round(6 - (speed / 100) * 5)`: for
    integer percentages the only ties are at `brightness = 50` and at
    `speed = 10, 30, 50, 70, 90`, where the double operations return the half-way
    value exactly (`0.5 * 63 = 31.5`, `6 - 0.5 = 5.5`, ...), so both roundings go up;
  - `hslToRgb(hue, 100, 50)` at the hues `(i / 96) * 360`, `i < 96`: the double product
    is exactly `3.75 * i`, and from there on every operation of `hslToRgb` is exact on
    doubles (eighths and sixteenths of small integers), including the six hues at which
    a channel is exactly `127.5` and is rounded to 128.
  The lemmas `scale_binary64`, `brightnessByte_binary64`, `speedByte_binary64` and
  `rainbowHue_binary64` replay the double operations (round to nearest, ties to even)
  on every operand of those ranges and find the values of the exact model.
* The HID device is a scripted mock: an `Env` says, for the n-th opening attempt and
  for the n-th device write of each of the two handles, whether it succeeds or throws;
  the state carries the counters and the list of reports the device accepted.
* `await this.delay(ms)` only waits; it is not modelled.  An `apply()` is run to
  completion as one step.  Time enters only as the value of `Date.now()`, passed to
  the handlers as `now`.
-/

namespace Nebula

/-! ## JavaScript helpers -/

/-- `Math.round`: the nearest integer, ties towards plus infinity. -/
def jsRound (x : ℚ) : ℤ := ⌊x + 1 / 2⌋

/-- The upper-casing of one character.  Besides the ASCII letters, the characters
whose JavaScript upper-casing consists of ASCII letters only are the sharp s, the
dotless i, the long s and the Latin ligatures; every other character outside ASCII is
kept as it is: its JavaScript upper-casing still contains a character outside ASCII, so
it can occur in no key of the tables here, which are all ASCII. -/
def upperChar (c : Char) : List Char :=
  if c = 'ß' then ['S', 'S']
  else if c = 'ı' then ['I']
  else if c = 'ſ' then ['S']
  else if c = 'ﬀ' then ['F', 'F']
  else if c = 'ﬁ' then ['F', 'I']
  else if c = 'ﬂ' then ['F', 'L']
  else if c = 'ﬃ' then ['F', 'F', 'I']
  else if c = 'ﬄ' then ['F', 'F', 'L']
  else if c = 'ﬅ' then ['S', 'T']
  else if c = 'ﬆ' then ['S', 'T']
  else [c.toUpper]

/-- `String.prototype.toUpperCase`. -/
def toUpperCase (s : String) : String :=
  String.mk (s.data.foldr (fun c acc => upperChar c ++ acc) [])

/-- A plain JavaScript object with string keys, as the list of its own properties in
insertion order. -/
abbrev JsObject (α : Type) := List (String × α)

/-- Property read `o[k]`; `none` is `undefined`. -/
def JsObject.get {α : Type} (k : String) : JsObject α → Option α
  | [] => none
  | (a, v) :: t => if a = k then some v else JsObject.get k t

/-- Property write `o[k] = v`: an existing property keeps its place, a new one is
appended. -/
def JsObject.set {α : Type} (k : String) (v : α) : JsObject α → JsObject α
  | [] => [(k, v)]
  | (a, w) :: t => if a = k then (a, v) :: t else (a, w) :: JsObject.set k v t

/-- The value of a property name that is a canonical array index (decimal digits, no
leading zero, below `2^32 - 1`). -/
def arrayIndex? (k : String) : Option Nat :=
  let cs := k.data
  let n := cs.foldl (fun acc c => 10 * acc + (c.toNat - 48)) 0
  if cs ≠ [] ∧ cs.all Char.isDigit ∧ (cs.length = 1 ∨ cs.head? ≠ some '0') ∧ n < 4294967295
  then some n else none

/-- Insertion of an integer-keyed property into an ascending list. -/
def insertIndexed {α : Type} (p : Nat × α) : List (Nat × α) → List (Nat × α)
  | [] => [p]
  | q :: t => if p.1 ≤ q.1 then p :: q :: t else q :: insertIndexed p t

/-- Enumeration order of the own properties of an object (`Object.keys`,
`Object.entries`): array-index keys first, in ascending numeric order, then the other
keys in insertion order. -/
def JsObject.entries {α : Type} (o : JsObject α) : List (String × α) :=
  let indexed := o.filterMap (fun p => (arrayIndex? p.1).map (fun n => (n, p)))
  let sorted := indexed.foldr insertIndexed []
  sorted.map Prod.snd ++ o.filter (fun p => (arrayIndex? p.1).isNone)

/-- `Object.keys(o)`. -/
def JsObject.keys {α : Type} (o : JsObject α) : List String :=
  (JsObject.entries o).map Prod.fst

/-- A counted loop `for (let i = 0; i < n; i++) body(i)` over a state. -/
def forRange {σ : Type} (n : Nat) (body : Nat → σ → σ) (s : σ) : σ :=
  (List.range n).foldl (fun acc i => body i acc) s

/-! ## `perkey-rgb.js` -/

/-- Complete TKL key map, in source order. -/
def KEY_MAP : JsObject Nat :=
  [ -- Row 0: function keys
    ("ESC", 0), ("F1", 1), ("F2", 2), ("F3", 3), ("F4", 4), ("F5", 5),
    ("F6", 6), ("F7", 7), ("F8", 8), ("F9", 9), ("F10", 10), ("F11", 11),
    ("F12", 12), ("PRTSC", 13), ("SCRLK", 14), ("PAUSE", 15),
    -- Row 1: number row
    ("GRAVE", 16), ("`", 16), ("1", 17), ("2", 18), ("3", 19), ("4", 20), ("5", 21),
    ("6", 22), ("7", 23), ("8", 24), ("9", 25), ("0", 26), ("MINUS", 27), ("-", 27),
    ("EQUAL", 28), ("=", 28), ("BACKSPACE", 29), ("INSERT", 30), ("HOME", 31),
    -- Row 2: QWERTY row
    ("TAB", 32), ("Q", 33), ("W", 34), ("E", 35), ("R", 36), ("T", 37),
    ("Y", 38), ("U", 39), ("I", 40), ("O", 41), ("P", 42),
    ("LBRACKET", 43), ("[", 43), ("RBRACKET", 44), ("]", 44),
    ("BACKSLASH", 45), ("\\", 45), ("DELETE", 46), ("END", 47),
    -- Row 3: home row
    ("CAPSLOCK", 48), ("CAPS", 48), ("A", 49), ("S", 50), ("D", 51), ("F", 52), ("G", 53),
    ("H", 54), ("J", 55), ("K", 56), ("L", 57),
    ("SEMICOLON", 58), (";", 58), ("QUOTE", 59), ("'", 59),
    ("ENTER", 60), ("PGUP", 62), ("PGDN", 63),
    -- Row 4: shift row
    ("LSHIFT", 64), ("Z", 65), ("X", 66), ("C", 67), ("V", 68), ("B", 69),
    ("N", 70), ("M", 71), ("COMMA", 72), (",", 72), ("PERIOD", 73), (".", 73),
    ("SLASH", 74), ("/", 74), ("RSHIFT", 75), ("UP", 78), ("RIGHT", 79),
    -- Row 5: control row
    ("LCTRL", 80), ("LWIN", 81), ("LALT", 82), ("SPACE", 85),
    ("RALT", 88), ("FN", 89), ("MENU", 90), ("RCTRL", 91), ("LEFT", 94), ("DOWN", 95) ]

/-- One frame-buffer slot `{ r, g, b }`. -/
structure Color where
  r : Int
  g : Int
  b : Int
deriving DecidableEq, Repr

/-- A report handed to the HID device: `sendFeatureReport(report)` or `write(report)`. -/
inductive Report where
  | feature (report : List Int)
  | output (report : List Int)
deriving DecidableEq, Repr

/-- The scripted mock device: the outcome of the n-th `connect()` and of the n-th
device write (`true` succeeds, `false` throws), for the handle of the per-key
controller (`connectOk`, `writeOk`) and for the handle of `bridge.js` that the simple
mode uses (`simpleConnectOk`, `simpleWriteOk`). -/
structure Env where
  connectOk : Nat → Bool
  writeOk : Nat → Bool
  simpleConnectOk : Nat → Bool
  simpleWriteOk : Nat → Bool

/-- State of a `PerKeyRGBController` together with the trace of its device:
`device` tells whether `this.device` is non-null, `keyColors` is the frame buffer,
`connects` and `writes` count the `connect()` calls and device writes made so far and
`sent` lists the reports the device accepted. -/
structure PerKeyRGBController where
  device : Bool
  keyColors : Nat → Color
  connects : Nat
  writes : Nat
  sent : List Report

/-- The constructor: no device, all 128 keys off. -/
def PerKeyRGBController.new : PerKeyRGBController :=
  { device := false
    keyColors := forRange 128 (fun i kc => Function.update kc i ⟨0, 0, 0⟩) (fun _ => ⟨0, 0, 0⟩)
    connects := 0
    writes := 0
    sent := [] }

/-- `connect()`: open the first matching device; `false` when none matches or opening
throws. -/
def connect (env : Env) (s : PerKeyRGBController) : Bool × PerKeyRGBController :=
  if env.connectOk s.connects then
    (true, { s with device := true, connects := s.connects + 1 })
  else
    (false, { s with connects := s.connects + 1 })

/-- The guard `!this.device && !this.connect()`. -/
def noDevice (env : Env) (s : PerKeyRGBController) : Bool × PerKeyRGBController :=
  if s.device then (false, s)
  else
    let r := connect env s
    (!r.1, r.2)

/-- The loop `while (report.length < n) report.push(0)`. -/
def padTo (n : Nat) (report : List Int) : List Int :=
  if report.length < n then padTo n (report ++ [0]) else report
termination_by n - report.length

/-- The report built by `sendCmd(data)`. -/
def cmdReport (data : List Int) : List Int := padTo 9 (0 :: data.take 8)

/-- The report built by `sendData(data)`. -/
def dataReport (data : List Int) : List Int := padTo 65 (0 :: data.take 64)

/-- `sendCmd(data)`: a feature report; a throwing write drops the handle. -/
def sendCmd (env : Env) (s : PerKeyRGBController) (data : List Int) :
    Bool × PerKeyRGBController :=
  let g := noDevice env s
  if g.1 then (false, g.2)
  else
    let report := cmdReport data
    if env.writeOk g.2.writes then
      (true, { g.2 with writes := g.2.writes + 1, sent := g.2.sent ++ [Report.feature report] })
    else
      (false, { g.2 with writes := g.2.writes + 1, device := false })

/-- `sendData(data)`: an output report; a throwing write drops the handle. -/
def sendData (env : Env) (s : PerKeyRGBController) (data : List Int) :
    Bool × PerKeyRGBController :=
  let g := noDevice env s
  if g.1 then (false, g.2)
  else
    let report := dataReport data
    if env.writeOk g.2.writes then
      (true, { g.2 with writes := g.2.writes + 1, sent := g.2.sent ++ [Report.output report] })
    else
      (false, { g.2 with writes := g.2.writes + 1, device := false })

/-- Convert 0-255 RGB to the 0-63 hardware range: `Math.round((value / 255) * 63)`. -/
def scale (value : Int) : Int := jsRound (((value : ℚ) / 255) * 63)

/-- The first argument of `setKey`: a key name or a raw index. -/
inductive KeyRef where
  | name (key : String)
  | index (idx : Int)
deriving DecidableEq, Repr

/-- The index `setKey` computes; `none` is `undefined`. -/
def resolveKey : KeyRef → Option Int
  | KeyRef.name key => (JsObject.get (toUpperCase key) KEY_MAP).map Int.ofNat
  | KeyRef.index idx => some idx

/-- `setKey(keyOrIndex, r, g, b)`. -/
def setKey (s : PerKeyRGBController) (keyOrIndex : KeyRef) (r g b : Int) :
    PerKeyRGBController :=
  match resolveKey keyOrIndex with
  | some idx =>
    if 0 ≤ idx ∧ idx < 128 then
      { s with keyColors := Function.update s.keyColors idx.toNat ⟨scale r, scale g, scale b⟩ }
    else s
  | none => s

/-- `setAll(r, g, b)`. -/
def setAll (s : PerKeyRGBController) (r g b : Int) : PerKeyRGBController :=
  let scaled : Color := ⟨scale r, scale g, scale b⟩
  { s with keyColors := forRange 128 (fun i kc => Function.update kc i scaled) s.keyColors }

/-- `clearAll()`. -/
def clearAll (s : PerKeyRGBController) : PerKeyRGBController :=
  { s with keyColors := forRange 128 (fun i kc => Function.update kc i ⟨0, 0, 0⟩) s.keyColors }

/-- A loop `for (let i = a; i <= b; i++) body(i)` over a state. -/
def forFromTo {σ : Type} (a b : Nat) (body : Nat → σ → σ) (s : σ) : σ :=
  (List.range' a (b + 1 - a)).foldl (fun acc i => body i acc) s

/-- The six row ranges `[first, last]` of `applyGradient`. -/
def gradientRows : List (Nat × Nat) :=
  [ (0, 15),   -- Function row
    (16, 31),  -- Number row
    (32, 47),  -- QWERTY row
    (48, 63),  -- Home row
    (64, 79),  -- Shift row
    (80, 95) ] -- Control row

/-- The position `t = (i - rowRange[0]) / (rowRange[1] - rowRange[0])` of index `i` in
its row. -/
def gradientT (rowRange : Nat × Nat) (i : Nat) : ℚ :=
  ((i : ℚ) - rowRange.1) / ((rowRange.2 : ℚ) - rowRange.1)

/-- One channel of the gradient at position `t`:
`this.scale(Math.round(start + (end - start) * t))`. -/
def gradientChannel (startC endC : Int) (t : ℚ) : Int :=
  scale (jsRound ((startC : ℚ) + ((endC : ℚ) - startC) * t))

/-- The inner loop of `applyGradient` for one row. -/
def applyGradientRow (startColor endColor : Color) (rowRange : Nat × Nat)
    (keyColors : Nat → Color) : Nat → Color :=
  forFromTo rowRange.1 rowRange.2
    (fun i kc =>
      let t := gradientT rowRange i
      Function.update kc i
        ⟨gradientChannel startColor.r endColor.r t, gradientChannel startColor.g endColor.g t,
          gradientChannel startColor.b endColor.b t⟩)
    keyColors

/-- `applyGradient(startColor, endColor)`: the rows are painted one after the other. -/
def applyGradient (s : PerKeyRGBController) (startColor endColor : Color) :
    PerKeyRGBController :=
  { s with
    keyColors :=
      gradientRows.foldl (fun kc rowRange => applyGradientRow startColor endColor rowRange kc)
        s.keyColors }

/-- The `%` of JavaScript numbers: the quotient is truncated towards zero, so the
remainder has the sign of the dividend. -/
def jsRem (x y : ℚ) : ℚ :=
  x - y * (if 0 ≤ x / y then ⌊x / y⌋ else ⌈x / y⌉)

/-- `hslToRgb(h, s, l)`: `Math.min(k - 3, 9 - k, 1)` is the nested `min`. -/
def hslToRgb (h s l : ℚ) : Color :=
  let s := s / 100
  let l := l / 100
  let a := s * min l (1 - l)
  let f := fun (n : ℚ) =>
    let k := jsRem (n + h / 30) 12
    l - a * max (min (min (k - 3) (9 - k)) 1) (-1)
  ⟨jsRound (f 0 * 255), jsRound (f 8 * 255), jsRound (f 4 * 255)⟩

/-- The hue of slot `i` in `applyRainbow`: `(i / 96) * 360`. -/
def rainbowHue (i : Nat) : ℚ := ((i : ℚ) / 96) * 360

/-- `applyRainbow()`. -/
def applyRainbow (s : PerKeyRGBController) : PerKeyRGBController :=
  { s with
    keyColors :=
      forRange 96
        (fun i kc =>
          let hue := rainbowHue i
          let rgb := hslToRgb hue 100 50
          Function.update kc i ⟨scale rgb.r, scale rgb.g, scale rgb.b⟩)
        s.keyColors }

/-- The four channel arrays built at the start of `apply()`. -/
structure Planes where
  flags : List Int
  redChannel : List Int
  greenChannel : List Int
  blueChannel : List Int
deriving DecidableEq, Repr

/-- One iteration of the loop that fills the channel arrays. -/
def encodeStep (keyColors : Nat → Color) (i : Nat) (p : Planes) : Planes :=
  let c := keyColors i
  if c.r > 0 ∨ c.g > 0 ∨ c.b > 0 then
    { flags := p.flags.set i 0x10
      redChannel := p.redChannel.set i c.r
      greenChannel := p.greenChannel.set i c.g
      blueChannel := p.blueChannel.set i c.b }
  else p

/-- The channel arrays of `apply()`: four arrays of 128 zeros, filled key by key. -/
def encodePlanes (keyColors : Nat → Color) : Planes :=
  forRange 128 (encodeStep keyColors)
    { flags := List.replicate 128 0
      redChannel := List.replicate 128 0
      greenChannel := List.replicate 128 0
      blueChannel := List.replicate 128 0 }

/-- Standard 7-colour palette, zero-padded to 64 bytes. -/
def palette : List Int :=
  [0x3f, 0x00, 0x00, 0x00, 0x3f, 0x00, 0x3f, 0x3f, 0x00,
   0x00, 0x00, 0x3f, 0x00, 0x3f, 0x3f, 0x3f, 0x00, 0x3f,
   0x3f, 0x3f, 0x3f] ++ List.replicate 43 0

/-- One round of the FINALIZE loop of `apply()`. -/
def finalizeStep (env : Env) (s : PerKeyRGBController) (cmd : Int) : PerKeyRGBController :=
  let s := (sendCmd env s [cmd, 0x00, 0x00, 0x00, 0x00, 0x55, 0xAA, 0x00]).2
  let s := (sendData env s (List.replicate 64 0)).2
  let s := (sendData env s (List.replicate 64 0)).2
  s

/-- `apply()`: the result is `Except.error msg` when the promise rejects and
`Except.ok v` when it resolves with `v`.  The return values of `sendCmd` and
`sendData` are discarded, as in the source. -/
def apply (env : Env) (s : PerKeyRGBController) : Except String Bool × PerKeyRGBController :=
  let g := noDevice env s
  if g.1 then (Except.error "Cannot connect to keyboard", g.2)
  else
    let s := g.2
    let p := encodePlanes s.keyColors
    -- UNLOCK
    let s := (sendCmd env s [0x30, 0x00, 0x00, 0x00, 0x00, 0x55, 0xAA, 0x00]).2
    let s := (sendData env s palette).2
    -- APPLY 0: enable flags
    let s := (sendCmd env s [0x12, 0x00, 0x00, 0x00, 0x00, 0x55, 0xAA, 0x00]).2
    let s := (sendData env s (p.flags.take 64)).2
    let s := (sendData env s (p.flags.drop 64)).2
    -- APPLY 1: red channel
    let s := (sendCmd env s [0x12, 0x00, 0x00, 0x01, 0x00, 0x55, 0xAA, 0x00]).2
    let s := (sendData env s (p.redChannel.take 64)).2
    let s := (sendData env s (p.redChannel.drop 64)).2
    -- APPLY 2: green channel
    let s := (sendCmd env s [0x12, 0x00, 0x00, 0x02, 0x00, 0x55, 0xAA, 0x00]).2
    let s := (sendData env s (p.greenChannel.take 64)).2
    let s := (sendData env s (p.greenChannel.drop 64)).2
    -- APPLY 3: blue channel
    let s := (sendCmd env s [0x12, 0x00, 0x00, 0x03, 0x00, 0x55, 0xAA, 0x00]).2
    let s := (sendData env s (p.blueChannel.take 64)).2
    let s := (sendData env s (p.blueChannel.drop 64)).2
    -- MODE 51
    let s := (sendCmd env s [0x08, 0x33, 0x3f, 0x04, 0x00, 0x00, 0xC4, 0x3B]).2
    -- FINALIZE
    let s := [0x0C, 0x0D].foldl (finalizeStep env) s
    -- Final MODE
    let s := (sendCmd env s [0x08, 0x33, 0x3f, 0x04, 0x00, 0x00, 0xC4, 0x3B]).2
    (Except.ok true, s)

/-! ## `bridge.js`: reactive lighting and the per-key commands -/

/-- Brightness drop per frame. -/
def REACTIVE_FADE_SPEED : Int := 30

/-- Map of virtual key codes to `KEY_MAP` names, in source order. -/
def VK_TO_KEYNAME_TABLE : List (Nat × String) :=
  [ (8, "BACKSPACE"), (9, "TAB"), (13, "ENTER"), (20, "CAPSLOCK"), (27, "ESC"), (32, "SPACE"),
    (33, "PGUP"), (34, "PGDN"), (35, "END"), (36, "HOME"), (37, "LEFT"), (38, "UP"),
    (39, "RIGHT"), (40, "DOWN"),
    (45, "INSERT"), (46, "DELETE"),
    (48, "0"), (49, "1"), (50, "2"), (51, "3"), (52, "4"), (53, "5"), (54, "6"), (55, "7"),
    (56, "8"), (57, "9"),
    (65, "A"), (66, "B"), (67, "C"), (68, "D"), (69, "E"), (70, "F"), (71, "G"), (72, "H"),
    (73, "I"), (74, "J"),
    (75, "K"), (76, "L"), (77, "M"), (78, "N"), (79, "O"), (80, "P"), (81, "Q"), (82, "R"),
    (83, "S"), (84, "T"),
    (85, "U"), (86, "V"), (87, "W"), (88, "X"), (89, "Y"), (90, "Z"),
    (91, "LWIN"), (93, "MENU"),
    (112, "F1"), (113, "F2"), (114, "F3"), (115, "F4"), (116, "F5"), (117, "F6"),
    (118, "F7"), (119, "F8"), (120, "F9"), (121, "F10"), (122, "F11"), (123, "F12"),
    (160, "LSHIFT"), (161, "RSHIFT"), (162, "LCTRL"), (163, "RCTRL"), (164, "LALT"),
    (165, "RALT"),
    (186, "SEMICOLON"), (187, "EQUAL"), (188, "COMMA"), (189, "MINUS"), (190, "PERIOD"),
    (191, "SLASH"), (192, "GRAVE"), (219, "LBRACKET"), (220, "BACKSLASH"), (221, "RBRACKET"),
    (222, "QUOTE"),
    (144, "SCRLK"), (145, "PAUSE"), (44, "PRTSC") ]

/-- The lookup `VK_TO_KEYNAME[vkCode]`; `none` is `undefined`. -/
def VK_TO_KEYNAME (vkCode : Nat) : Option String := VK_TO_KEYNAME_TABLE.lookup vkCode

/-- One entry of `reactiveKeyStates`: `{ brightness, lastPress }`. -/
structure KeyState where
  brightness : Int
  lastPress : Int
deriving DecidableEq, Repr

/-- The module-level state of `bridge.js`.  `reactiveInterval` tells whether the
reactive timer is installed.  `device` tells whether the module's own handle is
non-null; `connects`, `writes` and `sent` are the trace of that handle: the opening
attempts and writes made so far and the reports the device accepted.  `activeTimers`
lists the due times of the pending `setTimeout` callbacks that switch to the active
colour.  Times are milliseconds as `Date.now()` gives them.  The key statistics are
not part of the model. -/
structure Bridge where
  perKeyController : PerKeyRGBController
  reactiveEnabled : Bool
  reactiveColor : Color
  reactiveKeyStates : JsObject KeyState
  reactiveInterval : Bool
  reactiveApplying : Bool
  device : Bool
  connects : Nat
  writes : Nat
  sent : List Report
  smartEnabled : Bool
  lastKeyTime : Int
  isIdle : Bool
  idleTimeout : Int
  activeColor : Int
  idleColor : Int
  neighborFlashEnabled : Bool
  activeTimers : List Int

/-- The state right after the declarations of the module are evaluated, at time 0. -/
def Bridge.init : Bridge :=
  { perKeyController := PerKeyRGBController.new
    reactiveEnabled := false
    reactiveColor := ⟨0, 255, 255⟩
    reactiveKeyStates := []
    reactiveInterval := false
    reactiveApplying := false
    device := false
    connects := 0
    writes := 0
    sent := []
    smartEnabled := false
    lastKeyTime := 0
    isIdle := false
    idleTimeout := 10000
    activeColor := 6
    idleColor := 6
    neighborFlashEnabled := true
    activeTimers := [] }

/-- `startReactiveMode()`: every key of `KEY_MAP` gets brightness 0 and the timer is
installed; nothing happens when the timer is already there. -/
def startReactiveMode (st : Bridge) : Bridge :=
  if st.reactiveInterval then st
  else
    { st with
      reactiveKeyStates :=
        (JsObject.keys KEY_MAP).foldl (fun o k => JsObject.set k ⟨0, 0⟩ o) st.reactiveKeyStates
      reactiveInterval := true }

/-- `stopReactiveMode()`. -/
def stopReactiveMode (st : Bridge) : Bridge :=
  if st.reactiveInterval then { st with reactiveInterval := false } else st

/-- The fade of one key in a tick with fade step `F`. -/
def fadeKey (F : Int) (k : KeyState) : KeyState :=
  if k.brightness > 0 then { k with brightness := max 0 (k.brightness - F) } else k

/-- The "fade all keys" loop of the tick handler: every entry is faded in place; the
flag is `needsUpdate`. -/
def reactiveFade (F : Int) (st : Bridge) : Bridge × Bool :=
  ({ st with reactiveKeyStates := st.reactiveKeyStates.map (fun p => (p.1, fadeKey F p.2)) },
   st.reactiveKeyStates.any (fun p => decide (p.2.brightness > 0)))

/-- The colour the tick handler passes to `setKey` for a key of the given brightness. -/
def reactiveChannel (c : Int) (brightness : Int) : Int :=
  jsRound ((c : ℚ) * ((brightness : ℚ) / 255))

/-- The "apply colors based on brightness" loop: the busy flag is raised and `setKey`
is called for every key of `reactiveKeyStates`, in enumeration order. -/
def reactivePaint (st : Bridge) : Bridge :=
  { st with
    reactiveApplying := true
    perKeyController :=
      (JsObject.entries st.reactiveKeyStates).foldl
        (fun c p => setKey c (KeyRef.name p.1)
          (reactiveChannel st.reactiveColor.r p.2.brightness)
          (reactiveChannel st.reactiveColor.g p.2.brightness)
          (reactiveChannel st.reactiveColor.b p.2.brightness))
        st.perKeyController }

/-- The end of an updating tick: the apply (whose error is ignored) and the release of
the busy flag. -/
def reactiveFinish (env : Env) (st : Bridge) : Bridge :=
  { st with perKeyController := (apply env st.perKeyController).2, reactiveApplying := false }

/-- The tick handler of `startReactiveMode`, for a fade step `F`. -/
def reactiveTickWith (F : Int) (env : Env) (st : Bridge) : Bridge :=
  if st.reactiveApplying then st
  else
    let f := reactiveFade F st
    if f.2 then reactiveFinish env (reactivePaint f.1) else f.1

/-- The tick handler as the code runs it, with `REACTIVE_FADE_SPEED`. -/
def reactiveTick (env : Env) (st : Bridge) : Bridge :=
  reactiveTickWith REACTIVE_FADE_SPEED env st

/-- `onReactiveKeyPress(vkCode)`, at time `now`. -/
def onReactiveKeyPress (st : Bridge) (vkCode : Nat) (now : Int) : Bridge :=
  if !st.reactiveEnabled then st
  else
    match VK_TO_KEYNAME vkCode with
    | some keyName =>
      match JsObject.get keyName st.reactiveKeyStates with
      | some _ =>
        { st with reactiveKeyStates := JsObject.set keyName ⟨255, now⟩ st.reactiveKeyStates }
      | none => st
    | none => st

/-- Cyan, the colour of the neighbor flash. -/
def NEIGHBOR_FLASH_COLOR : Color := ⟨0, 255, 255⟩

/-- Milliseconds before the switch to the active mode after a neighbor flash. -/
def NEIGHBOR_FLASH_DURATION : Int := 300

/-- Key adjacency map for the neighbor flash, in source order. -/
def KEY_NEIGHBORS : JsObject (List String) :=
  [ ("ESC", ["F1"]), ("F1", ["ESC", "F2"]), ("F2", ["F1", "F3"]), ("F3", ["F2", "F4"]),
    ("F4", ["F3", "F5"]), ("F5", ["F4", "F6"]), ("F6", ["F5", "F7"]), ("F7", ["F6", "F8"]),
    ("F8", ["F7", "F9"]), ("F9", ["F8", "F10"]), ("F10", ["F9", "F11"]),
    ("F11", ["F10", "F12"]), ("F12", ["F11"]),
    ("GRAVE", ["1", "TAB"]), ("1", ["GRAVE", "2", "Q"]), ("2", ["1", "3", "W", "Q"]),
    ("3", ["2", "4", "E", "W"]), ("4", ["3", "5", "R", "E"]), ("5", ["4", "6", "T", "R"]),
    ("6", ["5", "7", "Y", "T"]), ("7", ["6", "8", "U", "Y"]), ("8", ["7", "9", "I", "U"]),
    ("9", ["8", "0", "O", "I"]), ("0", ["9", "MINUS", "P", "O"]),
    ("MINUS", ["0", "EQUAL"]), ("EQUAL", ["MINUS", "BACKSPACE"]), ("BACKSPACE", ["EQUAL"]),
    ("TAB", ["GRAVE", "Q", "CAPSLOCK"]), ("Q", ["TAB", "W", "1", "2", "A"]),
    ("W", ["Q", "E", "2", "3", "S", "A"]), ("E", ["W", "R", "3", "4", "D", "S"]),
    ("R", ["E", "T", "4", "5", "F", "D"]), ("T", ["R", "Y", "5", "6", "G", "F"]),
    ("Y", ["T", "U", "6", "7", "H", "G"]), ("U", ["Y", "I", "7", "8", "J", "H"]),
    ("I", ["U", "O", "8", "9", "K", "J"]), ("O", ["I", "P", "9", "0", "L", "K"]),
    ("P", ["O", "LBRACKET", "0", "MINUS"]), ("LBRACKET", ["P", "RBRACKET"]),
    ("RBRACKET", ["LBRACKET", "BACKSLASH"]), ("BACKSLASH", ["RBRACKET", "ENTER"]),
    ("CAPSLOCK", ["TAB", "A", "LSHIFT"]), ("A", ["CAPSLOCK", "S", "Q", "W", "Z"]),
    ("S", ["A", "D", "W", "E", "X", "Z"]), ("D", ["S", "F", "E", "R", "C", "X"]),
    ("F", ["D", "G", "R", "T", "V", "C"]), ("G", ["F", "H", "T", "Y", "B", "V"]),
    ("H", ["G", "J", "Y", "U", "N", "B"]), ("J", ["H", "K", "U", "I", "M", "N"]),
    ("K", ["J", "L", "I", "O", "COMMA", "M"]), ("L", ["K", "SEMICOLON", "O", "P"]),
    ("SEMICOLON", ["L", "QUOTE", "P"]), ("QUOTE", ["SEMICOLON", "ENTER"]),
    ("ENTER", ["QUOTE", "BACKSLASH"]),
    ("LSHIFT", ["CAPSLOCK", "Z"]), ("Z", ["LSHIFT", "X", "A", "S"]),
    ("X", ["Z", "C", "S", "D"]), ("C", ["X", "V", "D", "F"]), ("V", ["C", "B", "F", "G"]),
    ("B", ["V", "N", "G", "H"]), ("N", ["B", "M", "H", "J"]), ("M", ["N", "COMMA", "J", "K"]),
    ("COMMA", ["M", "PERIOD", "K", "L"]), ("PERIOD", ["COMMA", "SLASH", "L"]),
    ("SLASH", ["PERIOD", "RSHIFT"]), ("RSHIFT", ["SLASH", "UP"]),
    ("LCTRL", ["LWIN"]), ("LWIN", ["LCTRL", "LALT"]), ("LALT", ["LWIN", "SPACE"]),
    ("SPACE", ["LALT", "RALT", "V", "B", "N", "M"]), ("RALT", ["SPACE"]), ("RCTRL", ["LEFT"]),
    ("LEFT", ["RCTRL", "DOWN"]), ("DOWN", ["LEFT", "UP", "RIGHT"]), ("UP", ["RSHIFT", "DOWN"]),
    ("RIGHT", ["DOWN"]) ]

/-- `flashNeighbors(vkCode)`: the frame buffer is cleared, the key and its neighbours
are lit in the flash colour and the result is applied (an error of the apply is only
logged).  A code without a key name does nothing. -/
def flashNeighbors (env : Env) (st : Bridge) (vkCode : Nat) : Bridge :=
  match VK_TO_KEYNAME vkCode with
  | none => st
  | some keyName =>
    let neighbors := (JsObject.get keyName KEY_NEIGHBORS).getD []
    let keysToLight := keyName :: neighbors
    let c := clearAll st.perKeyController
    let c := keysToLight.foldl
      (fun c k => setKey c (KeyRef.name k) NEIGHBOR_FLASH_COLOR.r NEIGHBOR_FLASH_COLOR.g
        NEIGHBOR_FLASH_COLOR.b) c
    { st with perKeyController := (apply env c).2 }

/-- `connect()` of `bridge.js`: `true` when the handle is there or could be opened. -/
def Bridge.connect (env : Env) (st : Bridge) : Bool × Bridge :=
  if st.device then (true, st)
  else if env.simpleConnectOk st.connects then
    (true, { st with device := true, connects := st.connects + 1 })
  else (false, { st with connects := st.connects + 1 })

/-- The brightness byte of a simple-mode report: 0-100% maps to 0-63. -/
def brightnessByte (brightness : Int) : Int := jsRound (((brightness : ℚ) / 100) * 63)

/-- The speed byte of a simple-mode report: 0-100% maps to 6-1, never below 1. -/
def speedByte (speed : Int) : Int := max 1 (jsRound (6 - ((speed : ℚ) / 100) * 5))

/-- The array `p` that `send` builds. -/
def simpleReport (mode color speed brightness direction : Int) : List Int :=
  let p := List.replicate 65 (0 : Int)
  let p := p.set 0 0x03
  let p := p.set 1 0x08
  let p := p.set 2 mode
  let p := p.set 3 (brightnessByte brightness)
  let p := p.set 4 (speedByte speed)
  let p := p.set 5 direction
  let p := p.set 6 color
  p

/-- `send(mode, color, speed, brightness, direction)` of `bridge.js`.  `gamingZone` is
always `null`, so the report goes through the module's own handle; a caller that
leaves out the last three arguments passes 100, 100 and 0.  A throwing write drops the
handle. -/
def Bridge.send (env : Env) (st : Bridge) (mode color speed brightness direction : Int) :
    Bridge :=
  let g : Bool × Bridge :=
    if st.device then (false, st)
    else
      let r := Bridge.connect env st
      (!r.1, r.2)
  if g.1 then g.2
  else
    let p := simpleReport mode color speed brightness direction
    if env.simpleWriteOk g.2.writes then
      { g.2 with writes := g.2.writes + 1, sent := g.2.sent ++ [Report.feature p] }
    else { g.2 with writes := g.2.writes + 1, device := false }

/-- `checkIdle()`, called by the 200 ms timer at time `now`. -/
def checkIdle (env : Env) (st : Bridge) (now : Int) : Bridge :=
  if !st.smartEnabled then st
  else
    let elapsed := now - st.lastKeyTime
    if !st.isIdle ∧ elapsed > st.idleTimeout then
      Bridge.send env { st with isIdle := true } 8 st.idleColor 100 100 0
    else st

/-- The test `[16, 17, 18, 91, 160, 161, 162, 163, 164, 165].includes(code)`. -/
def isModifier (code : Nat) : Bool :=
  [16, 17, 18, 91, 160, 161, 162, 163, 164, 165].contains code

/-- The smart-lighting part of `onKeyPress(code)` at time `now`: with the neighbor
flash enabled the switch to the active colour is deferred by a timer. -/
def onSmartKeyPress (env : Env) (st : Bridge) (code : Nat) (now : Int) : Bridge :=
  if st.smartEnabled ∧ !isModifier code then
    let st :=
      if st.isIdle then
        let st := { st with isIdle := false }
        if st.neighborFlashEnabled then
          let st := flashNeighbors env st code
          { st with activeTimers := st.activeTimers ++ [now + NEIGHBOR_FLASH_DURATION] }
        else Bridge.send env st 9 st.activeColor 100 100 0
      else st
    { st with lastKeyTime := now }
  else st

/-- `onKeyPress(code)` at time `now` (without the statistics and the emitted events):
the smart-lighting part, then the reactive lighting hook. -/
def onKeyPress (env : Env) (st : Bridge) (code : Nat) (now : Int) : Bridge :=
  onReactiveKeyPress (onSmartKeyPress env st code now) code now

/-- The callback of the timer set by `onKeyPress`: the oldest pending timer fires and
the simple mode is switched to the active colour. -/
def fireActiveTimer (env : Env) (st : Bridge) : Bridge :=
  match st.activeTimers with
  | [] => st
  | _ :: rest => Bridge.send env { st with activeTimers := rest } 9 st.activeColor 100 100 0

/-- The value of `x || d` for a numeric field `x` of a command: an absent field and 0
are both falsy. -/
def orDefault (x : Option Int) (d : Int) : Int :=
  match x with
  | some v => if v = 0 then d else v
  | none => d

/-- The commands of the line protocol that the model covers; an absent field is
`none`.  `toggleSmart` carries the time at which the line is handled. -/
inductive Command where
  | perkeyAll (r g b : Option Int)
  | perkeyKey (key : KeyRef) (r g b : Option Int)
  | perkeyApply
  | perkeyClear
  | toggleReactive (active : Bool) (color : Option Color)
  | setMode (mode color : Int) (speed brightness direction : Option Int)
  | toggleSmart (active : Bool) (now : Int)
  | settings (idleTimeout activeColor idleColor : Option Int)
  | perkeyGradient (startColor endColor : Option Color)
  | perkeyRainbow
  | toggleNeighborFlash (active : Bool)

/-- The handler of one command line (the status events it emits are not modelled). -/
def handleCommand (env : Env) (st : Bridge) : Command → Bridge
  | Command.perkeyAll r g b =>
    let r := r.getD 255
    let g := g.getD 255
    let b := b.getD 255
    let c := setAll st.perKeyController r g b
    if r > 0 ∨ g > 0 ∨ b > 0 then { st with perKeyController := (apply env c).2 }
    else { st with perKeyController := c }
  | Command.perkeyKey key r g b =>
    { st with perKeyController := setKey st.perKeyController key (r.getD 255) (g.getD 255) (b.getD 255) }
  | Command.perkeyApply =>
    { st with perKeyController := (apply env st.perKeyController).2 }
  | Command.perkeyClear =>
    { st with perKeyController := (apply env (clearAll st.perKeyController)).2 }
  | Command.toggleReactive active color =>
    let st := { st with reactiveEnabled := active, reactiveColor := color.getD st.reactiveColor }
    if active then startReactiveMode st
    else
      let st := stopReactiveMode st
      { st with perKeyController := (apply env (clearAll st.perKeyController)).2 }
  | Command.setMode mode color speed brightness direction =>
    Bridge.send env { st with smartEnabled := false } mode color (orDefault speed 100)
      (orDefault brightness 100) (orDefault direction 0)
  | Command.toggleSmart active now =>
    let st := { st with smartEnabled := active }
    if active then
      Bridge.send env { st with isIdle := false, lastKeyTime := now } 9 st.activeColor 100 100 0
    else st
  | Command.settings idleTimeout activeColor idleColor =>
    { st with
      idleTimeout := idleTimeout.getD st.idleTimeout
      activeColor := activeColor.getD st.activeColor
      idleColor := idleColor.getD st.idleColor }
  | Command.perkeyGradient startColor endColor =>
    let c := applyGradient st.perKeyController (startColor.getD ⟨255, 0, 0⟩)
      (endColor.getD ⟨0, 0, 255⟩)
    { st with perKeyController := (apply env c).2 }
  | Command.perkeyRainbow =>
    { st with perKeyController := (apply env (applyRainbow st.perKeyController)).2 }
  | Command.toggleNeighborFlash active =>
    { st with neighborFlashEnabled := active }

/-! ## The protocol sequence as the specification words it -/

/-- A control packet as it goes on the wire: report id 0, then the 8 bytes. -/
def specControl (bytes : List Int) : Report := Report.feature (0 :: bytes)

/-- A data packet as it goes on the wire: report id 0, then the 64 bytes. -/
def specData (bytes : List Int) : Report := Report.output (0 :: bytes)

/-- The MODE packet. -/
def specMode : Report := specControl [0x08, 0x33, 0x3F, 0x04, 0, 0, 0xC4, 0x3B]

/-- The upload of plane number `p`: its control packet and the two halves. -/
def specPlane (p : Int) (plane : List Int) : List Report :=
  [specControl [0x12, 0, 0, p, 0, 0x55, 0xAA, 0], specData (plane.take 64),
   specData (plane.drop 64)]

/-- One FINALIZE round for command byte `cmd`. -/
def specFinalize (cmd : Int) : List Report :=
  [specControl [cmd, 0, 0, 0, 0, 0x55, 0xAA, 0], specData (List.replicate 64 0),
   specData (List.replicate 64 0)]

/-- The packet sequence of one apply cycle for the given four planes: unlock, palette,
planes 0 to 3, mode, finalize with 0x0C and 0x0D, mode again. -/
def specApplySequence (flags red green blue : List Int) : List Report :=
  [specControl [0x30, 0, 0, 0, 0, 0x55, 0xAA, 0],
   specData ([0x3F, 0, 0, 0, 0x3F, 0, 0x3F, 0x3F, 0, 0, 0, 0x3F, 0, 0x3F, 0x3F, 0x3F, 0, 0x3F,
              0x3F, 0x3F, 0x3F] ++ List.replicate 43 0)]
  ++ specPlane 0 flags ++ specPlane 1 red ++ specPlane 2 green ++ specPlane 3 blue
  ++ [specMode] ++ specFinalize 0x0C ++ specFinalize 0x0D ++ [specMode]

/-! ## Binary64 arithmetic, to check the exact model against the doubles of the code -/

/-- The integer nearest to `n / d`, ties to the even one. -/
def nearestEven (n d : Nat) : Nat :=
  let q := n / d
  let r := n % d
  if 2 * r < d then q else if d < 2 * r then q + 1 else if q % 2 = 0 then q else q + 1

/-- The least shift `s`, from the given one on, with `2^52 ≤ p * 2^s / q`. -/
def findShift (p q : Nat) : Nat → Nat → Nat
  | 0, s => s
  | fuel + 1, s => if 2 ^ 52 * q ≤ p * 2 ^ s then s else findShift p q fuel (s + 1)

/-- The double nearest to `p / q` (round to nearest, ties to even), for
`2^-1000 < p / q < 2^52`: the pair `(m, s)` stands for `m / 2^s`, with a significand
`m` of 53 bits. -/
def toBinary64 (p q : Nat) : Nat × Nat :=
  let s := findShift p q 1100 0
  (nearestEven (p * 2 ^ s) q, s)

/-- The double product of the double `x` and the integer `c`. -/
def mulBinary64 (x : Nat × Nat) (c : Nat) : Nat × Nat := toBinary64 (x.1 * c) (2 ^ x.2)

/-- The double difference `c - x` of the integer `c` and a smaller double `x`. -/
def subFromBinary64 (c : Nat) (x : Nat × Nat) : Nat × Nat :=
  toBinary64 (c * 2 ^ x.2 - x.1) (2 ^ x.2)

/-- `Math.round` of the double `x`. -/
def roundBinary64 (x : Nat × Nat) : Nat := (2 * x.1 + 2 ^ x.2) / 2 ^ (x.2 + 1)

/-! ## Proof-side vocabulary -/

/-- A key is lit when one of its stored channels is positive: the test of the encoding
loop. -/
def Color.lit (c : Color) : Prop := c.r > 0 ∨ c.g > 0 ∨ c.b > 0

instance (c : Color) : Decidable c.lit := by
  unfold Color.lit
  infer_instance

/-- The four channel arrays all have 128 entries. -/
def Planes.Sized (p : Planes) : Prop :=
  p.flags.length = 128 ∧ p.redChannel.length = 128 ∧ p.greenChannel.length = 128 ∧
    p.blueChannel.length = 128

/-- A packet of the apply sequence, before framing: the argument of a `sendCmd` or of a
`sendData` call. -/
inductive Packet where
  | cmd (data : List Int)
  | data (data : List Int)
deriving DecidableEq, Repr

/-- The call that sends a packet. -/
def send (env : Env) (s : PerKeyRGBController) : Packet → Bool × PerKeyRGBController
  | Packet.cmd d => sendCmd env s d
  | Packet.data d => sendData env s d

/-- The report a packet becomes on the wire. -/
def Packet.report : Packet → Report
  | Packet.cmd d => Report.feature (cmdReport d)
  | Packet.data d => Report.output (dataReport d)

/-- The 22 send calls of `apply()`, in program order, for the encoded planes `p`. -/
def applyPackets (p : Planes) : List Packet :=
  [ Packet.cmd [0x30, 0x00, 0x00, 0x00, 0x00, 0x55, 0xAA, 0x00], Packet.data palette,
    Packet.cmd [0x12, 0x00, 0x00, 0x00, 0x00, 0x55, 0xAA, 0x00],
    Packet.data (p.flags.take 64), Packet.data (p.flags.drop 64),
    Packet.cmd [0x12, 0x00, 0x00, 0x01, 0x00, 0x55, 0xAA, 0x00],
    Packet.data (p.redChannel.take 64), Packet.data (p.redChannel.drop 64),
    Packet.cmd [0x12, 0x00, 0x00, 0x02, 0x00, 0x55, 0xAA, 0x00],
    Packet.data (p.greenChannel.take 64), Packet.data (p.greenChannel.drop 64),
    Packet.cmd [0x12, 0x00, 0x00, 0x03, 0x00, 0x55, 0xAA, 0x00],
    Packet.data (p.blueChannel.take 64), Packet.data (p.blueChannel.drop 64),
    Packet.cmd [0x08, 0x33, 0x3f, 0x04, 0x00, 0x00, 0xC4, 0x3B],
    Packet.cmd [0x0C, 0x00, 0x00, 0x00, 0x00, 0x55, 0xAA, 0x00],
    Packet.data (List.replicate 64 0), Packet.data (List.replicate 64 0),
    Packet.cmd [0x0D, 0x00, 0x00, 0x00, 0x00, 0x55, 0xAA, 0x00],
    Packet.data (List.replicate 64 0), Packet.data (List.replicate 64 0),
    Packet.cmd [0x08, 0x33, 0x3f, 0x04, 0x00, 0x00, 0xC4, 0x3B] ]

/-- The reports of a packet list that reach the device when the first packet is write
number `w`, every packet is attempted once and a packet whose write throws is dropped. -/
def delivered (env : Env) : Nat → List Packet → List Report
  | _, [] => []
  | w, p :: t => (if env.writeOk w then [p.report] else []) ++ delivered env (w + 1) t

/-- A device on which every `connect()` and every write succeeds. -/
def Env.allOk : Env :=
  { connectOk := fun _ => true, writeOk := fun _ => true
    simpleConnectOk := fun _ => true, simpleWriteOk := fun _ => true }

/-- A device that can always be opened and on which only write number `k` throws. -/
def Env.failWrite (k : Nat) : Env :=
  { connectOk := fun _ => true, writeOk := fun n => decide (n ≠ k)
    simpleConnectOk := fun _ => true, simpleWriteOk := fun _ => true }

/-- A device that can never be opened. -/
def Env.absent : Env :=
  { connectOk := fun _ => false, writeOk := fun _ => true
    simpleConnectOk := fun _ => false, simpleWriteOk := fun _ => true }

/-- A controller whose device handle is open and whose frame buffer is all off. -/
def openController : PerKeyRGBController := { PerKeyRGBController.new with device := true }

/-- The open controller after `setKey('W', 255, 0, 0)`. -/
def redW : PerKeyRGBController := setKey openController (KeyRef.name "W") 255 0 0

/-- The brightness of key `k` in `reactiveKeyStates`; `none` when the key has no entry. -/
def brightnessOf (k : String) (st : Bridge) : Option Int :=
  (JsObject.get k st.reactiveKeyStates).map KeyState.brightness

/-- The bridge after `toggle-reactive` with `active: true` and no colour. -/
def reactiveOn : Bridge :=
  handleCommand Env.allOk Bridge.init (Command.toggleReactive true none)

/-- The bridge in reactive mode right after a key-down of virtual key `vk` at time 0. -/
def pressed (vk : Nat) : Bridge := onReactiveKeyPress reactiveOn vk 0

/-- The colour the tick handler paints for a key of the given state. -/
def paintColor (reactiveColor : Color) (v : KeyState) : Color :=
  ⟨scale (reactiveChannel reactiveColor.r v.brightness),
   scale (reactiveChannel reactiveColor.g v.brightness),
   scale (reactiveChannel reactiveColor.b v.brightness)⟩

/-- The entry of an enumeration that is painted last onto slot `i`: the last one whose
name resolves to `i`. -/
def lastPainted (i : Nat) : List (String × KeyState) → Option KeyState
  | [] => none
  | (k, v) :: t =>
    match lastPainted i t with
    | some w => some w
    | none => if JsObject.get (toUpperCase k) KEY_MAP = some i then some v else none

/-- The bridge after `toggle-smart` with `active: true`, handled at time 0. -/
def smartOn : Bridge := handleCommand Env.allOk Bridge.init (Command.toggleSmart true 0)

/-- The bridge in the middle of a reactive tick that started an apply: the key A was
pressed, the tick has faded and painted and raised the busy flag, and the apply has not
completed. -/
def busyBridge : Bridge := reactivePaint (reactiveFade REACTIVE_FADE_SPEED (pressed 65)).1

/-- The colour `applyGradient` stores at index `i` of the row `rowRange`. -/
def gradientColor (startColor endColor : Color) (rowRange : Nat × Nat) (i : Nat) : Color :=
  ⟨gradientChannel startColor.r endColor.r (gradientT rowRange i),
   gradientChannel startColor.g endColor.g (gradientT rowRange i),
   gradientChannel startColor.b endColor.b (gradientT rowRange i)⟩

/-- The colour `applyRainbow` stores at index `i`. -/
def rainbowColor (i : Nat) : Color :=
  ⟨scale (hslToRgb (rainbowHue i) 100 50).r, scale (hslToRgb (rainbowHue i) 100 50).g,
   scale (hslToRgb (rainbowHue i) 100 50).b⟩

/-- The channels of a colour are integers of 0..255. -/
def Color.InRange (c : Color) : Prop :=
  (0 ≤ c.r ∧ c.r ≤ 255) ∧ (0 ≤ c.g ∧ c.g ≤ 255) ∧ (0 ≤ c.b ∧ c.b ≤ 255)

/-- The channels of a stored colour are in the hardware range 0..63. -/
def Color.Stored (c : Color) : Prop :=
  (0 ≤ c.r ∧ c.r ≤ 63) ∧ (0 ≤ c.g ∧ c.g ≤ 63) ∧ (0 ≤ c.b ∧ c.b ≤ 63)

instance (c : Color) : Decidable c.InRange := by
  unfold Color.InRange
  infer_instance

instance (c : Color) : Decidable c.Stored := by
  unfold Color.Stored
  infer_instance

/-- The channel `Math.round(f(n) * 255)` of `hslToRgb(hue, 100, 50)` at the hue of slot
`i`, in integer arithmetic: with `j = (8 n + i) mod 96`, the value is
`(255 * (8 - clamp) + 8) / 16` for `clamp = max(min(j - 24, 72 - j, 8), -8)`. -/
def rainbowRaw (n i : Nat) : Int :=
  let j : Int := ((8 * n + i) % 96 : Nat)
  (255 * (8 - max (min (min (j - 24) (72 - j)) 8) (-8)) + 8) / 16

/-- The colour `applyRainbow` stores at index `i`, in integer arithmetic. -/
def rainbowStored (i : Nat) : Color :=
  ⟨(126 * rainbowRaw 0 i + 255) / 510, (126 * rainbowRaw 8 i + 255) / 510,
   (126 * rainbowRaw 4 i + 255) / 510⟩

/-- A call of one of the frame-buffer operations. -/
inductive BufferOp where
  | setKey (key : KeyRef) (r g b : Int)
  | setAll (r g b : Int)
  | clearAll
  | applyGradient (startColor endColor : Color)
  | applyRainbow

/-- The effect of a frame-buffer call on the controller. -/
def BufferOp.run (s : PerKeyRGBController) : BufferOp → PerKeyRGBController
  | BufferOp.setKey key r g b => Nebula.setKey s key r g b
  | BufferOp.setAll r g b => Nebula.setAll s r g b
  | BufferOp.clearAll => Nebula.clearAll s
  | BufferOp.applyGradient startColor endColor => Nebula.applyGradient s startColor endColor
  | BufferOp.applyRainbow => Nebula.applyRainbow s

/-- The input channels of a frame-buffer call are integers of 0..255. -/
def BufferOp.InRange : BufferOp → Prop
  | BufferOp.setKey _ r g b => Color.InRange ⟨r, g, b⟩
  | BufferOp.setAll r g b => Color.InRange ⟨r, g, b⟩
  | BufferOp.clearAll => True
  | BufferOp.applyGradient startColor endColor => startColor.InRange ∧ endColor.InRange
  | BufferOp.applyRainbow => True

/-- Every one of the 128 slots of the frame buffer holds channels of 0..63. -/
def PerKeyRGBController.Stored (s : PerKeyRGBController) : Prop :=
  ∀ i, i < 128 → (s.keyColors i).Stored

/-- A bridge whose simple-mode handle is open. -/
def simpleOpen : Bridge := { Bridge.init with device := true }

/-- A controller without a handle whose frame buffer has the key W lit. -/
def closedRedW : PerKeyRGBController := { redW with device := false }

/-- A device that cannot be opened at the first attempt and works from then on. -/
def Env.lateDevice : Env :=
  { connectOk := fun n => decide (n ≠ 0), writeOk := fun _ => true
    simpleConnectOk := fun _ => true, simpleWriteOk := fun _ => true }

/-- The open controller with slot 100 lit white through its raw index. -/
def whiteSlot100 : PerKeyRGBController := setKey openController (KeyRef.index 100) 255 255 255

/-- What can happen to the bridge: a command line, a key press, a tick of the reactive
timer, an idle check, and the deferred switch to the active colour. -/
inductive Event where
  | command (cmd : Command)
  | keyPress (code : Nat) (now : Int)
  | reactiveTick
  | idleCheck (now : Int)
  | activeTimer

/-- The event is a key press. -/
def Event.isKeyPress : Event → Bool
  | Event.keyPress _ _ => true
  | _ => false

/-- The effect of one event.  The reactive timer only fires while it is installed. -/
def step (env : Env) (st : Bridge) : Event → Bridge
  | Event.command cmd => handleCommand env st cmd
  | Event.keyPress code now => onKeyPress env st code now
  | Event.reactiveTick => if st.reactiveInterval then reactiveTick env st else st
  | Event.idleCheck now => checkIdle env st now
  | Event.activeTimer => fireActiveTimer env st

/-- The state the bridge reaches from its initial state through a list of events. -/
def run (env : Env) (events : List Event) : Bridge := events.foldl (step env) Bridge.init

/-- Every brightness of `reactiveKeyStates` is in 0..255. -/
def BrightnessInRange (st : Bridge) : Prop :=
  ∀ p ∈ st.reactiveKeyStates, 0 ≤ p.2.brightness ∧ p.2.brightness ≤ 255

/-- Reactive mode is only enabled while its timer is installed, and while the timer is
installed every name of the key table has an entry in `reactiveKeyStates`. -/
def KeysKnown (st : Bridge) : Prop :=
  (st.reactiveEnabled = true → st.reactiveInterval = true) ∧
  (st.reactiveInterval = true →
    ∀ k ∈ JsObject.keys KEY_MAP, (JsObject.get k st.reactiveKeyStates).isSome = true)

/-- Two bridge states agree on the state of the reactive mode. -/
def SameReactive (a b : Bridge) : Prop :=
  a.reactiveKeyStates = b.reactiveKeyStates ∧ a.reactiveEnabled = b.reactiveEnabled ∧
  a.reactiveInterval = b.reactiveInterval

/-- `INDEX_TO_KEY`, the reverse map from index to key name: the loop over
`Object.entries(KEY_MAP)` assigns `INDEX_TO_KEY[idx] = key` in enumeration order.  The
property key of an index is its decimal string. -/
def INDEX_TO_KEY : JsObject String :=
  (JsObject.entries KEY_MAP).foldl (fun o p => JsObject.set (toString p.2) p.1 o) []

/-- The constructor state after `setKey(5, -255, 0, 0)`: the stored red channel of slot 5
is `round(-255/255*63) = -63`. -/
def negativeSlot5 : PerKeyRGBController :=
  setKey PerKeyRGBController.new (KeyRef.index 5) (-255) 0 0

/-! ## Helper lemmas -/

theorem padTo_eq (n : Nat) (l : List Int) :
    padTo n l = l ++ List.replicate (n - l.length) 0 := by
  generalize h : n - l.length = k
  induction k generalizing l with
  | zero =>
    rw [padTo, if_neg (by omega)]
    simp
  | succ k ih =>
    rw [padTo, if_pos (by omega), ih (l ++ [0]) (by simp; omega)]
    simp [List.replicate_succ]

theorem cmdReport_eq (d : List Int) :
    cmdReport d = 0 :: (d.take 8 ++ List.replicate (8 - min d.length 8) 0) := by
  simp only [cmdReport, padTo_eq, List.length_cons, List.length_take, List.cons_append]
  congr 3
  omega

theorem dataReport_eq (d : List Int) :
    dataReport d = 0 :: (d.take 64 ++ List.replicate (64 - min d.length 64) 0) := by
  simp only [dataReport, padTo_eq, List.length_cons, List.length_take, List.cons_append]
  congr 3
  omega

theorem cmdReport_of_length {d : List Int} (h : d.length = 8) : cmdReport d = 0 :: d := by
  rw [cmdReport_eq, List.take_of_length_le (by omega), h]
  simp

theorem dataReport_of_length {d : List Int} (h : d.length = 64) : dataReport d = 0 :: d := by
  rw [dataReport_eq, List.take_of_length_le (by omega), h]
  simp

theorem scale_eq (v : Int) : scale v = (126 * v + 255) / 510 := by
  have h : ((v : ℚ) / 255) * 63 + 1 / 2 = ((126 * v + 255 : ℤ) : ℚ) / ((510 : ℕ) : ℚ) := by
    push_cast
    ring
  rw [scale, jsRound, h, Rat.floor_intCast_div_natCast]
  rfl

theorem reactiveChannel_eq (c b : Int) : reactiveChannel c b = (2 * c * b + 255) / 510 := by
  have h : (c : ℚ) * ((b : ℚ) / 255) + 1 / 2 = ((2 * c * b + 255 : ℤ) : ℚ) / ((510 : ℕ) : ℚ) := by
    push_cast
    ring
  rw [reactiveChannel, jsRound, h, Rat.floor_intCast_div_natCast]
  rfl

theorem forRange_succ {σ : Type} (n : Nat) (body : Nat → σ → σ) (s : σ) :
    forRange (n + 1) body s = body n (forRange n body s) := by
  simp [forRange, List.range_succ, List.foldl_append]

theorem forRange_update (n : Nat) (c : Color) (kc : Nat → Color) (i : Nat) :
    forRange n (fun j f => Function.update f j c) kc i = if i < n then c else kc i := by
  induction n with
  | zero => simp [forRange]
  | succ n ih =>
    rw [forRange_succ]
    by_cases h : i = n
    · subst h
      simp
    · rw [Function.update_noteq h, ih]
      have : (i < n + 1) ↔ (i < n) := by omega
      simp [this]

theorem encodeStep_sized (kc : Nat → Color) (i : Nat) (p : Planes) (hp : p.Sized) :
    (encodeStep kc i p).Sized := by
  unfold encodeStep
  obtain ⟨h1, h2, h3, h4⟩ := hp
  by_cases hl : (kc i).r > 0 ∨ (kc i).g > 0 ∨ (kc i).b > 0
  · simp only [hl, if_true]
    exact ⟨by simp [h1], by simp [h2], by simp [h3], by simp [h4]⟩
  · simp only [hl, if_false]
    exact ⟨h1, h2, h3, h4⟩

theorem encodeStep_getElem? (kc : Nat → Color) (i : Nat) (p : Planes) (hp : p.Sized)
    (j : Nat) (hj : j < 128) :
    (encodeStep kc i p).flags[j]? = (if j = i ∧ (kc j).lit then some 0x10 else p.flags[j]?) ∧
    (encodeStep kc i p).redChannel[j]?
      = (if j = i ∧ (kc j).lit then some (kc j).r else p.redChannel[j]?) ∧
    (encodeStep kc i p).greenChannel[j]?
      = (if j = i ∧ (kc j).lit then some (kc j).g else p.greenChannel[j]?) ∧
    (encodeStep kc i p).blueChannel[j]?
      = (if j = i ∧ (kc j).lit then some (kc j).b else p.blueChannel[j]?) := by
  unfold encodeStep
  obtain ⟨h1, h2, h3, h4⟩ := hp
  by_cases hl : (kc i).r > 0 ∨ (kc i).g > 0 ∨ (kc i).b > 0
  · simp only [hl, if_true, List.getElem?_set]
    by_cases hji : i = j
    · subst hji
      have hl2 : (kc i).lit := hl
      simp [h1, h2, h3, h4, hj, hl2]
    · have hji' : ¬ j = i := fun h => hji h.symm
      simp [hji, hji']
  · simp only [hl, if_false]
    by_cases hji : j = i
    · subst hji
      have hl2 : ¬ (kc j).lit := hl
      simp [hl2]
    · simp [hji]

/-- State of the four channel arrays after the first `n` rounds of the encoding loop. -/
theorem encode_rounds (kc : Nat → Color) (p0 : Planes) (h0 : p0.Sized) (n : Nat) :
    (forRange n (encodeStep kc) p0).Sized ∧
    ∀ j, j < 128 →
      (forRange n (encodeStep kc) p0).flags[j]?
        = (if j < n ∧ (kc j).lit then some 0x10 else p0.flags[j]?) ∧
      (forRange n (encodeStep kc) p0).redChannel[j]?
        = (if j < n ∧ (kc j).lit then some (kc j).r else p0.redChannel[j]?) ∧
      (forRange n (encodeStep kc) p0).greenChannel[j]?
        = (if j < n ∧ (kc j).lit then some (kc j).g else p0.greenChannel[j]?) ∧
      (forRange n (encodeStep kc) p0).blueChannel[j]?
        = (if j < n ∧ (kc j).lit then some (kc j).b else p0.blueChannel[j]?) := by
  induction n with
  | zero =>
    refine ⟨by simpa [forRange] using h0, fun j _ => ?_⟩
    simp [forRange]
  | succ n ih =>
    obtain ⟨hs, hg⟩ := ih
    rw [forRange_succ]
    refine ⟨encodeStep_sized kc n _ hs, fun j hj => ?_⟩
    obtain ⟨e1, e2, e3, e4⟩ := encodeStep_getElem? kc n _ hs j hj
    obtain ⟨g1, g2, g3, g4⟩ := hg j hj
    rw [e1, e2, e3, e4, g1, g2, g3, g4]
    by_cases hjn : j = n
    · subst hjn
      by_cases hl : (kc j).lit <;> simp [hl]
    · by_cases hlt : j < n
      · have : j < n + 1 := by omega
        by_cases hl : (kc j).lit <;> simp [hjn, hlt, this, hl]
      · have : ¬ j < n + 1 := by omega
        simp [hjn, hlt, this]

theorem zeroPlanes_sized :
    Planes.Sized ⟨List.replicate 128 0, List.replicate 128 0, List.replicate 128 0,
      List.replicate 128 0⟩ :=
  ⟨List.length_replicate _ _, List.length_replicate _ _, List.length_replicate _ _,
    List.length_replicate _ _⟩

theorem encodePlanes_sized (kc : Nat → Color) : (encodePlanes kc).Sized :=
  (encode_rounds kc _ zeroPlanes_sized 128).1

theorem encodePlanes_getElem? (kc : Nat → Color) (j : Nat) (hj : j < 128) :
    (encodePlanes kc).flags[j]? = some (if (kc j).lit then 0x10 else 0) ∧
    (encodePlanes kc).redChannel[j]? = some (if (kc j).lit then (kc j).r else 0) ∧
    (encodePlanes kc).greenChannel[j]? = some (if (kc j).lit then (kc j).g else 0) ∧
    (encodePlanes kc).blueChannel[j]? = some (if (kc j).lit then (kc j).b else 0) := by
  obtain ⟨g1, g2, g3, g4⟩ := (encode_rounds kc _ zeroPlanes_sized 128).2 j hj
  have hz : (List.replicate 128 (0 : Int))[j]? = some 0 := by
    rw [List.getElem?_replicate, if_pos hj]
  unfold encodePlanes
  rw [g1, g2, g3, g4]
  simp only [hz, hj, true_and]
  by_cases hl : (kc j).lit <;> simp [hl]

/-! ### Sending -/

theorem send_of_open (env : Env) (s : PerKeyRGBController) (p : Packet)
    (hd : s.device = true) :
    send env s p =
      if env.writeOk s.writes then
        (true, { s with writes := s.writes + 1, sent := s.sent ++ [p.report] })
      else (false, { s with writes := s.writes + 1, device := false }) := by
  cases p <;> simp [send, sendCmd, sendData, noDevice, hd, Packet.report]

theorem send_of_closed (env : Env) (s : PerKeyRGBController) (p : Packet)
    (hd : s.device = false) (hc : env.connectOk s.connects = true) :
    send env s p =
      if env.writeOk s.writes then
        (true, { s with device := true, connects := s.connects + 1, writes := s.writes + 1,
                        sent := s.sent ++ [p.report] })
      else (false, { s with connects := s.connects + 1, writes := s.writes + 1,
                            device := false }) := by
  cases p <;> simp [send, sendCmd, sendData, noDevice, connect, hd, hc, Packet.report]

/-- The body of `apply()` after its guard is the 22 send calls of `applyPackets`. -/
theorem apply_eq_foldl (env : Env) (s : PerKeyRGBController) :
    apply env s =
      if (noDevice env s).1 then (Except.error "Cannot connect to keyboard", (noDevice env s).2)
      else (Except.ok true,
        (applyPackets (encodePlanes (noDevice env s).2.keyColors)).foldl
          (fun c p => (send env c p).2) (noDevice env s).2) := by
  unfold apply
  by_cases h : (noDevice env s).1 = true
  · simp [h]
  · simp only [h, if_false, Bool.false_eq_true]
    rfl

/-- With an open handle and no failing write, a run of sends delivers every packet. -/
theorem foldl_send_allOk (env : Env) (hw : ∀ n, env.writeOk n = true) (l : List Packet) :
    ∀ s : PerKeyRGBController, s.device = true →
      l.foldl (fun c p => (send env c p).2) s =
        { s with writes := s.writes + l.length, sent := s.sent ++ l.map Packet.report } := by
  induction l with
  | nil => intro s _; simp
  | cons p t ih =>
    intro s hd
    rw [List.foldl_cons, send_of_open env s p hd, if_pos (hw _)]
    simp only []
    rw [ih { s with writes := s.writes + 1, sent := s.sent ++ [p.report] } hd]
    simp [Nat.add_assoc, Nat.add_comm 1]

/-- When the device can always be reopened, every packet of a run of sends is attempted
exactly once, and it is delivered exactly when its own write succeeds. -/
theorem foldl_send_reconnecting (env : Env) (hc : ∀ n, env.connectOk n = true)
    (l : List Packet) :
    ∀ s : PerKeyRGBController,
      (l.foldl (fun c p => (send env c p).2) s).writes = s.writes + l.length ∧
      (l.foldl (fun c p => (send env c p).2) s).keyColors = s.keyColors ∧
      (l.foldl (fun c p => (send env c p).2) s).sent = s.sent ++ delivered env s.writes l := by
  induction l with
  | nil => intro s; simp [delivered]
  | cons p t ih =>
    intro s
    rw [List.foldl_cons]
    obtain ⟨h1, h2, h3⟩ := ih (send env s p).2
    rw [h1, h2, h3]
    by_cases hd : s.device = true
    · rw [send_of_open env s p hd]
      by_cases hw : env.writeOk s.writes = true
      · simp [hw, delivered, Nat.add_assoc, Nat.add_comm 1]
      · simp [hw, delivered, Nat.add_assoc, Nat.add_comm 1]
    · have hd' : s.device = false := by simpa using hd
      rw [send_of_closed env s p hd' (hc _)]
      by_cases hw : env.writeOk s.writes = true
      · simp [hw, delivered, Nat.add_assoc, Nat.add_comm 1]
      · simp [hw, delivered, Nat.add_assoc, Nat.add_comm 1]

theorem report_applyPackets (p : Planes) (hp : p.Sized) :
    (applyPackets p).map Packet.report =
      specApplySequence p.flags p.redChannel p.greenChannel p.blueChannel := by
  obtain ⟨h1, h2, h3, h4⟩ := hp
  have t1 : (p.flags.take 64).length = 64 := by simp [h1]
  have d1 : (p.flags.drop 64).length = 64 := by simp [h1]
  have t2 : (p.redChannel.take 64).length = 64 := by simp [h2]
  have d2 : (p.redChannel.drop 64).length = 64 := by simp [h2]
  have t3 : (p.greenChannel.take 64).length = 64 := by simp [h3]
  have d3 : (p.greenChannel.drop 64).length = 64 := by simp [h3]
  have t4 : (p.blueChannel.take 64).length = 64 := by simp [h4]
  have d4 : (p.blueChannel.drop 64).length = 64 := by simp [h4]
  have z : (List.replicate 64 (0 : Int)).length = 64 := List.length_replicate _ _
  have hpal : palette.length = 64 := by simp [palette]
  simp only [applyPackets, List.map_cons, List.map_nil, Packet.report,
    dataReport_of_length t1, dataReport_of_length d1, dataReport_of_length t2,
    dataReport_of_length d2, dataReport_of_length t3, dataReport_of_length d3,
    dataReport_of_length t4, dataReport_of_length d4, dataReport_of_length z,
    dataReport_of_length hpal,
    cmdReport_of_length (d := [0x30, 0x00, 0x00, 0x00, 0x00, 0x55, 0xAA, 0x00]) rfl,
    cmdReport_of_length (d := [0x12, 0x00, 0x00, 0x00, 0x00, 0x55, 0xAA, 0x00]) rfl,
    cmdReport_of_length (d := [0x12, 0x00, 0x00, 0x01, 0x00, 0x55, 0xAA, 0x00]) rfl,
    cmdReport_of_length (d := [0x12, 0x00, 0x00, 0x02, 0x00, 0x55, 0xAA, 0x00]) rfl,
    cmdReport_of_length (d := [0x12, 0x00, 0x00, 0x03, 0x00, 0x55, 0xAA, 0x00]) rfl,
    cmdReport_of_length (d := [0x08, 0x33, 0x3f, 0x04, 0x00, 0x00, 0xC4, 0x3B]) rfl,
    cmdReport_of_length (d := [0x0C, 0x00, 0x00, 0x00, 0x00, 0x55, 0xAA, 0x00]) rfl,
    cmdReport_of_length (d := [0x0D, 0x00, 0x00, 0x00, 0x00, 0x55, 0xAA, 0x00]) rfl]
  rfl

/-! ### Key lookup and the frame buffer -/

theorem JsObject.mem_of_get {α : Type} (k : String) (v : α) :
    ∀ o : JsObject α, JsObject.get k o = some v → (k, v) ∈ o := by
  intro o
  induction o with
  | nil => intro h; simp [JsObject.get] at h
  | cons p t ih =>
    obtain ⟨a, w⟩ := p
    intro h
    by_cases hak : a = k
    · subst hak
      simp [JsObject.get] at h
      simp [h]
    · simp [JsObject.get, hak] at h
      exact List.mem_cons_of_mem _ (ih h)

theorem KEY_MAP_lt (k : String) (i : Nat) (h : JsObject.get k KEY_MAP = some i) : i < 96 := by
  have hall : ∀ p ∈ KEY_MAP, p.2 < 96 := by decide
  exact hall _ (JsObject.mem_of_get k i KEY_MAP h)

theorem new_keyColors (i : Nat) : PerKeyRGBController.new.keyColors i = ⟨0, 0, 0⟩ := by
  simp [PerKeyRGBController.new, forRange_update]

theorem setKey_name (s : PerKeyRGBController) (name : String) (i : Nat) (r g b : Int)
    (hname : JsObject.get (toUpperCase name) KEY_MAP = some i) :
    setKey s (KeyRef.name name) r g b =
      { s with keyColors := Function.update s.keyColors i ⟨scale r, scale g, scale b⟩ } := by
  have hi := KEY_MAP_lt _ _ hname
  have h1 : (0 : Int) ≤ Int.ofNat i ∧ Int.ofNat i < 128 := by
    constructor
    · exact Int.ofNat_nonneg i
    · have : ((i : Nat) : Int) < 128 := by omega
      exact this
  simp only [setKey, resolveKey, hname, Option.map_some', h1, and_self, if_true]
  rfl

theorem scale_nonneg (v : Int) (h : 0 ≤ v) : 0 ≤ scale v := by
  rw [scale_eq]
  omega

theorem scale_le (v : Int) (h : v ≤ 255) : scale v ≤ 63 := by
  rw [scale_eq]
  omega

theorem scale_pos_iff (v : Int) : 0 < scale v ↔ 3 ≤ v := by
  rw [scale_eq]
  omega

theorem noDevice_of_pass (env : Env) (s : PerKeyRGBController)
    (hg : s.device = true ∨ env.connectOk s.connects = true) :
    (noDevice env s).1 = false ∧ (noDevice env s).2.device = true ∧
    (noDevice env s).2.keyColors = s.keyColors ∧ (noDevice env s).2.sent = s.sent ∧
    (noDevice env s).2.writes = s.writes := by
  by_cases hd : s.device = true
  · simp [noDevice, hd]
  · have hc : env.connectOk s.connects = true := by
      cases hg with
      | inl h => exact absurd h hd
      | inr h => exact h
    simp [noDevice, connect, hd, hc]

theorem delivered_of_ok (env : Env) (l : List Packet) :
    ∀ w, (∀ n, w ≤ n → env.writeOk n = true) → delivered env w l = l.map Packet.report := by
  induction l with
  | nil => intro w _; rfl
  | cons p t ih =>
    intro w h
    simp [delivered, h w (Nat.le_refl w), ih (w + 1) (fun n hn => h n (by omega))]

theorem send_keyColors (env : Env) (s : PerKeyRGBController) (p : Packet) :
    (send env s p).2.keyColors = s.keyColors := by
  cases p <;> simp only [send, sendCmd, sendData, noDevice, connect] <;>
    (repeat' split) <;> rfl

theorem foldl_send_keyColors (env : Env) (l : List Packet) :
    ∀ s : PerKeyRGBController,
      (l.foldl (fun c p => (send env c p).2) s).keyColors = s.keyColors := by
  induction l with
  | nil => intro s; rfl
  | cons p t ih =>
    intro s
    rw [List.foldl_cons, ih, send_keyColors]

/-- An `apply()` never changes the frame buffer. -/
theorem apply_keyColors (env : Env) (s : PerKeyRGBController) :
    (apply env s).2.keyColors = s.keyColors := by
  rw [apply_eq_foldl]
  have hn : (noDevice env s).2.keyColors = s.keyColors := by
    simp only [noDevice, connect]
    (repeat' split) <;> rfl
  split
  · exact hn
  · rw [foldl_send_keyColors, hn]

theorem redW_keyColors (i : Nat) :
    redW.keyColors i = if i = 34 then ⟨63, 0, 0⟩ else ⟨0, 0, 0⟩ := by
  have h : JsObject.get (toUpperCase "W") KEY_MAP = some 34 := by decide
  have h255 : scale 255 = 63 := by rw [scale_eq]; rfl
  have h0 : scale 0 = 0 := by rw [scale_eq]; rfl
  rw [redW, setKey_name _ _ _ _ _ _ h, h255, h0]
  by_cases hi : i = 34
  · subst hi
    simp
  · simp only [Function.update_noteq hi, hi, if_false]
    exact new_keyColors i

theorem apply_reconnecting (env : Env) (s : PerKeyRGBController)
    (hg : s.device = true ∨ env.connectOk s.connects = true) :
    (apply env s).1 = Except.ok true ∧
    ((∀ n, env.connectOk n = true) →
      (apply env s).2.writes = s.writes + 22 ∧
      (apply env s).2.sent =
        s.sent ++ delivered env s.writes (applyPackets (encodePlanes s.keyColors))) := by
  obtain ⟨h1, _, h3, h4, h5⟩ := noDevice_of_pass env s hg
  rw [apply_eq_foldl, h1]
  refine ⟨by simp, fun hc => ?_⟩
  obtain ⟨f1, _, f3⟩ := foldl_send_reconnecting env hc
    (applyPackets (encodePlanes (noDevice env s).2.keyColors)) (noDevice env s).2
  simp only [Bool.false_eq_true, if_false]
  rw [f1, f3, h3, h4, h5]
  exact ⟨rfl, rfl⟩

theorem apply_allOk (env : Env) (s : PerKeyRGBController)
    (hg : s.device = true ∨ env.connectOk s.connects = true)
    (hw : ∀ n, env.writeOk n = true) :
    (apply env s).1 = Except.ok true ∧
    (apply env s).2.sent =
      s.sent ++ specApplySequence (encodePlanes s.keyColors).flags
        (encodePlanes s.keyColors).redChannel (encodePlanes s.keyColors).greenChannel
        (encodePlanes s.keyColors).blueChannel := by
  obtain ⟨h1, h2, h3, h4, _⟩ := noDevice_of_pass env s hg
  rw [apply_eq_foldl, h1]
  refine ⟨by simp, ?_⟩
  simp only [Bool.false_eq_true, if_false]
  rw [foldl_send_allOk env hw _ _ h2, report_applyPackets _ (encodePlanes_sized _), h3, h4]

theorem list_eq_set_replicate (l : List Int) (hl : l.length = 128) (i : Nat) (v : Int)
    (hi : i < 128) (h : ∀ j, j < 128 → l[j]? = some (if j = i then v else 0)) :
    l = (List.replicate 128 0).set i v := by
  apply List.ext_getElem?
  intro j
  by_cases hj : j < 128
  · rw [h j hj, List.getElem?_set, List.getElem?_replicate]
    by_cases hji : j = i
    · subst hji
      simp [hj]
    · have hij : ¬ i = j := fun e => hji e.symm
      simp [hji, hij, hj]
  · have h1 : l[j]? = none := List.getElem?_eq_none (by omega)
    have h2 : ((List.replicate 128 (0 : Int)).set i v)[j]? = none :=
      List.getElem?_eq_none (by simp; omega)
    rw [h1, h2]

/-- The planes of a frame buffer in which only slot `i` is lit. -/
theorem encodePlanes_single (kc : Nat → Color) (i : Nat) (c : Color) (hi : i < 128)
    (hkc : ∀ j, kc j = if j = i then c else ⟨0, 0, 0⟩) (hl : c.lit) :
    encodePlanes kc =
      ⟨(List.replicate 128 0).set i 0x10, (List.replicate 128 0).set i c.r,
        (List.replicate 128 0).set i c.g, (List.replicate 128 0).set i c.b⟩ := by
  obtain ⟨s1, s2, s3, s4⟩ := encodePlanes_sized kc
  have key : ∀ j, j < 128 →
      (encodePlanes kc).flags[j]? = some (if j = i then 0x10 else 0) ∧
      (encodePlanes kc).redChannel[j]? = some (if j = i then c.r else 0) ∧
      (encodePlanes kc).greenChannel[j]? = some (if j = i then c.g else 0) ∧
      (encodePlanes kc).blueChannel[j]? = some (if j = i then c.b else 0) := by
    intro j hj
    obtain ⟨g1, g2, g3, g4⟩ := encodePlanes_getElem? kc j hj
    rw [g1, g2, g3, g4, hkc j]
    by_cases hji : j = i
    · simp [hji, hl]
    · have hnl : ¬ (Color.lit ⟨0, 0, 0⟩) := by decide
      simp [hji, hnl]
  have e1 := list_eq_set_replicate _ s1 i 0x10 hi (fun j hj => (key j hj).1)
  have e2 := list_eq_set_replicate _ s2 i c.r hi (fun j hj => (key j hj).2.1)
  have e3 := list_eq_set_replicate _ s3 i c.g hi (fun j hj => (key j hj).2.2.1)
  have e4 := list_eq_set_replicate _ s4 i c.b hi (fun j hj => (key j hj).2.2.2)
  cases hp : encodePlanes kc with
  | mk f r g b =>
    rw [hp] at e1 e2 e3 e4
    simp only at e1 e2 e3 e4
    rw [e1, e2, e3, e4]

/-! ### The reactive tick -/

theorem JsObject.get_map {α : Type} (f : α → α) (k : String) :
    ∀ o : JsObject α,
      JsObject.get k (o.map (fun p => (p.1, f p.2))) = (JsObject.get k o).map f := by
  intro o
  induction o with
  | nil => rfl
  | cons p t ih =>
    obtain ⟨a, v⟩ := p
    by_cases hak : a = k
    · simp [JsObject.get, hak]
    · simp only [List.map_cons, JsObject.get, hak, if_false]
      exact ih

/-- An executed tick fades every entry of `reactiveKeyStates` and ends with the busy
flag released. -/
theorem reactiveTickWith_states (F : Int) (env : Env) (st : Bridge)
    (h : st.reactiveApplying = false) :
    (reactiveTickWith F env st).reactiveKeyStates
      = st.reactiveKeyStates.map (fun p => (p.1, fadeKey F p.2)) ∧
    (reactiveTickWith F env st).reactiveApplying = false := by
  unfold reactiveTickWith
  simp only [h, Bool.false_eq_true, if_false]
  split
  · exact ⟨rfl, rfl⟩
  · exact ⟨rfl, h⟩

theorem fadeKey_decay (F : Int) (hF : 0 < F) (t : Int) (n : Nat) :
    fadeKey F ⟨max 0 (255 - n * F), t⟩ = ⟨max 0 (255 - ((n + 1 : Nat) : Int) * F), t⟩ := by
  unfold fadeKey
  simp only
  have hmul : ((n + 1 : Nat) : Int) * F = n * F + F := by
    push_cast
    ring
  rw [hmul]
  by_cases hp : 0 < 255 - (n : Int) * F
  · have hmax : max 0 (255 - (n : Int) * F) = 255 - n * F := max_eq_right (le_of_lt hp)
    rw [hmax]
    simp only [gt_iff_lt, hp, if_true]
    congr 1
    congr 1
    ring
  · have hmax : max 0 (255 - (n : Int) * F) = 0 := max_eq_left (by omega)
    rw [hmax]
    simp only [gt_iff_lt, lt_irrefl, if_false]
    congr 1
    symm
    apply max_eq_left
    omega

/-- After `n` executed ticks a key that had brightness 255 has brightness
`max(0, 255 - n * F)`. -/
theorem reactive_decay_formula (F : Int) (hF : 0 < F) (env : Env) (k : String) (t : Int)
    (n : Nat) :
    ∀ st : Bridge, st.reactiveApplying = false →
      JsObject.get k st.reactiveKeyStates = some ⟨255, t⟩ →
      JsObject.get k ((reactiveTickWith F env)^[n] st).reactiveKeyStates
        = some ⟨max 0 (255 - n * F), t⟩ ∧
      ((reactiveTickWith F env)^[n] st).reactiveApplying = false := by
  induction n with
  | zero =>
    intro st h hk
    simpa using ⟨hk, h⟩
  | succ n ih =>
    intro st h hk
    obtain ⟨h1, h2⟩ := ih st h hk
    obtain ⟨t1, t2⟩ := reactiveTickWith_states F env _ h2
    rw [Function.iterate_succ_apply']
    refine ⟨?_, t2⟩
    rw [t1, JsObject.get_map, h1, Option.map_some', fadeKey_decay F hF]

theorem ceil_ticks (F : Int) (hF : 0 < F) :
    0 ≤ ⌈(255 : ℚ) / F⌉ ∧ 255 ≤ ⌈(255 : ℚ) / F⌉ * F ∧
    ∀ n : Nat, (n : Int) < ⌈(255 : ℚ) / F⌉ → (n : Int) * F < 255 := by
  have hFq : (0 : ℚ) < (F : ℚ) := by exact_mod_cast hF
  refine ⟨?_, ?_, ?_⟩
  · apply Int.ceil_nonneg
    positivity
  · have h1 : (255 : ℚ) / F ≤ (⌈(255 : ℚ) / F⌉ : ℚ) := Int.le_ceil _
    have h2 : (255 : ℚ) ≤ (⌈(255 : ℚ) / F⌉ : ℚ) * F := by
      rwa [div_le_iff₀ hFq] at h1
    exact_mod_cast h2
  · intro n hn
    have h1 : ((n : Int) : ℚ) < (255 : ℚ) / F := Int.lt_ceil.mp hn
    have h2 : ((n : Int) : ℚ) * F < 255 := by
      rwa [lt_div_iff₀ hFq] at h1
    exact_mod_cast h2

theorem setKey_name_keyColors (s : PerKeyRGBController) (name : String) (r g b : Int)
    (i : Nat) :
    (setKey s (KeyRef.name name) r g b).keyColors i =
      if JsObject.get (toUpperCase name) KEY_MAP = some i then ⟨scale r, scale g, scale b⟩
      else s.keyColors i := by
  cases hres : JsObject.get (toUpperCase name) KEY_MAP with
  | none => simp [setKey, resolveKey, hres]
  | some j =>
    rw [setKey_name s name j r g b hres]
    by_cases hij : i = j
    · subst hij
      simp
    · have hji : ¬ j = i := fun e => hij e.symm
      simp [Function.update_noteq hij, hji]

/-- The paint loop leaves in slot `i` the colour of the entry painted last onto it. -/
theorem paint_keyColors (rc : Color) (i : Nat) (es : List (String × KeyState)) :
    ∀ c : PerKeyRGBController,
      (es.foldl (fun c p => setKey c (KeyRef.name p.1)
          (reactiveChannel rc.r p.2.brightness) (reactiveChannel rc.g p.2.brightness)
          (reactiveChannel rc.b p.2.brightness)) c).keyColors i =
        match lastPainted i es with
        | some v => paintColor rc v
        | none => c.keyColors i := by
  induction es with
  | nil => intro c; rfl
  | cons p t ih =>
    obtain ⟨k, v⟩ := p
    intro c
    rw [List.foldl_cons, ih]
    simp only [lastPainted]
    cases hl : lastPainted i t with
    | some w => rfl
    | none =>
      simp only [setKey_name_keyColors]
      by_cases hres : JsObject.get (toUpperCase k) KEY_MAP = some i
      · simp only [hres, if_true]
        rfl
      · simp only [hres, if_false]

/-- The frame buffer after a tick that runs and finds a brightness to fade. -/
theorem reactiveTickWith_keyColors (F : Int) (env : Env) (st : Bridge)
    (h : st.reactiveApplying = false)
    (hu : st.reactiveKeyStates.any (fun p => decide (p.2.brightness > 0)) = true) (i : Nat) :
    (reactiveTickWith F env st).perKeyController.keyColors i =
      match lastPainted i
          (JsObject.entries (st.reactiveKeyStates.map (fun p => (p.1, fadeKey F p.2)))) with
      | some v => paintColor st.reactiveColor v
      | none => st.perKeyController.keyColors i := by
  unfold reactiveTickWith
  simp only [h, Bool.false_eq_true, if_false, reactiveFade, hu, if_true, reactiveFinish,
    apply_keyColors, reactivePaint]
  exact paint_keyColors st.reactiveColor i _ st.perKeyController

set_option maxRecDepth 100000 in
/-- One tick after a key-down of GRAVE the entry painted last onto slot 16 is the one
of the alias, with brightness 0. -/
theorem lastPainted_grave :
    lastPainted 16 (JsObject.entries
      ((pressed 192).reactiveKeyStates.map
        (fun p => (p.1, fadeKey REACTIVE_FADE_SPEED p.2)))) = some ⟨0, 0⟩ := by
  decide

/-! ### Smart lighting -/

/-- A simple-mode `send` touches only the handle of the module and its trace. -/
theorem Bridge.send_fields (env : Env) (st : Bridge) (mode color speed brightness direction : Int) :
    (Bridge.send env st mode color speed brightness direction).isIdle = st.isIdle ∧
    (Bridge.send env st mode color speed brightness direction).lastKeyTime = st.lastKeyTime ∧
    (Bridge.send env st mode color speed brightness direction).idleTimeout = st.idleTimeout ∧
    (Bridge.send env st mode color speed brightness direction).smartEnabled = st.smartEnabled ∧
    (Bridge.send env st mode color speed brightness direction).activeTimers = st.activeTimers := by
  simp only [Bridge.send, Bridge.connect]
  (repeat' split) <;> exact ⟨rfl, rfl, rfl, rfl, rfl⟩

theorem flashNeighbors_fields (env : Env) (st : Bridge) (vkCode : Nat) :
    (flashNeighbors env st vkCode).isIdle = st.isIdle ∧
    (flashNeighbors env st vkCode).lastKeyTime = st.lastKeyTime ∧
    (flashNeighbors env st vkCode).idleTimeout = st.idleTimeout ∧
    (flashNeighbors env st vkCode).smartEnabled = st.smartEnabled ∧
    (flashNeighbors env st vkCode).activeTimers = st.activeTimers ∧
    (flashNeighbors env st vkCode).sent = st.sent := by
  unfold flashNeighbors
  split <;> exact ⟨rfl, rfl, rfl, rfl, rfl, rfl⟩

theorem onReactiveKeyPress_fields (st : Bridge) (vkCode : Nat) (now : Int) :
    (onReactiveKeyPress st vkCode now).isIdle = st.isIdle ∧
    (onReactiveKeyPress st vkCode now).lastKeyTime = st.lastKeyTime ∧
    (onReactiveKeyPress st vkCode now).idleTimeout = st.idleTimeout ∧
    (onReactiveKeyPress st vkCode now).smartEnabled = st.smartEnabled ∧
    (onReactiveKeyPress st vkCode now).activeTimers = st.activeTimers ∧
    (onReactiveKeyPress st vkCode now).sent = st.sent := by
  unfold onReactiveKeyPress
  (repeat' split) <;> exact ⟨rfl, rfl, rfl, rfl, rfl, rfl⟩

/-- A key press of a non-modifier code with smart lighting enabled. -/
theorem onSmartKeyPress_active (env : Env) (st : Bridge) (code : Nat) (now : Int)
    (hs : st.smartEnabled = true) (hm : isModifier code = false) :
    (onSmartKeyPress env st code now).isIdle = false ∧
    (onSmartKeyPress env st code now).lastKeyTime = now ∧
    (onSmartKeyPress env st code now).idleTimeout = st.idleTimeout ∧
    (onSmartKeyPress env st code now).smartEnabled = true := by
  unfold onSmartKeyPress
  rw [if_pos ⟨hs, by simp [hm]⟩]
  by_cases hi : st.isIdle = true
  · rw [if_pos hi]
    by_cases hn : st.neighborFlashEnabled = true
    · have hn' : ({ st with isIdle := false } : Bridge).neighborFlashEnabled = true := hn
      rw [if_pos hn']
      obtain ⟨f1, _, f3, f4, _, _⟩ := flashNeighbors_fields env { st with isIdle := false } code
      exact ⟨f1, rfl, f3, f4.trans hs⟩
    · have hn' : ¬ ({ st with isIdle := false } : Bridge).neighborFlashEnabled = true := hn
      rw [if_neg hn']
      obtain ⟨f1, _, f3, f4, _⟩ :=
        Bridge.send_fields env { st with isIdle := false } 9 st.activeColor 100 100 0
      exact ⟨f1, rfl, f3, f4.trans hs⟩
  · rw [if_neg hi]
    have hi' : st.isIdle = false := by simpa using hi
    exact ⟨hi', rfl, rfl, hs⟩

/-- A key press that the smart lighting ignores: a modifier code, or smart lighting
disabled. -/
theorem onSmartKeyPress_ignored (env : Env) (st : Bridge) (code : Nat) (now : Int)
    (h : st.smartEnabled = false ∨ isModifier code = true) :
    onSmartKeyPress env st code now = st := by
  unfold onSmartKeyPress
  rcases h with h | h <;> simp [h]

theorem checkIdle_of_not_due (env : Env) (st : Bridge) (now : Int)
    (h : st.smartEnabled = false ∨ st.isIdle = true ∨ now - st.lastKeyTime ≤ st.idleTimeout) :
    checkIdle env st now = st := by
  unfold checkIdle
  rcases h with h | h | h
  · simp [h]
  · simp [h]
  · have : ¬ (now - st.lastKeyTime > st.idleTimeout) := by omega
    simp [this]

theorem checkIdle_of_due (env : Env) (st : Bridge) (now : Int)
    (hs : st.smartEnabled = true) (hi : st.isIdle = false)
    (h : now - st.lastKeyTime > st.idleTimeout) :
    (checkIdle env st now).isIdle = true := by
  unfold checkIdle
  rw [if_neg (by simp [hs]), if_pos ⟨by simp [hi], h⟩]
  exact (Bridge.send_fields env { st with isIdle := true } 8 st.idleColor 100 100 0).1

/-- Idle checks that are all within the timeout leave the bridge as it is. -/
theorem foldl_checkIdle_not_due (env : Env) (st : Bridge) (ts : List Int)
    (h : ∀ t ∈ ts, t - st.lastKeyTime ≤ st.idleTimeout) :
    ts.foldl (checkIdle env) st = st := by
  induction ts with
  | nil => rfl
  | cons t rest ih =>
    rw [List.foldl_cons,
      checkIdle_of_not_due env st t (Or.inr (Or.inr (h t (List.mem_cons_self _ _))))]
    exact ih (fun u hu => h u (List.mem_cons_of_mem _ hu))

/-! ### Gradient and rainbow -/

theorem foldl_update_apply (f : Nat → Color) (l : List Nat) :
    ∀ (kc : Nat → Color) (j : Nat),
      (l.foldl (fun acc i => Function.update acc i (f i)) kc) j
        = if j ∈ l then f j else kc j := by
  induction l with
  | nil => intro kc j; simp
  | cons a t ih =>
    intro kc j
    rw [List.foldl_cons, ih]
    by_cases hjt : j ∈ t
    · simp [hjt]
    · by_cases hja : j = a
      · subst hja
        simp [hjt]
      · simp [hjt, hja, Function.update_noteq hja]

theorem forFromTo_update (a b : Nat) (f : Nat → Color) (kc : Nat → Color) (j : Nat) :
    forFromTo a b (fun i acc => Function.update acc i (f i)) kc j
      = if a ≤ j ∧ j ≤ b then f j else kc j := by
  unfold forFromTo
  rw [foldl_update_apply]
  have hm : j ∈ List.range' a (b + 1 - a) ↔ a ≤ j ∧ j ≤ b := by
    rw [List.mem_range'_1]
    omega
  by_cases h : a ≤ j ∧ j ≤ b
  · rw [if_pos h, if_pos (hm.mpr h)]
  · rw [if_neg h, if_neg (fun hc => h (hm.mp hc))]

theorem forRange_update_fun (n : Nat) (f : Nat → Color) (kc : Nat → Color) (j : Nat) :
    forRange n (fun i acc => Function.update acc i (f i)) kc j
      = if j < n then f j else kc j := by
  unfold forRange
  rw [foldl_update_apply]
  by_cases h : j < n
  · rw [if_pos h, if_pos (List.mem_range.mpr h)]
  · rw [if_neg h, if_neg (fun hc => h (List.mem_range.mp hc))]

theorem applyGradientRow_apply (sc ec : Color) (row : Nat × Nat) (kc : Nat → Color)
    (j : Nat) :
    applyGradientRow sc ec row kc j
      = if row.1 ≤ j ∧ j ≤ row.2 then gradientColor sc ec row j else kc j :=
  forFromTo_update row.1 row.2 (gradientColor sc ec row) kc j

/-- Inside a row `applyGradient` stores the colour of that row; outside the rows it
stores nothing. -/
theorem applyGradient_apply (s : PerKeyRGBController) (sc ec : Color) (j : Nat) :
    (∀ row ∈ gradientRows, row.1 ≤ j → j ≤ row.2 →
      (applyGradient s sc ec).keyColors j = gradientColor sc ec row j) ∧
    (96 ≤ j → (applyGradient s sc ec).keyColors j = s.keyColors j) := by
  have h : (applyGradient s sc ec).keyColors j =
      if 80 ≤ j ∧ j ≤ 95 then gradientColor sc ec (80, 95) j
      else if 64 ≤ j ∧ j ≤ 79 then gradientColor sc ec (64, 79) j
      else if 48 ≤ j ∧ j ≤ 63 then gradientColor sc ec (48, 63) j
      else if 32 ≤ j ∧ j ≤ 47 then gradientColor sc ec (32, 47) j
      else if 16 ≤ j ∧ j ≤ 31 then gradientColor sc ec (16, 31) j
      else if 0 ≤ j ∧ j ≤ 15 then gradientColor sc ec (0, 15) j
      else s.keyColors j := by
    simp only [applyGradient, gradientRows, List.foldl_cons, List.foldl_nil,
      applyGradientRow_apply]
  rw [h]
  constructor
  · intro row hrow h1 h2
    simp only [gradientRows, List.mem_cons, List.mem_singleton, List.mem_nil_iff,
      or_false] at hrow
    rcases hrow with rfl | rfl | rfl | rfl | rfl | rfl <;> simp only at h1 h2 <;>
      (repeat' split) <;> first | rfl | omega
  · intro h96
    (repeat' split) <;> first | rfl | omega

theorem jsRound_intCast (n : Int) : jsRound (n : ℚ) = n := by
  unfold jsRound
  rw [Int.floor_eq_iff]
  constructor <;> norm_num

theorem jsRound_mono {x y : ℚ} (h : x ≤ y) : jsRound x ≤ jsRound y := by
  unfold jsRound
  exact Int.floor_mono (by linarith)

theorem jsRound_bounds {x : ℚ} {lo hi : Int} (h1 : (lo : ℚ) ≤ x) (h2 : x ≤ hi) :
    lo ≤ jsRound x ∧ jsRound x ≤ hi := by
  constructor
  · rw [← jsRound_intCast lo]
    exact jsRound_mono h1
  · rw [← jsRound_intCast hi]
    exact jsRound_mono h2

theorem scale_mono {a b : Int} (h : a ≤ b) : scale a ≤ scale b := by
  rw [scale_eq, scale_eq]
  omega

theorem scale_range {v : Int} (h0 : 0 ≤ v) (h1 : v ≤ 255) : 0 ≤ scale v ∧ scale v ≤ 63 :=
  ⟨scale_nonneg v h0, scale_le v h1⟩

/-- Within a row the position `t` runs from 0 to 1 and grows with the index. -/
theorem gradientT_facts (row : Nat × Nat) (hrow : row ∈ gradientRows) :
    gradientT row row.1 = 0 ∧ gradientT row row.2 = 1 ∧
    (∀ i j : Nat, i ≤ j → gradientT row i ≤ gradientT row j) ∧
    (∀ i : Nat, row.1 ≤ i → i ≤ row.2 → 0 ≤ gradientT row i ∧ gradientT row i ≤ 1) := by
  have hlen : (row.2 : ℚ) - row.1 = 15 := by
    simp only [gradientRows, List.mem_cons, List.mem_singleton, List.mem_nil_iff,
      or_false] at hrow
    rcases hrow with rfl | rfl | rfl | rfl | rfl | rfl <;> norm_num
  unfold gradientT
  rw [hlen]
  refine ⟨by simp, ?_, ?_, ?_⟩
  · norm_num
  · intro i j hij
    have : (i : ℚ) ≤ j := by exact_mod_cast hij
    apply div_le_div_of_nonneg_right _ (by norm_num)
    linarith
  · intro i h1 h2
    have c1 : (row.1 : ℚ) ≤ i := by exact_mod_cast h1
    have c2 : (i : ℚ) ≤ row.2 := by exact_mod_cast h2
    constructor
    · apply div_nonneg _ (by norm_num)
      linarith
    · rw [div_le_one (by norm_num)]
      linarith

theorem gradientChannel_mono (a b : Int) (hab : a ≤ b) {t u : ℚ} (htu : t ≤ u) :
    gradientChannel a b t ≤ gradientChannel a b u := by
  unfold gradientChannel
  apply scale_mono
  apply jsRound_mono
  have : (0 : ℚ) ≤ (b : ℚ) - a := by
    have : (a : ℚ) ≤ b := by exact_mod_cast hab
    linarith
  nlinarith

theorem gradientChannel_range (a b : Int) (ha : 0 ≤ a ∧ a ≤ 255) (hb : 0 ≤ b ∧ b ≤ 255)
    {t : ℚ} (h0 : 0 ≤ t) (h1 : t ≤ 1) :
    0 ≤ gradientChannel a b t ∧ gradientChannel a b t ≤ 63 := by
  unfold gradientChannel
  have a0 : (0 : ℚ) ≤ a := by exact_mod_cast ha.1
  have a1 : (a : ℚ) ≤ 255 := by exact_mod_cast ha.2
  have b0 : (0 : ℚ) ≤ b := by exact_mod_cast hb.1
  have b1 : (b : ℚ) ≤ 255 := by exact_mod_cast hb.2
  have e : (a : ℚ) + ((b : ℚ) - a) * t = a * (1 - t) + b * t := by ring
  have lo : ((0 : Int) : ℚ) ≤ (a : ℚ) + ((b : ℚ) - a) * t := by
    rw [e]
    have := mul_nonneg a0 (by linarith : (0 : ℚ) ≤ 1 - t)
    have := mul_nonneg b0 h0
    push_cast
    linarith
  have hi : (a : ℚ) + ((b : ℚ) - a) * t ≤ ((255 : Int) : ℚ) := by
    rw [e]
    have := mul_le_mul_of_nonneg_right a1 (by linarith : (0 : ℚ) ≤ 1 - t)
    have := mul_le_mul_of_nonneg_right b1 h0
    push_cast
    linarith
  obtain ⟨r0, r1⟩ := jsRound_bounds lo hi
  exact scale_range r0 r1

theorem gradientChannel_zero (a b : Int) : gradientChannel a b 0 = scale a := by
  unfold gradientChannel
  rw [mul_zero, add_zero, jsRound_intCast]

theorem gradientChannel_one (a b : Int) : gradientChannel a b 1 = scale b := by
  unfold gradientChannel
  have : (a : ℚ) + ((b : ℚ) - a) * 1 = ((b : Int) : ℚ) := by ring
  rw [this, jsRound_intCast]

theorem applyRainbow_apply (s : PerKeyRGBController) (j : Nat) :
    (applyRainbow s).keyColors j = if j < 96 then rainbowColor j else s.keyColors j :=
  forRange_update_fun 96 rainbowColor s.keyColors j

theorem rainbowHue_eq (i : Nat) : rainbowHue i = 15 * (i : ℚ) / 4 := by
  unfold rainbowHue
  ring

/-- The remainder modulo 12 of a non-negative number of eighths. -/
theorem jsRem_eighths (m : Nat) : jsRem ((m : ℚ) / 8) 12 = ((m % 96 : Nat) : ℚ) / 8 := by
  unfold jsRem
  have hx : (m : ℚ) / 8 / 12 = ((m : Int) : ℚ) / ((96 : Nat) : ℚ) := by
    push_cast
    ring
  have hnn : (0 : ℚ) ≤ (m : ℚ) / 8 / 12 := by positivity
  rw [if_pos hnn, hx, Rat.floor_intCast_div_natCast]
  have hdm : (m : ℚ) = 96 * ((m / 96 : Nat) : ℚ) + ((m % 96 : Nat) : ℚ) := by
    exact_mod_cast (Nat.div_add_mod m 96).symm
  have hq : (((m : Int) / ((96 : Nat) : Int) : Int) : ℚ) = ((m / 96 : Nat) : ℚ) := by
    norm_cast
  rw [hq]
  linarith

theorem clamp_eighths (J : ℚ) :
    max (min (min (J / 8 - 3) (9 - J / 8)) 1) (-1)
      = max (min (min (J - 24) (72 - J)) 8) (-8) / 8 := by
  rw [← max_div_div_right (by norm_num : (0 : ℚ) ≤ 8),
    ← min_div_div_right (by norm_num : (0 : ℚ) ≤ 8),
    ← min_div_div_right (by norm_num : (0 : ℚ) ≤ 8)]
  have e1 : J / 8 - 3 = (J - 24) / 8 := by ring
  have e2 : 9 - J / 8 = (72 - J) / 8 := by ring
  rw [e1, e2]
  norm_num

/-- One channel of `hslToRgb(hue, 100, 50)` at the hue of slot `i`. -/
theorem rainbow_channel (n i : Nat) :
    jsRound (((50 : ℚ) / 100 - (100 : ℚ) / 100 * min ((50 : ℚ) / 100) (1 - (50 : ℚ) / 100)
        * max (min (min (jsRem ((n : ℚ) + rainbowHue i / 30) 12 - 3)
            (9 - jsRem ((n : ℚ) + rainbowHue i / 30) 12)) 1) (-1)) * 255)
      = rainbowRaw n i := by
  have hk : (n : ℚ) + rainbowHue i / 30 = ((8 * n + i : Nat) : ℚ) / 8 := by
    rw [rainbowHue_eq]
    push_cast
    ring
  rw [hk, jsRem_eighths, clamp_eighths]
  have hmin : min ((50 : ℚ) / 100) (1 - (50 : ℚ) / 100) = 1 / 2 := by norm_num
  rw [hmin]
  unfold rainbowRaw jsRound
  simp only []
  generalize (8 * n + i) % 96 = J
  have hcast : ((50 : ℚ) / 100 - (100 : ℚ) / 100 * (1 / 2)
        * (max (min (min ((J : ℚ) - 24) (72 - (J : ℚ))) 8) (-8) / 8)) * 255 + 1 / 2
      = ((255 * (8 - max (min (min ((J : Int) - 24) (72 - (J : Int))) 8) (-8)) + 8 : Int) : ℚ)
          / ((16 : Nat) : ℚ) := by
    push_cast
    ring
  rw [hcast, Rat.floor_intCast_div_natCast]
  rfl

theorem hslToRgb_rainbow (i : Nat) :
    hslToRgb (rainbowHue i) 100 50 = ⟨rainbowRaw 0 i, rainbowRaw 8 i, rainbowRaw 4 i⟩ := by
  have h0 := rainbow_channel 0 i
  have h8 := rainbow_channel 8 i
  have h4 := rainbow_channel 4 i
  simp only [Nat.cast_ofNat, Nat.cast_zero] at h0 h8 h4
  unfold hslToRgb
  simp only [h0, h8, h4]

theorem rainbowColor_eq (i : Nat) : rainbowColor i = rainbowStored i := by
  unfold rainbowColor rainbowStored
  rw [hslToRgb_rainbow]
  simp only [scale_eq]

set_option maxRecDepth 100000 in
theorem rainbowStored_injective :
    ∀ i, i < 96 → ∀ j, j < 96 → rainbowStored i = rainbowStored j → i = j := by
  decide

set_option maxRecDepth 100000 in
theorem rainbowStored_range : ∀ i, i < 96 → (rainbowStored i).Stored := by
  decide

/-! ### Simple mode -/

theorem brightnessByte_eq (b : Int) : brightnessByte b = (126 * b + 100) / 200 := by
  have h : ((b : ℚ) / 100) * 63 + 1 / 2 = ((126 * b + 100 : Int) : ℚ) / ((200 : Nat) : ℚ) := by
    push_cast
    ring
  rw [brightnessByte, jsRound, h, Rat.floor_intCast_div_natCast]
  rfl

theorem speedByte_eq (v : Int) : speedByte v = max 1 ((130 - v) / 20) := by
  have h : (6 : ℚ) - ((v : ℚ) / 100) * 5 + 1 / 2 = ((130 - v : Int) : ℚ) / ((20 : Nat) : ℚ) := by
    push_cast
    ring
  rw [speedByte, jsRound, h, Rat.floor_intCast_div_natCast]
  rfl

theorem simpleReport_eq (mode color speed brightness direction : Int) :
    simpleReport mode color speed brightness direction =
      [0x03, 0x08, mode, brightnessByte brightness, speedByte speed, direction, color]
        ++ List.replicate 58 0 := by
  rfl

/-- A `send` with a handle that is there or can be opened, and a write that succeeds,
adds exactly its report to the trace. -/
theorem Bridge.send_sent (env : Env) (st : Bridge)
    (mode color speed brightness direction : Int)
    (hdev : st.device = true ∨ env.simpleConnectOk st.connects = true)
    (hw : env.simpleWriteOk st.writes = true) :
    (Bridge.send env st mode color speed brightness direction).sent =
      st.sent ++ [Report.feature (simpleReport mode color speed brightness direction)] := by
  unfold Bridge.send Bridge.connect
  by_cases hd : st.device = true
  · simp [hd, hw]
  · have hc : env.simpleConnectOk st.connects = true := by
      rcases hdev with h | h
      · exact absurd h hd
      · exact h
    simp [hd, hc, hw]

/-! ### The channel range -/

theorem setKey_index (s : PerKeyRGBController) (idx : Int) (r g b : Int) (i : Nat) :
    (setKey s (KeyRef.index idx) r g b).keyColors i =
      if (0 ≤ idx ∧ idx < 128) ∧ idx.toNat = i then ⟨scale r, scale g, scale b⟩
      else s.keyColors i := by
  unfold setKey resolveKey
  by_cases h : 0 ≤ idx ∧ idx < 128
  · simp only [h, and_self, if_true, true_and]
    by_cases hi : idx.toNat = i
    · subst hi
      simp
    · have hi' : i ≠ idx.toNat := fun e => hi e.symm
      simp [hi, Function.update_noteq hi']
  · simp [h]

theorem scaled_stored (r g b : Int) (h : Color.InRange ⟨r, g, b⟩) :
    Color.Stored ⟨scale r, scale g, scale b⟩ :=
  ⟨scale_range h.1.1 h.1.2, scale_range h.2.1.1 h.2.1.2, scale_range h.2.2.1 h.2.2.2⟩

theorem gradientColor_stored (sc ec : Color) (hs : sc.InRange) (he : ec.InRange)
    (row : Nat × Nat) (hrow : row ∈ gradientRows) (i : Nat) (h1 : row.1 ≤ i)
    (h2 : i ≤ row.2) : (gradientColor sc ec row i).Stored := by
  obtain ⟨t0, t1⟩ := (gradientT_facts row hrow).2.2.2 i h1 h2
  exact ⟨gradientChannel_range _ _ hs.1 he.1 t0 t1, gradientChannel_range _ _ hs.2.1 he.2.1 t0 t1,
    gradientChannel_range _ _ hs.2.2 he.2.2 t0 t1⟩

/-- Every index below 96 lies in one of the six rows. -/
theorem row_of_index (i : Nat) (h : i < 96) :
    ∃ row ∈ gradientRows, row.1 ≤ i ∧ i ≤ row.2 := by
  by_cases h1 : i ≤ 15
  · exact ⟨(0, 15), by decide, Nat.zero_le _, h1⟩
  by_cases h2 : i ≤ 31
  · exact ⟨(16, 31), by decide, by simp only; omega, h2⟩
  by_cases h3 : i ≤ 47
  · exact ⟨(32, 47), by decide, by simp only; omega, h3⟩
  by_cases h4 : i ≤ 63
  · exact ⟨(48, 63), by decide, by simp only; omega, h4⟩
  by_cases h5 : i ≤ 79
  · exact ⟨(64, 79), by decide, by simp only; omega, h5⟩
  · exact ⟨(80, 95), by decide, by simp only; omega, by simp only; omega⟩

/-- A frame-buffer call with input channels of 0..255 keeps every slot in 0..63. -/
theorem bufferOp_run_stored (s : PerKeyRGBController) (hs : s.Stored) (op : BufferOp)
    (hop : op.InRange) : (op.run s).Stored := by
  intro i hi
  cases op with
  | setKey key r g b =>
    have hc := scaled_stored r g b hop
    cases key with
    | name k =>
      show ((setKey s (KeyRef.name k) r g b).keyColors i).Stored
      rw [setKey_name_keyColors]
      split
      · exact hc
      · exact hs i hi
    | index idx =>
      show ((setKey s (KeyRef.index idx) r g b).keyColors i).Stored
      rw [setKey_index]
      split
      · exact hc
      · exact hs i hi
  | setAll r g b =>
    show ((setAll s r g b).keyColors i).Stored
    simp only [setAll, forRange_update, hi, if_true]
    exact scaled_stored r g b hop
  | clearAll =>
    show ((clearAll s).keyColors i).Stored
    simp only [clearAll, forRange_update, hi, if_true]
    decide
  | applyGradient sc ec =>
    show ((applyGradient s sc ec).keyColors i).Stored
    by_cases h96 : i < 96
    · obtain ⟨row, hrow, h1, h2⟩ := row_of_index i h96
      rw [(applyGradient_apply s sc ec i).1 row hrow h1 h2]
      exact gradientColor_stored sc ec hop.1 hop.2 row hrow i h1 h2
    · rw [(applyGradient_apply s sc ec i).2 (by omega)]
      exact hs i hi
  | applyRainbow =>
    show ((applyRainbow s).keyColors i).Stored
    rw [applyRainbow_apply]
    split
    · rename_i h96
      rw [rainbowColor_eq]
      exact rainbowStored_range i h96
    · exact hs i hi

theorem new_stored : PerKeyRGBController.new.Stored := by
  intro i _
  rw [new_keyColors]
  decide

theorem foldl_run_stored (ops : List BufferOp) (hops : ∀ op ∈ ops, op.InRange) :
    ∀ s : PerKeyRGBController, s.Stored → (ops.foldl BufferOp.run s).Stored := by
  induction ops with
  | nil => intro s hs; exact hs
  | cons op rest ih =>
    intro s hs
    rw [List.foldl_cons]
    exact ih (fun o ho => hops o (List.mem_cons_of_mem _ ho)) _
      (bufferOp_run_stored s hs op (hops op (List.mem_cons_self _ _)))

/-! ### The doubles of the code agree with the exact model -/

set_option maxRecDepth 1000000 in
/-- In doubles `(i / 96) * 360` is exactly `15 i / 4` for every slot of the rainbow. -/
theorem rainbowHue_binary64 :
    ∀ i, i < 96 → 0 < i →
      (mulBinary64 (toBinary64 i 96) 360).1 * 4
        = 15 * i * 2 ^ (mulBinary64 (toBinary64 i 96) 360).2 := by
  decide

set_option maxRecDepth 1000000 in
theorem scale_binary64_aux :
    ∀ v, v < 256 → 0 < v →
      ((roundBinary64 (mulBinary64 (toBinary64 v 255) 63) : Nat) : Int)
        = (126 * (v : Int) + 255) / 510 := by
  decide

/-- In doubles `Math.round((value / 255) * 63)` is `scale value` for every channel
value of 1..255. -/
theorem scale_binary64 (v : Nat) (h0 : 0 < v) (h1 : v < 256) :
    ((roundBinary64 (mulBinary64 (toBinary64 v 255) 63) : Nat) : Int) = scale v := by
  rw [scale_eq]
  exact scale_binary64_aux v h1 h0

set_option maxRecDepth 1000000 in
theorem brightnessByte_binary64_aux :
    ∀ v, v < 101 → 0 < v →
      ((roundBinary64 (mulBinary64 (toBinary64 v 100) 63) : Nat) : Int)
        = (126 * (v : Int) + 100) / 200 := by
  decide

/-- In doubles `Math.round((brightness / 100) * 63)` is `brightnessByte brightness` for
every brightness of 1..100. -/
theorem brightnessByte_binary64 (v : Nat) (h0 : 0 < v) (h1 : v < 101) :
    ((roundBinary64 (mulBinary64 (toBinary64 v 100) 63) : Nat) : Int) = brightnessByte v := by
  rw [brightnessByte_eq]
  exact brightnessByte_binary64_aux v h1 h0

set_option maxRecDepth 1000000 in
theorem speedByte_binary64_aux :
    ∀ v, v < 101 → 0 < v →
      max 1 ((roundBinary64 (subFromBinary64 6 (mulBinary64 (toBinary64 v 100) 5)) : Nat) : Int)
        = max 1 ((130 - (v : Int)) / 20) := by
  decide

/-- In doubles `Math.max(1, Math.round(6 - (speed / 100) * 5))` is `speedByte speed`
for every speed of 1..100. -/
theorem speedByte_binary64 (v : Nat) (h0 : 0 < v) (h1 : v < 101) :
    max 1 ((roundBinary64 (subFromBinary64 6 (mulBinary64 (toBinary64 v 100) 5)) : Nat) : Int)
      = speedByte v := by
  rw [speedByte_eq]
  exact speedByte_binary64_aux v h1 h0

/-! ### Clearing, the missing device and the key table -/

theorem clearAll_keyColors (s : PerKeyRGBController) (i : Nat) (hi : i < 128) :
    (clearAll s).keyColors i = ⟨0, 0, 0⟩ := by
  simp only [clearAll, forRange_update, hi, if_true]

/-- The planes at a slot that holds (0, 0, 0). -/
theorem encodePlanes_off (kc : Nat → Color) (i : Nat) (hi : i < 128)
    (h : kc i = ⟨0, 0, 0⟩) :
    (encodePlanes kc).flags[i]? = some 0 ∧ (encodePlanes kc).redChannel[i]? = some 0 ∧
    (encodePlanes kc).greenChannel[i]? = some 0 ∧ (encodePlanes kc).blueChannel[i]? = some 0 := by
  obtain ⟨g1, g2, g3, g4⟩ := encodePlanes_getElem? kc i hi
  have hl : ¬ (kc i).lit := by
    rw [h]
    decide
  rw [g1, g2, g3, g4]
  simp [hl]

theorem apply_of_no_device (env : Env) (s : PerKeyRGBController) (hd : s.device = false)
    (hc : env.connectOk s.connects = false) :
    apply env s =
      (Except.error "Cannot connect to keyboard", { s with connects := s.connects + 1 }) := by
  rw [apply_eq_foldl]
  simp [noDevice, connect, hd, hc]

set_option maxRecDepth 100000 in
/-- Every name of the key table is its own upper-casing. -/
theorem KEY_MAP_upper : ∀ p ∈ KEY_MAP, toUpperCase p.1 = p.1 := by
  decide

theorem resolveKey_of_upper (s n : String) (h : toUpperCase s = n) :
    resolveKey (KeyRef.name s) = (JsObject.get n KEY_MAP).map Int.ofNat := by
  simp only [resolveKey, h]

set_option maxRecDepth 100000 in
theorem rainbowRaw_saturated :
    ∀ i, i < 96 →
      Color.InRange ⟨rainbowRaw 0 i, rainbowRaw 8 i, rainbowRaw 4 i⟩ ∧
      max (max (rainbowRaw 0 i) (rainbowRaw 8 i)) (rainbowRaw 4 i) = 255 ∧
      min (min (rainbowRaw 0 i) (rainbowRaw 8 i)) (rainbowRaw 4 i) = 0 := by
  decide

/-! ### Idempotence and the rows of the gradient -/

theorem controller_ext (a b : PerKeyRGBController) (h1 : a.device = b.device)
    (h2 : ∀ i, a.keyColors i = b.keyColors i) (h3 : a.connects = b.connects)
    (h4 : a.writes = b.writes) (h5 : a.sent = b.sent) : a = b := by
  cases a
  cases b
  simp only [PerKeyRGBController.mk.injEq]
  exact ⟨h1, funext h2, h3, h4, h5⟩

theorem setKey_idem (s : PerKeyRGBController) (key : KeyRef) (r g b : Int) :
    setKey (setKey s key r g b) key r g b = setKey s key r g b := by
  unfold setKey
  cases resolveKey key with
  | none => rfl
  | some idx =>
    by_cases h : 0 ≤ idx ∧ idx < 128
    · simp only [h, and_self, if_true, Function.update_idem]
    · simp only [h, if_false]

theorem setAll_keyColors (s : PerKeyRGBController) (r g b : Int) (i : Nat) :
    (setAll s r g b).keyColors i =
      if i < 128 then ⟨scale r, scale g, scale b⟩ else s.keyColors i := by
  simp only [setAll, forRange_update]

theorem setAll_idem (s : PerKeyRGBController) (r g b : Int) :
    setAll (setAll s r g b) r g b = setAll s r g b := by
  refine controller_ext (setAll (setAll s r g b) r g b) (setAll s r g b) rfl (fun i => ?_) rfl rfl rfl
  rw [setAll_keyColors, setAll_keyColors]
  split <;> rfl

theorem clearAll_idem (s : PerKeyRGBController) : clearAll (clearAll s) = clearAll s := by
  refine controller_ext (clearAll (clearAll s)) (clearAll s) rfl (fun i => ?_) rfl rfl rfl
  simp only [clearAll, forRange_update]
  split <;> rfl

theorem applyGradient_idem (s : PerKeyRGBController) (sc ec : Color) :
    applyGradient (applyGradient s sc ec) sc ec = applyGradient s sc ec := by
  refine controller_ext (applyGradient (applyGradient s sc ec) sc ec) (applyGradient s sc ec) rfl (fun i => ?_) rfl rfl rfl
  by_cases h96 : i < 96
  · obtain ⟨row, hrow, h1, h2⟩ := row_of_index i h96
    rw [(applyGradient_apply (applyGradient s sc ec) sc ec i).1 row hrow h1 h2,
      (applyGradient_apply s sc ec i).1 row hrow h1 h2]
  · rw [(applyGradient_apply (applyGradient s sc ec) sc ec i).2 (by omega)]

theorem applyRainbow_idem (s : PerKeyRGBController) :
    applyRainbow (applyRainbow s) = applyRainbow s := by
  refine controller_ext (applyRainbow (applyRainbow s)) (applyRainbow s) rfl (fun i => ?_) rfl rfl rfl
  rw [applyRainbow_apply, applyRainbow_apply]
  split <;> rfl

/-- The rows that contain an index: none from 96 on, and at most one. -/
theorem gradientRows_disjoint (i : Nat) :
    (96 ≤ i → ¬ ∃ row ∈ gradientRows, row.1 ≤ i ∧ i ≤ row.2) ∧
    (∀ row ∈ gradientRows, ∀ row' ∈ gradientRows,
      row.1 ≤ i ∧ i ≤ row.2 → row'.1 ≤ i ∧ i ≤ row'.2 → row' = row) := by
  constructor
  · rintro h96 ⟨row, hrow, h1, h2⟩
    simp only [gradientRows, List.mem_cons, List.mem_singleton, List.mem_nil_iff,
      or_false] at hrow
    rcases hrow with rfl | rfl | rfl | rfl | rfl | rfl <;> simp only at h1 h2 <;> omega
  · intro row hrow row' hrow' h h'
    simp only [gradientRows, List.mem_cons, List.mem_singleton, List.mem_nil_iff,
      or_false] at hrow hrow'
    rcases hrow with rfl | rfl | rfl | rfl | rfl | rfl <;>
      rcases hrow' with rfl | rfl | rfl | rfl | rfl | rfl <;>
      simp only at h h' <;> first | rfl | omega

/-! ### Commands and the neighbor flash -/

theorem apply_allOk_length (env : Env) (s : PerKeyRGBController)
    (hg : s.device = true ∨ env.connectOk s.connects = true)
    (hw : ∀ n, env.writeOk n = true) :
    (apply env s).2.sent.length = s.sent.length + 22 ∧
    (apply env s).2.sent.drop s.sent.length
      = specApplySequence (encodePlanes s.keyColors).flags (encodePlanes s.keyColors).redChannel
          (encodePlanes s.keyColors).greenChannel (encodePlanes s.keyColors).blueChannel := by
  rw [(apply_allOk env s hg hw).2]
  constructor
  · simp [specApplySequence, specPlane, specFinalize]
  · simp

theorem mem_of_lookup (code : Nat) (k : String) :
    ∀ l : List (Nat × String), l.lookup code = some k → (code, k) ∈ l := by
  intro l
  induction l with
  | nil => intro h; simp at h
  | cons p t ih =>
    obtain ⟨a, v⟩ := p
    intro h
    by_cases hc : code = a
    · subst hc
      simp [List.lookup] at h
      simp [h]
    · have hb : (code == a) = false := by simpa using hc
      simp only [List.lookup, hb] at h
      exact List.mem_cons_of_mem _ (ih h)

set_option maxRecDepth 100000 in
/-- Every key name of the virtual-key table and every neighbour of such a key is a name
of the key table. -/
theorem flash_names_resolve :
    ∀ p ∈ VK_TO_KEYNAME_TABLE,
      ∀ n ∈ p.2 :: (JsObject.get p.2 KEY_NEIGHBORS).getD [],
        (JsObject.get n KEY_MAP).isSome = true := by
  decide

/-- Painting a list of names in one colour: a slot gets the colour when one of the
names resolves to it and keeps its colour otherwise. -/
theorem foldl_setKey_const (r g b : Int) (i : Nat) (names : List String) :
    ∀ c : PerKeyRGBController,
      ((∃ n ∈ names, JsObject.get (toUpperCase n) KEY_MAP = some i) →
        (names.foldl (fun c k => setKey c (KeyRef.name k) r g b) c).keyColors i
          = ⟨scale r, scale g, scale b⟩) ∧
      ((¬ ∃ n ∈ names, JsObject.get (toUpperCase n) KEY_MAP = some i) →
        (names.foldl (fun c k => setKey c (KeyRef.name k) r g b) c).keyColors i
          = c.keyColors i) := by
  induction names with
  | nil =>
    intro c
    constructor
    · rintro ⟨n, hn, _⟩
      simp at hn
    · intro _
      rfl
  | cons a t ih =>
    intro c
    rw [List.foldl_cons]
    obtain ⟨ih1, ih2⟩ := ih (setKey c (KeyRef.name a) r g b)
    constructor
    · rintro ⟨n, hn, hres⟩
      by_cases ht : ∃ m ∈ t, JsObject.get (toUpperCase m) KEY_MAP = some i
      · exact ih1 ht
      · rw [ih2 ht, setKey_name_keyColors]
        rcases List.mem_cons.mp hn with rfl | hnt
        · rw [if_pos hres]
        · exact absurd ⟨n, hnt, hres⟩ ht
    · intro hno
      have ht : ¬ ∃ m ∈ t, JsObject.get (toUpperCase m) KEY_MAP = some i :=
        fun ⟨m, hm, hres⟩ => hno ⟨m, List.mem_cons_of_mem _ hm, hres⟩
      have ha : ¬ JsObject.get (toUpperCase a) KEY_MAP = some i :=
        fun hres => hno ⟨a, List.mem_cons_self _ _, hres⟩
      rw [ih2 ht, setKey_name_keyColors, if_neg ha]

theorem setKey_trace (c : PerKeyRGBController) (key : KeyRef) (r g b : Int) :
    (setKey c key r g b).device = c.device ∧ (setKey c key r g b).connects = c.connects ∧
    (setKey c key r g b).sent = c.sent := by
  unfold setKey
  (repeat' split) <;> exact ⟨rfl, rfl, rfl⟩

theorem foldl_setKey_trace (r g b : Int) (names : List String) :
    ∀ c : PerKeyRGBController,
      (names.foldl (fun c n => setKey c (KeyRef.name n) r g b) c).device = c.device ∧
      (names.foldl (fun c n => setKey c (KeyRef.name n) r g b) c).connects = c.connects ∧
      (names.foldl (fun c n => setKey c (KeyRef.name n) r g b) c).sent = c.sent := by
  induction names with
  | nil => intro c; exact ⟨rfl, rfl, rfl⟩
  | cons a t ih =>
    intro c
    rw [List.foldl_cons]
    obtain ⟨i1, i2, i3⟩ := ih (setKey c (KeyRef.name a) r g b)
    obtain ⟨s1, s2, s3⟩ := setKey_trace c (KeyRef.name a) r g b
    exact ⟨i1.trans s1, i2.trans s2, i3.trans s3⟩

/-- The controller after the neighbor flash of a code with the key name `k`. -/
theorem flashNeighbors_controller (env : Env) (st : Bridge) (code : Nat) (k : String)
    (hk : VK_TO_KEYNAME code = some k) :
    (flashNeighbors env st code).perKeyController =
      (apply env ((k :: (JsObject.get k KEY_NEIGHBORS).getD []).foldl
        (fun c n => setKey c (KeyRef.name n) 0 255 255)
        (clearAll st.perKeyController))).2 := by
  simp only [flashNeighbors, hk]
  rfl

theorem flashNeighbors_sent_length (env : Env) (st : Bridge) (code : Nat) (k : String)
    (hk : VK_TO_KEYNAME code = some k)
    (hg : st.perKeyController.device = true ∨
      env.connectOk st.perKeyController.connects = true)
    (hw : ∀ n, env.writeOk n = true) :
    (flashNeighbors env st code).perKeyController.sent.length
      = st.perKeyController.sent.length + 22 := by
  rw [flashNeighbors_controller env st code k hk]
  obtain ⟨d1, d2, d3⟩ := foldl_setKey_trace 0 255 255
    (k :: (JsObject.get k KEY_NEIGHBORS).getD []) (clearAll st.perKeyController)
  have hg' : ((k :: (JsObject.get k KEY_NEIGHBORS).getD []).foldl
        (fun c n => setKey c (KeyRef.name n) 0 255 255)
        (clearAll st.perKeyController)).device = true ∨
      env.connectOk ((k :: (JsObject.get k KEY_NEIGHBORS).getD []).foldl
        (fun c n => setKey c (KeyRef.name n) 0 255 255)
        (clearAll st.perKeyController)).connects = true := by
    rw [d1, d2]
    exact hg
  rw [(apply_allOk_length env _ hg' hw).1, d3]
  rfl

/-- The applies that `perkey-apply` and the reactive deactivation run, whatever the busy
flag says. -/
theorem command_applies (env : Env) (st : Bridge)
    (hg : st.perKeyController.device = true ∨
      env.connectOk st.perKeyController.connects = true)
    (hw : ∀ n, env.writeOk n = true) :
    (handleCommand env st Command.perkeyApply).perKeyController.sent.length
      = st.perKeyController.sent.length + 22 ∧
    ((handleCommand env st Command.perkeyApply).perKeyController.sent.drop
        st.perKeyController.sent.length).head?
      = some (Report.feature [0, 0x30, 0, 0, 0, 0, 0x55, 0xAA, 0]) ∧
    (handleCommand env st (Command.toggleReactive false none)).perKeyController.sent.length
      = st.perKeyController.sent.length + 22 := by
  have h1 : (handleCommand env st Command.perkeyApply).perKeyController
      = (apply env st.perKeyController).2 := rfl
  have h2 : (handleCommand env st (Command.toggleReactive false none)).perKeyController
      = (apply env (clearAll st.perKeyController)).2 := by
    have hs : ∀ x : Bridge, (stopReactiveMode x).perKeyController = x.perKeyController := by
      intro x
      unfold stopReactiveMode
      split <;> rfl
    simp only [handleCommand, Bool.false_eq_true, if_false, hs]
  obtain ⟨a1, a2⟩ := apply_allOk_length env st.perKeyController hg hw
  have hg' : (clearAll st.perKeyController).device = true ∨
      env.connectOk (clearAll st.perKeyController).connects = true := hg
  refine ⟨?_, ?_, ?_⟩
  · rw [h1, a1]
  · rw [h1, a2]
    rfl
  · rw [h2, (apply_allOk_length env _ hg' hw).1]
    rfl

/-! ### Reachable states of the reactive mode -/

theorem JsObject.get_set {α : Type} (k k' : String) (v : α) :
    ∀ o : JsObject α,
      JsObject.get k (JsObject.set k' v o) = if k' = k then some v else JsObject.get k o := by
  intro o
  induction o with
  | nil =>
    by_cases h : k' = k <;> simp [JsObject.set, JsObject.get, h]
  | cons p t ih =>
    obtain ⟨a, w⟩ := p
    by_cases ha : a = k'
    · subst ha
      by_cases hk : a = k <;> simp [JsObject.set, JsObject.get, hk]
    · simp only [JsObject.set, ha, if_false, JsObject.get, ih]
      by_cases hk : a = k
      · have hk' : ¬ k' = k := fun e => ha (hk.trans e.symm)
        simp [hk, hk']
      · simp [hk]

theorem JsObject.mem_set {α : Type} (k : String) (v : α) (p : String × α) :
    ∀ o : JsObject α, p ∈ JsObject.set k v o → p ∈ o ∨ p.2 = v := by
  intro o
  induction o with
  | nil =>
    intro h
    simp only [JsObject.set, List.mem_singleton] at h
    right
    rw [h]
  | cons q t ih =>
    obtain ⟨a, w⟩ := q
    intro h
    by_cases ha : a = k
    · simp only [JsObject.set, ha, if_true, List.mem_cons] at h
      rcases h with h | h
      · right
        rw [h]
      · left
        exact List.mem_cons_of_mem _ h
    · simp only [JsObject.set, ha, if_false, List.mem_cons] at h
      rcases h with h | h
      · left
        rw [h]
        exact List.mem_cons_self _ _
      · rcases ih h with h' | h'
        · left
          exact List.mem_cons_of_mem _ h'
        · right
          exact h'

/-- The table that `startReactiveMode` builds. -/
theorem foldl_set_init {α : Type} (v : α) (keys : List String) :
    ∀ o : JsObject α,
      (∀ k, JsObject.get k (keys.foldl (fun o k => JsObject.set k v o) o)
        = if k ∈ keys then some v else JsObject.get k o) ∧
      (∀ p, p ∈ keys.foldl (fun o k => JsObject.set k v o) o → p ∈ o ∨ p.2 = v) := by
  induction keys with
  | nil =>
    intro o
    exact ⟨fun k => by simp, fun p h => Or.inl h⟩
  | cons a t ih =>
    intro o
    rw [List.foldl_cons]
    obtain ⟨i1, i2⟩ := ih (JsObject.set a v o)
    constructor
    · intro k
      rw [i1 k, JsObject.get_set]
      by_cases hkt : k ∈ t
      · simp [hkt]
      · by_cases hak : a = k
        · subst hak
          simp
        · have hka : ¬ k = a := fun e => hak e.symm
          simp [hkt, hak, hka]
    · intro p hp
      rcases i2 p hp with h | h
      · exact JsObject.mem_set a v p o h
      · exact Or.inr h

theorem sameReactive_refl (st : Bridge) : SameReactive st st := ⟨rfl, rfl, rfl⟩

theorem Bridge.send_reactive (env : Env) (st : Bridge)
    (mode color speed brightness direction : Int) :
    SameReactive (Bridge.send env st mode color speed brightness direction) st := by
  simp only [Bridge.send, Bridge.connect]
  (repeat' split) <;> exact ⟨rfl, rfl, rfl⟩

theorem flashNeighbors_reactive (env : Env) (st : Bridge) (vkCode : Nat) :
    SameReactive (flashNeighbors env st vkCode) st := by
  unfold flashNeighbors
  split <;> exact ⟨rfl, rfl, rfl⟩

theorem checkIdle_reactive (env : Env) (st : Bridge) (now : Int) :
    SameReactive (checkIdle env st now) st := by
  unfold checkIdle
  split
  · exact sameReactive_refl st
  · dsimp only
    split
    · exact Bridge.send_reactive env { st with isIdle := true } 8 st.idleColor 100 100 0
    · exact sameReactive_refl st

theorem fireActiveTimer_reactive (env : Env) (st : Bridge) :
    SameReactive (fireActiveTimer env st) st := by
  unfold fireActiveTimer
  split
  · exact sameReactive_refl st
  · rename_i rest _
    exact Bridge.send_reactive env { st with activeTimers := rest } 9 st.activeColor 100 100 0

theorem onSmartKeyPress_reactive (env : Env) (st : Bridge) (code : Nat) (now : Int) :
    SameReactive (onSmartKeyPress env st code now) st := by
  unfold onSmartKeyPress
  split
  · dsimp only
    by_cases hI : st.isIdle = true
    · rw [if_pos hI]
      by_cases hN : st.neighborFlashEnabled = true
      · rw [if_pos hN]
        exact flashNeighbors_reactive env { st with isIdle := false } code
      · rw [if_neg hN]
        exact Bridge.send_reactive env { st with isIdle := false } 9 st.activeColor 100 100 0
    · rw [if_neg hI]
      exact sameReactive_refl st
  · exact sameReactive_refl st

/-- A command other than `toggle-reactive` leaves the state of the reactive mode. -/
theorem handleCommand_reactive (env : Env) (st : Bridge) (cmd : Command)
    (h : ∀ active color, cmd ≠ Command.toggleReactive active color) :
    SameReactive (handleCommand env st cmd) st := by
  cases cmd with
  | perkeyAll r g b =>
    simp only [handleCommand]
    split <;> exact ⟨rfl, rfl, rfl⟩
  | perkeyKey key r g b => exact ⟨rfl, rfl, rfl⟩
  | perkeyApply => exact ⟨rfl, rfl, rfl⟩
  | perkeyClear => exact ⟨rfl, rfl, rfl⟩
  | toggleReactive active color => exact absurd rfl (h active color)
  | setMode mode color speed brightness direction =>
    exact Bridge.send_reactive env { st with smartEnabled := false } mode color _ _ _
  | toggleSmart active now =>
    simp only [handleCommand]
    split
    · exact Bridge.send_reactive env _ 9 _ 100 100 0
    · exact ⟨rfl, rfl, rfl⟩
  | settings a b c => exact ⟨rfl, rfl, rfl⟩
  | perkeyGradient a b => exact ⟨rfl, rfl, rfl⟩
  | perkeyRainbow => exact ⟨rfl, rfl, rfl⟩
  | toggleNeighborFlash a => exact ⟨rfl, rfl, rfl⟩

/-- What `toggle-reactive` does to the state of the reactive mode. -/
theorem toggleReactive_reactive (env : Env) (st : Bridge) (active : Bool)
    (color : Option Color) :
    (handleCommand env st (Command.toggleReactive active color)).reactiveEnabled = active ∧
    (handleCommand env st (Command.toggleReactive active color)).reactiveInterval = active ∧
    (((handleCommand env st (Command.toggleReactive active color)).reactiveKeyStates
        = st.reactiveKeyStates ∧ (active = true → st.reactiveInterval = true)) ∨
      (active = true ∧ st.reactiveInterval = false ∧
        (handleCommand env st (Command.toggleReactive active color)).reactiveKeyStates
          = (JsObject.keys KEY_MAP).foldl (fun o k => JsObject.set k ⟨0, 0⟩ o)
              st.reactiveKeyStates)) := by
  cases active with
  | true =>
    by_cases hi : st.reactiveInterval = true
    · simp [handleCommand, startReactiveMode, hi]
    · have hi' : st.reactiveInterval = false := by simpa using hi
      simp [handleCommand, startReactiveMode, hi']
  | false =>
    by_cases hi : st.reactiveInterval = true
    · simp [handleCommand, stopReactiveMode, hi]
    · have hi' : st.reactiveInterval = false := by simpa using hi
      simp [handleCommand, stopReactiveMode, hi']

/-- What a key press does to the state of the reactive mode. -/
theorem onKeyPress_reactive (env : Env) (st : Bridge) (code : Nat) (now : Int) :
    (onKeyPress env st code now).reactiveEnabled = st.reactiveEnabled ∧
    (onKeyPress env st code now).reactiveInterval = st.reactiveInterval ∧
    (onKeyPress env st code now).reactiveKeyStates =
      (if st.reactiveEnabled = true then
        match VK_TO_KEYNAME code with
        | some k =>
          if (JsObject.get k st.reactiveKeyStates).isSome = true then
            JsObject.set k ⟨255, now⟩ st.reactiveKeyStates
          else st.reactiveKeyStates
        | none => st.reactiveKeyStates
      else st.reactiveKeyStates) := by
  obtain ⟨h1, h2, h3⟩ := onSmartKeyPress_reactive env st code now
  unfold onKeyPress onReactiveKeyPress
  rw [← h1, ← h2, ← h3]
  generalize onSmartKeyPress env st code now = s
  cases he : s.reactiveEnabled with
  | false => simp [he]
  | true =>
    cases hv : VK_TO_KEYNAME code with
    | none => simp [he]
    | some k =>
      cases hg : JsObject.get k s.reactiveKeyStates with
      | none => simp [he, hg]
      | some v => simp [he, hg]

theorem fadeKey_range (F : Int) (hF : 0 ≤ F) (k : KeyState) (h : 0 ≤ k.brightness) :
    0 ≤ (fadeKey F k).brightness ∧ (fadeKey F k).brightness ≤ k.brightness := by
  unfold fadeKey
  split
  · simp only
    exact ⟨le_max_left _ _, max_le h (by omega)⟩
  · exact ⟨h, le_refl _⟩

/-- What a tick does to the state of the reactive mode. -/
theorem reactiveTick_reactive (env : Env) (st : Bridge) :
    (reactiveTick env st).reactiveEnabled = st.reactiveEnabled ∧
    (reactiveTick env st).reactiveInterval = st.reactiveInterval ∧
    ((reactiveTick env st).reactiveKeyStates = st.reactiveKeyStates ∨
      (reactiveTick env st).reactiveKeyStates
        = st.reactiveKeyStates.map (fun p => (p.1, fadeKey REACTIVE_FADE_SPEED p.2))) := by
  unfold reactiveTick reactiveTickWith
  split
  · exact ⟨rfl, rfl, Or.inl rfl⟩
  · dsimp only
    split
    · exact ⟨rfl, rfl, Or.inr rfl⟩
    · exact ⟨rfl, rfl, Or.inr rfl⟩

theorem brightnessOf_nonneg (st : Bridge) (h : BrightnessInRange st) (k : String) :
    0 ≤ (brightnessOf k st).getD 0 := by
  unfold brightnessOf
  cases hg : JsObject.get k st.reactiveKeyStates with
  | none => simp
  | some v =>
    simp only [Option.map_some', Option.getD_some]
    exact (h (k, v) (JsObject.mem_of_get k v _ hg)).1

theorem vk_names_in_key_map :
    ∀ p ∈ VK_TO_KEYNAME_TABLE, p.2 ∈ JsObject.keys KEY_MAP := by
  set_option maxRecDepth 100000 in decide

/-- The invariants of the reactive mode are kept by every event. -/
theorem step_inv (env : Env) (st : Bridge) (e : Event)
    (h : BrightnessInRange st ∧ KeysKnown st) :
    BrightnessInRange (step env st e) ∧ KeysKnown (step env st e) := by
  obtain ⟨hb, hk1, hk2⟩ := h
  have frame : ∀ s : Bridge, SameReactive s st → BrightnessInRange s ∧ KeysKnown s := by
    intro s hs
    obtain ⟨e1, e2, e3⟩ := hs
    unfold BrightnessInRange KeysKnown
    rw [e1, e2, e3]
    exact ⟨hb, hk1, hk2⟩
  cases e with
  | command cmd =>
    by_cases hc : ∀ active color, cmd ≠ Command.toggleReactive active color
    · exact frame _ (handleCommand_reactive env st cmd hc)
    · push_neg at hc
      obtain ⟨active, color, rfl⟩ := hc
      obtain ⟨t1, t2, t3⟩ := toggleReactive_reactive env st active color
      simp only [step]
      unfold BrightnessInRange KeysKnown
      rw [t1, t2]
      rcases t3 with ⟨t3, ti⟩ | ⟨ha, hi, t3⟩
      · rw [t3]
        exact ⟨hb, fun x => x, fun ha => hk2 (ti ha)⟩
      · rw [t3]
        obtain ⟨g1, g2⟩ := foldl_set_init (⟨0, 0⟩ : KeyState) (JsObject.keys KEY_MAP)
          st.reactiveKeyStates
        refine ⟨fun p hp => ?_, fun x => x, fun _ k hk => ?_⟩
        · rcases g2 p hp with h' | h'
          · exact hb p h'
          · rw [h']
            constructor <;> norm_num
        · rw [g1 k, if_pos hk]
          rfl
  | keyPress code now =>
    obtain ⟨p1, p2, p3⟩ := onKeyPress_reactive env st code now
    simp only [step]
    unfold BrightnessInRange KeysKnown
    rw [p1, p2, p3]
    by_cases he : st.reactiveEnabled = true
    · rw [if_pos he]
      cases hv : VK_TO_KEYNAME code with
      | none => exact ⟨hb, hk1, hk2⟩
      | some k =>
        simp only
        by_cases hg : (JsObject.get k st.reactiveKeyStates).isSome = true
        · rw [if_pos hg]
          refine ⟨fun p hp => ?_, hk1, fun hi k' hk' => ?_⟩
          · rcases JsObject.mem_set k _ p _ hp with h' | h'
            · exact hb p h'
            · rw [h']
              constructor <;> norm_num
          · rw [JsObject.get_set]
            by_cases hkk : k = k'
            · rw [if_pos hkk]
              rfl
            · rw [if_neg hkk]
              exact hk2 hi k' hk'
        · rw [if_neg hg]
          exact ⟨hb, hk1, hk2⟩
    · rw [if_neg he]
      exact ⟨hb, hk1, hk2⟩
  | reactiveTick =>
    simp only [step]
    split
    · obtain ⟨r1, r2, r3⟩ := reactiveTick_reactive env st
      rcases r3 with r3 | r3
      · exact frame _ ⟨r3, r1, r2⟩
      · unfold BrightnessInRange KeysKnown
        rw [r1, r2, r3]
        refine ⟨fun p hp => ?_, hk1, fun hi k hk => ?_⟩
        · obtain ⟨q, hq, rfl⟩ := List.mem_map.1 hp
          obtain ⟨q1, q2⟩ := hb q hq
          obtain ⟨f1, f2⟩ := fadeKey_range REACTIVE_FADE_SPEED (by decide) q.2 q1
          exact ⟨f1, le_trans f2 q2⟩
        · rw [JsObject.get_map, Option.isSome_map']
          exact hk2 hi k hk
    · exact ⟨hb, hk1, hk2⟩
  | idleCheck now => exact frame _ (checkIdle_reactive env st now)
  | activeTimer => exact frame _ (fireActiveTimer_reactive env st)

theorem foldl_step_inv (env : Env) (events : List Event) :
    ∀ st : Bridge, BrightnessInRange st ∧ KeysKnown st →
      BrightnessInRange (events.foldl (step env) st) ∧
      KeysKnown (events.foldl (step env) st) := by
  induction events with
  | nil => exact fun st h => h
  | cons e t ih => exact fun st h => ih (step env st e) (step_inv env st e h)

theorem init_inv : BrightnessInRange Bridge.init ∧ KeysKnown Bridge.init := by
  refine ⟨fun p hp => ?_, fun h => ?_, fun h => ?_⟩
  · exact absurd hp (List.not_mem_nil p)
  · exact absurd h (by decide)
  · exact absurd h (by decide)

/-- Every event other than a key press leaves each brightness or lowers it. -/
theorem step_nonincreasing (env : Env) (st : Bridge) (e : Event)
    (hb : BrightnessInRange st) (he : e.isKeyPress = false) (k : String) :
    (brightnessOf k (step env st e)).getD 0 ≤ (brightnessOf k st).getD 0 := by
  have frame : ∀ s : Bridge, SameReactive s st →
      (brightnessOf k s).getD 0 ≤ (brightnessOf k st).getD 0 := by
    intro s hs
    unfold brightnessOf
    rw [hs.1]
  cases e with
  | command cmd =>
    by_cases hc : ∀ active color, cmd ≠ Command.toggleReactive active color
    · exact frame _ (handleCommand_reactive env st cmd hc)
    · push_neg at hc
      obtain ⟨active, color, rfl⟩ := hc
      obtain ⟨_, _, t3⟩ := toggleReactive_reactive env st active color
      simp only [step]
      rcases t3 with ⟨t3, _⟩ | ⟨_, _, t3⟩
      · unfold brightnessOf
        rw [t3]
      · obtain ⟨g1, _⟩ := foldl_set_init (⟨0, 0⟩ : KeyState) (JsObject.keys KEY_MAP)
          st.reactiveKeyStates
        have hn := brightnessOf_nonneg st hb k
        by_cases hk : k ∈ JsObject.keys KEY_MAP
        · have e0 : brightnessOf k
              (handleCommand env st (Command.toggleReactive active color)) = some 0 := by
            unfold brightnessOf
            rw [t3, g1 k, if_pos hk]
            rfl
          rw [e0]
          exact hn
        · have e0 : brightnessOf k
              (handleCommand env st (Command.toggleReactive active color))
                = brightnessOf k st := by
            unfold brightnessOf
            rw [t3, g1 k, if_neg hk]
          rw [e0]
  | keyPress code now => exact absurd he (by simp [Event.isKeyPress])
  | reactiveTick =>
    simp only [step]
    split
    · obtain ⟨r1, r2, r3⟩ := reactiveTick_reactive env st
      rcases r3 with r3 | r3
      · exact frame _ ⟨r3, r1, r2⟩
      · unfold brightnessOf
        rw [r3, JsObject.get_map]
        cases hg : JsObject.get k st.reactiveKeyStates with
        | none => simp
        | some v =>
          simp only [Option.map_some', Option.getD_some]
          exact (fadeKey_range REACTIVE_FADE_SPEED (by decide) v
            (hb (k, v) (JsObject.mem_of_get k v _ hg)).1).2
    · exact le_refl _
  | idleCheck now => exact frame _ (checkIdle_reactive env st now)
  | activeTimer => exact frame _ (fireActiveTimer_reactive env st)

/-! ### The reverse key table -/

theorem digitChar_value : ∀ m, m < 10 → (Nat.digitChar m).toNat - 48 = m := by
  decide

theorem toDigitsCore_value (fuel : Nat) :
    ∀ (n : Nat) (ds : List Char), n < fuel →
      (Nat.toDigitsCore 10 fuel n ds).foldl (fun acc c => 10 * acc + (c.toNat - 48)) 0
        = ds.foldl (fun acc c => 10 * acc + (c.toNat - 48)) n := by
  induction fuel with
  | zero =>
    intro n ds h
    omega
  | succ f ih =>
    intro n ds h
    have hd : (Nat.digitChar (n % 10)).toNat - 48 = n % 10 :=
      digitChar_value (n % 10) (Nat.mod_lt n (by decide))
    by_cases h0 : n / 10 = 0
    · have hn : n % 10 = n := Nat.mod_eq_of_lt (by omega)
      rw [hn] at hd
      simp only [Nat.toDigitsCore, h0, if_true, List.foldl_cons, hn, Nat.mul_zero, Nat.zero_add,
        hd]
    · simp only [Nat.toDigitsCore, h0, if_false]
      rw [ih (n / 10) _ (by omega)]
      simp only [List.foldl_cons, hd]
      rw [Nat.div_add_mod]

/-- Reading the decimal string of a number gives the number back. -/
theorem decimal_toString (n : Nat) :
    (toString n).data.foldl (fun acc c => 10 * acc + (c.toNat - 48)) 0 = n := by
  show (Nat.repr n).data.foldl (fun acc c => 10 * acc + (c.toNat - 48)) 0 = n
  unfold Nat.repr Nat.toDigits
  exact toDigitsCore_value (n + 1) n [] (by omega)

/-- Two indices with the same property key are the same index. -/
theorem toString_nat_injective (i j : Nat) (h : toString i = toString j) : i = j := by
  rw [← decimal_toString i, ← decimal_toString j, h]

set_option maxRecDepth 1000000 in
/-- Every entry of `INDEX_TO_KEY` pairs the decimal string of an index with the last
name of that index in the enumeration order of `KEY_MAP`. -/
theorem INDEX_TO_KEY_entries :
    ∀ p ∈ INDEX_TO_KEY,
      JsObject.get p.2 KEY_MAP = some ((JsObject.get p.2 KEY_MAP).getD 0) ∧
      p.1 = toString ((JsObject.get p.2 KEY_MAP).getD 0) ∧
      ((JsObject.entries KEY_MAP).filter
          (fun q => decide (q.2 = (JsObject.get p.2 KEY_MAP).getD 0))).getLast?
        = some (p.2, (JsObject.get p.2 KEY_MAP).getD 0) := by
  decide

set_option maxRecDepth 1000000 in
theorem KEY_MAP_reversed :
    ∀ p ∈ KEY_MAP, (JsObject.get (toString p.2) INDEX_TO_KEY).isSome = true := by
  decide

set_option maxRecDepth 1000000 in
theorem INDEX_TO_KEY_count :
    INDEX_TO_KEY.length = 87 ∧ (INDEX_TO_KEY.map Prod.fst).Nodup ∧
    (KEY_MAP.map Prod.snd).dedup.length = 87 ∧ KEY_MAP.length = 99 := by
  decide

set_option maxRecDepth 1000000 in
theorem INDEX_TO_KEY_aliases :
    JsObject.get (toString 16) INDEX_TO_KEY = some "`" ∧
    JsObject.get (toString 27) INDEX_TO_KEY = some "-" ∧
    JsObject.get (toString 28) INDEX_TO_KEY = some "=" ∧
    JsObject.get (toString 43) INDEX_TO_KEY = some "[" ∧
    JsObject.get (toString 44) INDEX_TO_KEY = some "]" ∧
    JsObject.get (toString 45) INDEX_TO_KEY = some "\\" ∧
    JsObject.get (toString 48) INDEX_TO_KEY = some "CAPS" ∧
    JsObject.get (toString 58) INDEX_TO_KEY = some ";" ∧
    JsObject.get (toString 59) INDEX_TO_KEY = some "'" ∧
    JsObject.get (toString 72) INDEX_TO_KEY = some "," ∧
    JsObject.get (toString 73) INDEX_TO_KEY = some "." ∧
    JsObject.get (toString 74) INDEX_TO_KEY = some "/" := by
  decide

theorem negativeSlot5_keyColors : negativeSlot5.keyColors 5 = ⟨-63, 0, 0⟩ := by
  have h1 : scale (-255) = -63 := by rw [scale_eq]; decide
  have h0 : scale 0 = 0 := by rw [scale_eq]; decide
  rw [negativeSlot5, setKey_index, h1, h0]
  simp

/-! ## The claims -/

/-- C1: with an open device handle and no failing write, `apply()` resolves with `true`
and the device receives, after what it had received before, exactly the 22 reports of
the protocol sequence in order: unlock, palette, the flags, red, green and blue planes
(control packet and two halves each), mode, finalize 0x0C, finalize 0x0D, mode. -/
theorem apply_sends_protocol_sequence (env : Env) (s : PerKeyRGBController)
    (hdev : s.device = true) (hw : ∀ n, env.writeOk n = true) :
    (apply env s).1 = Except.ok true ∧
    (apply env s).2.sent =
      s.sent ++ specApplySequence (encodePlanes s.keyColors).flags
        (encodePlanes s.keyColors).redChannel (encodePlanes s.keyColors).greenChannel
        (encodePlanes s.keyColors).blueChannel ∧
    (specApplySequence (encodePlanes s.keyColors).flags
        (encodePlanes s.keyColors).redChannel (encodePlanes s.keyColors).greenChannel
        (encodePlanes s.keyColors).blueChannel).length = 22 := by
  have hg : noDevice env s = (false, s) := by simp [noDevice, hdev]
  refine ⟨?_, ?_, by simp [specApplySequence, specPlane, specFinalize]⟩
  · rw [apply_eq_foldl, hg]
    simp
  · rw [apply_eq_foldl, hg]
    simp only [Bool.false_eq_true, if_false]
    rw [foldl_send_allOk env hw _ s hdev, report_applyPackets _ (encodePlanes_sized _)]

theorem apply_sends_protocol_sequence_witness :
    openController.device = true ∧ (∀ n, Env.allOk.writeOk n = true) ∧
    (apply Env.allOk openController).1 = Except.ok true ∧
    (apply Env.allOk openController).2.sent =
      openController.sent ++ specApplySequence (encodePlanes openController.keyColors).flags
        (encodePlanes openController.keyColors).redChannel
        (encodePlanes openController.keyColors).greenChannel
        (encodePlanes openController.keyColors).blueChannel ∧
    (specApplySequence (encodePlanes openController.keyColors).flags
        (encodePlanes openController.keyColors).redChannel
        (encodePlanes openController.keyColors).greenChannel
        (encodePlanes openController.keyColors).blueChannel).length = 22 :=
  ⟨rfl, fun _ => rfl, apply_sends_protocol_sequence Env.allOk openController rfl (fun _ => rfl)⟩

/-- C2 fails as stated: after `setKey(5, -255, 0, 0)` on a fresh controller the stored
red channel of slot 5 is -63, which is nonzero, yet the encoded flags entry at 5 is 0,
not 0x10, and the encoded red entry is 0, not the stored -63. -/
theorem encodePlanes_negative_channel :
    (5 < 128 ∧ negativeSlot5.keyColors 5 = ⟨-63, 0, 0⟩) ∧
    ((negativeSlot5.keyColors 5).r ≠ 0 ∨ (negativeSlot5.keyColors 5).g ≠ 0 ∨
      (negativeSlot5.keyColors 5).b ≠ 0) ∧
    (encodePlanes negativeSlot5.keyColors).flags[5]? = some 0 ∧
    ¬ ((encodePlanes negativeSlot5.keyColors).flags[5]? = some 0x10 ↔
      ((negativeSlot5.keyColors 5).r ≠ 0 ∨ (negativeSlot5.keyColors 5).g ≠ 0 ∨
        (negativeSlot5.keyColors 5).b ≠ 0)) ∧
    (encodePlanes negativeSlot5.keyColors).redChannel[5]? = some 0 ∧
    (encodePlanes negativeSlot5.keyColors).redChannel[5]?
      ≠ some (negativeSlot5.keyColors 5).r := by
  obtain ⟨g1, g2, _, _⟩ := encodePlanes_getElem? negativeSlot5.keyColors 5 (by decide)
  have hc := negativeSlot5_keyColors
  have hl : ¬ (negativeSlot5.keyColors 5).lit := by
    rw [hc]
    unfold Color.lit
    decide
  rw [if_neg hl] at g1 g2
  have hnz : (negativeSlot5.keyColors 5).r ≠ 0 ∨ (negativeSlot5.keyColors 5).g ≠ 0 ∨
      (negativeSlot5.keyColors 5).b ≠ 0 := by
    rw [hc]
    decide
  refine ⟨⟨by decide, hc⟩, hnz, g1, ?_, g2, ?_⟩
  · rw [g1]
    intro h
    exact absurd (h.2 hnz) (by decide)
  · rw [g2, hc]
    decide

/-- C2, as the code behaves: for every frame buffer, each of the four planes that
`apply()` encodes has 128 entries and, at every index below 128, the flags entry is 0x10
exactly when one of the stored channels is greater than 0 and 0 otherwise; when it is
0x10 the red, green and blue entries are the stored channels, otherwise all three are
0.  At an index whose stored channels are not negative, "greater than 0" is "nonzero"
and the three entries are the stored channels in both cases. -/
theorem encodePlanes_positive_channels (s : PerKeyRGBController) :
    ((encodePlanes s.keyColors).flags.length = 128 ∧
      (encodePlanes s.keyColors).redChannel.length = 128 ∧
      (encodePlanes s.keyColors).greenChannel.length = 128 ∧
      (encodePlanes s.keyColors).blueChannel.length = 128) ∧
    (∀ i, i < 128 →
      ((encodePlanes s.keyColors).flags[i]? = some 0x10 ↔
        (0 < (s.keyColors i).r ∨ 0 < (s.keyColors i).g ∨ 0 < (s.keyColors i).b)) ∧
      ((0 < (s.keyColors i).r ∨ 0 < (s.keyColors i).g ∨ 0 < (s.keyColors i).b) →
        (encodePlanes s.keyColors).redChannel[i]? = some (s.keyColors i).r ∧
        (encodePlanes s.keyColors).greenChannel[i]? = some (s.keyColors i).g ∧
        (encodePlanes s.keyColors).blueChannel[i]? = some (s.keyColors i).b) ∧
      (¬ (0 < (s.keyColors i).r ∨ 0 < (s.keyColors i).g ∨ 0 < (s.keyColors i).b) →
        (encodePlanes s.keyColors).flags[i]? = some 0 ∧
        (encodePlanes s.keyColors).redChannel[i]? = some 0 ∧
        (encodePlanes s.keyColors).greenChannel[i]? = some 0 ∧
        (encodePlanes s.keyColors).blueChannel[i]? = some 0)) ∧
    (∀ i, i < 128 →
      (0 ≤ (s.keyColors i).r ∧ 0 ≤ (s.keyColors i).g ∧ 0 ≤ (s.keyColors i).b) →
      ((encodePlanes s.keyColors).flags[i]? = some 0x10 ↔
        ((s.keyColors i).r ≠ 0 ∨ (s.keyColors i).g ≠ 0 ∨ (s.keyColors i).b ≠ 0)) ∧
      (¬ ((s.keyColors i).r ≠ 0 ∨ (s.keyColors i).g ≠ 0 ∨ (s.keyColors i).b ≠ 0) →
        (encodePlanes s.keyColors).flags[i]? = some 0) ∧
      (encodePlanes s.keyColors).redChannel[i]? = some (s.keyColors i).r ∧
      (encodePlanes s.keyColors).greenChannel[i]? = some (s.keyColors i).g ∧
      (encodePlanes s.keyColors).blueChannel[i]? = some (s.keyColors i).b) := by
  refine ⟨encodePlanes_sized _, fun i hi => ?_, fun i hi hs => ?_⟩
  · obtain ⟨g1, g2, g3, g4⟩ := encodePlanes_getElem? s.keyColors i hi
    rw [g1, g2, g3, g4]
    by_cases hl : (s.keyColors i).lit
    · have hp : 0 < (s.keyColors i).r ∨ 0 < (s.keyColors i).g ∨ 0 < (s.keyColors i).b := hl
      simp [hl, hp]
    · have hp : ¬ (0 < (s.keyColors i).r ∨ 0 < (s.keyColors i).g ∨ 0 < (s.keyColors i).b) :=
        hl
      rw [if_neg hl, if_neg hl, if_neg hl, if_neg hl]
      refine ⟨⟨fun h => absurd h (by decide), fun h => absurd h hp⟩,
        fun h => absurd h hp, fun _ => ⟨rfl, rfl, rfl, rfl⟩⟩
  · obtain ⟨g1, g2, g3, g4⟩ := encodePlanes_getElem? s.keyColors i hi
    obtain ⟨hr, hg, hb⟩ := hs
    rw [g1, g2, g3, g4]
    by_cases hl : (s.keyColors i).lit
    · have hnz : (s.keyColors i).r ≠ 0 ∨ (s.keyColors i).g ≠ 0 ∨ (s.keyColors i).b ≠ 0 := by
        unfold Color.lit at hl
        omega
      simp [hl, hnz]
    · have hz : (s.keyColors i).r = 0 ∧ (s.keyColors i).g = 0 ∧ (s.keyColors i).b = 0 := by
        unfold Color.lit at hl
        omega
      simp [hl, hz.1, hz.2.1, hz.2.2]

theorem encodePlanes_positive_channels_witness :
    (34 < 128 ∧
      (0 < (redW.keyColors 34).r ∨ 0 < (redW.keyColors 34).g ∨ 0 < (redW.keyColors 34).b)) ∧
    (encodePlanes redW.keyColors).flags[34]? = some 0x10 ∧
    (encodePlanes redW.keyColors).redChannel[34]? = some (redW.keyColors 34).r ∧
    (35 < 128 ∧
      ¬ (0 < (redW.keyColors 35).r ∨ 0 < (redW.keyColors 35).g ∨ 0 < (redW.keyColors 35).b)) ∧
    (encodePlanes redW.keyColors).flags[35]? = some 0 :=
  have h34 : 0 < (redW.keyColors 34).r ∨ 0 < (redW.keyColors 34).g ∨
      0 < (redW.keyColors 34).b := by
    rw [redW_keyColors]
    decide
  have h35 : ¬ (0 < (redW.keyColors 35).r ∨ 0 < (redW.keyColors 35).g ∨
      0 < (redW.keyColors 35).b) := by
    rw [redW_keyColors]
    decide
  ⟨⟨by decide, h34⟩,
    ((encodePlanes_positive_channels redW).2.1 34 (by decide)).1.2 h34,
    (((encodePlanes_positive_channels redW).2.1 34 (by decide)).2.1 h34).1,
    ⟨by decide, h35⟩,
    (((encodePlanes_positive_channels redW).2.1 35 (by decide)).2.2 h35).1⟩

/-- C3: for a key name that resolves in the key table to index `i` and channel values in
0..255, `setKey(name, r, g, b)` stores `(round(r/255*63), round(g/255*63),
round(b/255*63))` at `i` and leaves every other slot as it was. -/
theorem setKey_stores_scaled (s : PerKeyRGBController) (name : String) (i : Nat)
    (r g b : Int) (hname : JsObject.get (toUpperCase name) KEY_MAP = some i)
    (_hr : 0 ≤ r ∧ r ≤ 255) (_hg : 0 ≤ g ∧ g ≤ 255) (_hb : 0 ≤ b ∧ b ≤ 255) :
    (setKey s (KeyRef.name name) r g b).keyColors i =
      ⟨jsRound ((r : ℚ) / 255 * 63), jsRound ((g : ℚ) / 255 * 63),
        jsRound ((b : ℚ) / 255 * 63)⟩ ∧
    ∀ j, j ≠ i → (setKey s (KeyRef.name name) r g b).keyColors j = s.keyColors j := by
  rw [setKey_name s name i r g b hname]
  refine ⟨?_, fun j hj => ?_⟩
  · simp [scale]
  · simp [Function.update_noteq hj]

theorem setKey_stores_scaled_witness :
    JsObject.get (toUpperCase "w") KEY_MAP = some 34 ∧
    (setKey openController (KeyRef.name "w") 255 128 0).keyColors 34 =
      ⟨jsRound ((255 : ℚ) / 255 * 63), jsRound ((128 : ℚ) / 255 * 63),
        jsRound ((0 : ℚ) / 255 * 63)⟩ ∧
    ∀ j, j ≠ 34 →
      (setKey openController (KeyRef.name "w") 255 128 0).keyColors j
        = openController.keyColors j :=
  ⟨by decide,
    setKey_stores_scaled openController "w" 34 255 128 0 (by decide) (by decide) (by decide)
      (by decide)⟩

/-- C4, as the code behaves: whenever the guard at the start of `apply()` passes, the
promise resolves with `true` whatever the later writes do; when the device can always
be reopened, each of the 22 packets is attempted exactly once and reaches the device
exactly when its own write succeeds, so a failed write drops that one packet and
nothing else; and a send whose write throws, on a handle that was open or that the send
reopened, returns `false`, delivers nothing and leaves the handle null. -/
theorem apply_not_aborted_by_write_failure (env : Env) (s : PerKeyRGBController)
    (hg : s.device = true ∨ env.connectOk s.connects = true) :
    (apply env s).1 = Except.ok true ∧
    ((∀ n, env.connectOk n = true) →
      (apply env s).2.writes = s.writes + 22 ∧
      (apply env s).2.sent =
        s.sent ++ delivered env s.writes (applyPackets (encodePlanes s.keyColors))) ∧
    (∀ (c : PerKeyRGBController) (p : Packet),
      (c.device = true ∨ env.connectOk c.connects = true) →
      env.writeOk c.writes = false →
      (send env c p).1 = false ∧ (send env c p).2.device = false ∧
        (send env c p).2.sent = c.sent) := by
  refine ⟨(apply_reconnecting env s hg).1, (apply_reconnecting env s hg).2, ?_⟩
  intro c p hd hw
  by_cases ho : c.device = true
  · rw [send_of_open env c p ho, hw]
    exact ⟨rfl, rfl, rfl⟩
  · have hcl : c.device = false := by simpa using ho
    rw [send_of_closed env c p hcl (hd.resolve_left ho), hw]
    exact ⟨rfl, rfl, rfl⟩

theorem apply_not_aborted_by_write_failure_witness :
    (openController.device = true ∨ (Env.failWrite 3).connectOk openController.connects = true) ∧
    (apply (Env.failWrite 3) openController).1 = Except.ok true ∧
    ((∀ n, (Env.failWrite 3).connectOk n = true) →
      (apply (Env.failWrite 3) openController).2.writes = openController.writes + 22 ∧
      (apply (Env.failWrite 3) openController).2.sent =
        openController.sent ++ delivered (Env.failWrite 3) openController.writes
          (applyPackets (encodePlanes openController.keyColors))) ∧
    (∀ (c : PerKeyRGBController) (p : Packet),
      (c.device = true ∨ (Env.failWrite 3).connectOk c.connects = true) →
      (Env.failWrite 3).writeOk c.writes = false →
      (send (Env.failWrite 3) c p).1 = false ∧ (send (Env.failWrite 3) c p).2.device = false ∧
        (send (Env.failWrite 3) c p).2.sent = c.sent) :=
  ⟨Or.inl rfl, apply_not_aborted_by_write_failure (Env.failWrite 3) openController (Or.inl rfl)⟩

/-- C4 fails as stated: when the very first write of an apply throws (the UNLOCK
control packet) and the device can be reopened, `apply()` still resolves with `true`
and the 21 later packets of the sequence are all sent. -/
theorem apply_continues_after_failed_write :
    (Env.failWrite 0).writeOk 0 = false ∧
    (apply (Env.failWrite 0) openController).1 = Except.ok true ∧
    (apply (Env.failWrite 0) openController).2.sent =
      (specApplySequence (encodePlanes openController.keyColors).flags
        (encodePlanes openController.keyColors).redChannel
        (encodePlanes openController.keyColors).greenChannel
        (encodePlanes openController.keyColors).blueChannel).tail ∧
    (apply (Env.failWrite 0) openController).2.sent.length = 21 := by
  have hc : ∀ n, (Env.failWrite 0).connectOk n = true := fun _ => rfl
  obtain ⟨h1, h2⟩ :=
    apply_reconnecting (Env.failWrite 0) openController (Or.inl rfl)
  obtain ⟨_, h3⟩ := h2 hc
  have hd : delivered (Env.failWrite 0) 0 (applyPackets (encodePlanes openController.keyColors))
      = ((applyPackets (encodePlanes openController.keyColors)).map Packet.report).tail := by
    have hok : ∀ n, 1 ≤ n → (Env.failWrite 0).writeOk n = true := by
      intro n hn
      simp [Env.failWrite]
      omega
    rw [applyPackets, delivered, delivered_of_ok _ _ _ hok]
    rfl
  have hs : (apply (Env.failWrite 0) openController).2.sent =
      (specApplySequence (encodePlanes openController.keyColors).flags
        (encodePlanes openController.keyColors).redChannel
        (encodePlanes openController.keyColors).greenChannel
        (encodePlanes openController.keyColors).blueChannel).tail := by
    rw [h3, ← report_applyPackets _ (encodePlanes_sized _)]
    exact hd
  refine ⟨rfl, h1, hs, ?_⟩
  rw [hs]
  simp [specApplySequence, specPlane, specFinalize]

/-- C5: from the freshly loaded bridge (all keys off), against a device that opens and
accepts every write, `perkey-key` for a resolvable key `k` (index `i`) with channels in
0..255 of which one scales to a nonzero value, followed by `perkey-apply`, sends exactly
the apply sequence whose flags plane is 0x10 at `i` and 0 elsewhere and whose red, green
and blue planes hold the scaled channels at `i` and 0 elsewhere; for key "W" with
(255, 0, 0) that is flags[34] = 0x10 and red[34] = 63. -/
theorem perkey_key_then_apply (env : Env) (k : String) (i : Nat) (r g b : Int)
    (hk : JsObject.get (toUpperCase k) KEY_MAP = some i)
    (hr : 0 ≤ r ∧ r ≤ 255) (hg : 0 ≤ g ∧ g ≤ 255) (hb : 0 ≤ b ∧ b ≤ 255)
    (hnz : jsRound ((r : ℚ) / 255 * 63) ≠ 0 ∨ jsRound ((g : ℚ) / 255 * 63) ≠ 0 ∨
      jsRound ((b : ℚ) / 255 * 63) ≠ 0)
    (hc : env.connectOk 0 = true) (hw : ∀ n, env.writeOk n = true) :
    (handleCommand env
        (handleCommand env Bridge.init
          (Command.perkeyKey (KeyRef.name k) (some r) (some g) (some b)))
        Command.perkeyApply).perKeyController.sent =
      specApplySequence ((List.replicate 128 0).set i 0x10)
        ((List.replicate 128 0).set i (jsRound ((r : ℚ) / 255 * 63)))
        ((List.replicate 128 0).set i (jsRound ((g : ℚ) / 255 * 63)))
        ((List.replicate 128 0).set i (jsRound ((b : ℚ) / 255 * 63))) ∧
    (handleCommand env
        (handleCommand env Bridge.init
          (Command.perkeyKey (KeyRef.name "W") (some 255) (some 0) (some 0)))
        Command.perkeyApply).perKeyController.sent =
      specApplySequence ((List.replicate 128 0).set 34 0x10) ((List.replicate 128 0).set 34 63)
        (List.replicate 128 0) (List.replicate 128 0) := by
  have main : ∀ (k : String) (i : Nat) (r g b : Int),
      JsObject.get (toUpperCase k) KEY_MAP = some i →
      (0 ≤ r ∧ r ≤ 255) → (0 ≤ g ∧ g ≤ 255) → (0 ≤ b ∧ b ≤ 255) →
      (scale r ≠ 0 ∨ scale g ≠ 0 ∨ scale b ≠ 0) →
      (handleCommand env
        (handleCommand env Bridge.init
          (Command.perkeyKey (KeyRef.name k) (some r) (some g) (some b)))
        Command.perkeyApply).perKeyController.sent =
      specApplySequence ((List.replicate 128 0).set i 0x10)
        ((List.replicate 128 0).set i (scale r)) ((List.replicate 128 0).set i (scale g))
        ((List.replicate 128 0).set i (scale b)) := by
    intro k i r g b hk hr hg hb hnz
    have hi : i < 128 := by
      have := KEY_MAP_lt _ _ hk
      omega
    have hlit : Color.lit ⟨scale r, scale g, scale b⟩ := by
      have h1 := scale_nonneg r hr.1
      have h2 := scale_nonneg g hg.1
      have h3 := scale_nonneg b hb.1
      unfold Color.lit
      simp only
      omega
    simp only [handleCommand, Bridge.init, Option.getD_some]
    rw [setKey_name _ k i r g b hk]
    have hpass : ∀ c : PerKeyRGBController, c.device = false → c.connects = 0 →
        (c.device = true ∨ env.connectOk c.connects = true) := by
      intro c _ h0
      right
      rw [h0]
      exact hc
    obtain ⟨_, hsent⟩ := apply_allOk env
      { PerKeyRGBController.new with
        keyColors := Function.update PerKeyRGBController.new.keyColors i
          ⟨scale r, scale g, scale b⟩ } (hpass _ rfl rfl) hw
    rw [hsent]
    have henc := encodePlanes_single
      (Function.update PerKeyRGBController.new.keyColors i ⟨scale r, scale g, scale b⟩) i
      ⟨scale r, scale g, scale b⟩ hi
      (by
        intro j
        by_cases hji : j = i
        · subst hji
          simp
        · simp [Function.update_noteq hji, hji, new_keyColors])
      hlit
    simp only [henc]
    rfl
  refine ⟨main k i r g b hk hr hg hb hnz, ?_⟩
  have h255 : scale 255 = 63 := by rw [scale_eq]; rfl
  have h0 : scale 0 = 0 := by rw [scale_eq]; rfl
  have hW := main "W" 34 255 0 0 (by decide) (by decide) (by decide) (by decide)
    (by rw [h255]; decide)
  have hz : (List.replicate 128 (0 : Int)).set 34 0 = List.replicate 128 0 := by decide
  rw [hW, h255, h0, hz]

theorem perkey_key_then_apply_witness :
    JsObject.get (toUpperCase "W") KEY_MAP = some 34 ∧
    Env.allOk.connectOk 0 = true ∧ (∀ n, Env.allOk.writeOk n = true) ∧
    ((handleCommand Env.allOk
        (handleCommand Env.allOk Bridge.init
          (Command.perkeyKey (KeyRef.name "W") (some 255) (some 0) (some 0)))
        Command.perkeyApply).perKeyController.sent =
      specApplySequence ((List.replicate 128 0).set 34 0x10)
        ((List.replicate 128 0).set 34 (jsRound ((255 : ℚ) / 255 * 63)))
        ((List.replicate 128 0).set 34 (jsRound ((0 : ℚ) / 255 * 63)))
        ((List.replicate 128 0).set 34 (jsRound ((0 : ℚ) / 255 * 63))) ∧
    (handleCommand Env.allOk
        (handleCommand Env.allOk Bridge.init
          (Command.perkeyKey (KeyRef.name "W") (some 255) (some 0) (some 0)))
        Command.perkeyApply).perKeyController.sent =
      specApplySequence ((List.replicate 128 0).set 34 0x10) ((List.replicate 128 0).set 34 63)
        (List.replicate 128 0) (List.replicate 128 0)) :=
  ⟨by decide, rfl, fun _ => rfl,
    perkey_key_then_apply Env.allOk "W" 34 255 0 0 (by decide) (by decide) (by decide)
      (by decide) (Or.inl (by norm_num [jsRound])) rfl (fun _ => rfl)⟩

/-- C6 fails as stated: `setKey('W', 1, 0, 0)` passes a channel greater than 0, yet the
scaled colour is (0, 0, 0) and the encoded flags entry of the key is not 0x10. -/
theorem flag_clear_for_dim_channel :
    ¬ ((encodePlanes
          (setKey PerKeyRGBController.new (KeyRef.name "W") 1 0 0).keyColors).flags[34]?
        = some 0x10 ↔ ((1 : Int) > 0 ∨ (0 : Int) > 0 ∨ (0 : Int) > 0)) := by
  have h : JsObject.get (toUpperCase "W") KEY_MAP = some 34 := by decide
  have h1 : scale 1 = 0 := by rw [scale_eq]; rfl
  have h0 : scale 0 = 0 := by rw [scale_eq]; rfl
  have hf := (encodePlanes_getElem?
    (setKey PerKeyRGBController.new (KeyRef.name "W") 1 0 0).keyColors 34 (by decide)).1
  rw [setKey_name _ _ _ _ _ _ h, h1, h0] at hf
  rw [setKey_name _ _ _ _ _ _ h, h1, h0, hf]
  simp [Color.lit]

/-- C6, as the code behaves: after `setKey(name, r, g, b)` with a resolvable name and
channels in 0..255, the encoded flags entry of the key is 0x10 exactly when one of the
scaled channels `round(v/255*63)` is positive, which is exactly when one of `r`, `g`,
`b` is at least 3; in every case the entry is 0x10 or 0. -/
theorem flag_set_iff_scaled_channel (s : PerKeyRGBController) (name : String) (i : Nat)
    (r g b : Int) (hname : JsObject.get (toUpperCase name) KEY_MAP = some i)
    (_hr : 0 ≤ r ∧ r ≤ 255) (_hg : 0 ≤ g ∧ g ≤ 255) (_hb : 0 ≤ b ∧ b ≤ 255) :
    ((encodePlanes (setKey s (KeyRef.name name) r g b).keyColors).flags[i]? = some 0x10 ↔
      (0 < jsRound ((r : ℚ) / 255 * 63) ∨ 0 < jsRound ((g : ℚ) / 255 * 63) ∨
        0 < jsRound ((b : ℚ) / 255 * 63))) ∧
    ((encodePlanes (setKey s (KeyRef.name name) r g b).keyColors).flags[i]? = some 0x10 ↔
      (3 ≤ r ∨ 3 ≤ g ∨ 3 ≤ b)) ∧
    ((encodePlanes (setKey s (KeyRef.name name) r g b).keyColors).flags[i]? = some 0x10 ∨
      (encodePlanes (setKey s (KeyRef.name name) r g b).keyColors).flags[i]? = some 0) := by
  have hi : i < 128 := by
    have := KEY_MAP_lt _ _ hname
    omega
  have hf := (encodePlanes_getElem? (setKey s (KeyRef.name name) r g b).keyColors i hi).1
  have hc : (setKey s (KeyRef.name name) r g b).keyColors i = ⟨scale r, scale g, scale b⟩ := by
    rw [setKey_name s name i r g b hname]
    simp
  rw [hc] at hf
  rw [hf]
  have hs : (0 < scale r ∨ 0 < scale g ∨ 0 < scale b) ↔ (3 ≤ r ∨ 3 ≤ g ∨ 3 ≤ b) := by
    rw [scale_pos_iff, scale_pos_iff, scale_pos_iff]
  by_cases hl : Color.lit ⟨scale r, scale g, scale b⟩
  · have hl' : 0 < scale r ∨ 0 < scale g ∨ 0 < scale b := hl
    refine ⟨?_, ?_, ?_⟩
    · simp only [hl, if_true, true_iff]
      exact hl'
    · simp only [hl, if_true, true_iff]
      exact hs.mp hl'
    · simp [hl]
  · have hl' : ¬ (0 < scale r ∨ 0 < scale g ∨ 0 < scale b) := hl
    refine ⟨?_, ?_, ?_⟩
    · simp only [hl, if_false]
      constructor
      · intro h
        simp at h
      · intro h
        exact absurd h hl'
    · simp only [hl, if_false]
      constructor
      · intro h
        simp at h
      · intro h
        exact absurd (hs.mpr h) hl'
    · simp [hl]

theorem flag_set_iff_scaled_channel_witness :
    JsObject.get (toUpperCase "Esc") KEY_MAP = some 0 ∧
    (((encodePlanes (setKey openController (KeyRef.name "Esc") 2 3 0).keyColors).flags[0]?
        = some 0x10 ↔
      (0 < jsRound ((2 : ℚ) / 255 * 63) ∨ 0 < jsRound ((3 : ℚ) / 255 * 63) ∨
        0 < jsRound ((0 : ℚ) / 255 * 63))) ∧
    ((encodePlanes (setKey openController (KeyRef.name "Esc") 2 3 0).keyColors).flags[0]?
        = some 0x10 ↔
      ((3 : Int) ≤ 2 ∨ (3 : Int) ≤ 3 ∨ (3 : Int) ≤ 0)) ∧
    ((encodePlanes (setKey openController (KeyRef.name "Esc") 2 3 0).keyColors).flags[0]?
        = some 0x10 ∨
      (encodePlanes (setKey openController (KeyRef.name "Esc") 2 3 0).keyColors).flags[0]?
        = some 0)) :=
  ⟨by decide,
    flag_set_iff_scaled_channel openController "Esc" 0 2 3 0 (by decide) (by decide)
      (by decide) (by decide)⟩

/-- C7: `setKey` with a name that is not in the key table after upper-casing, or with a
raw integer index outside 0..127, returns normally and leaves the controller, and so
each of the 128 slots, exactly as it was. -/
theorem setKey_ignores_unresolved (s : PerKeyRGBController) (key : KeyRef) (r g b : Int)
    (h : (∃ name, key = KeyRef.name name ∧ JsObject.get (toUpperCase name) KEY_MAP = none) ∨
      (∃ idx, key = KeyRef.index idx ∧ (idx < 0 ∨ 127 < idx))) :
    setKey s key r g b = s ∧
    ∀ i, i < 128 → (setKey s key r g b).keyColors i = s.keyColors i := by
  have hs : setKey s key r g b = s := by
    rcases h with ⟨name, rfl, hn⟩ | ⟨idx, rfl, hidx⟩
    · simp [setKey, resolveKey, hn]
    · have : ¬ (0 ≤ idx ∧ idx < 128) := by omega
      simp [setKey, resolveKey, this]
  exact ⟨hs, fun i _ => by rw [hs]⟩

theorem setKey_ignores_unresolved_witness :
    ((∃ name, KeyRef.index 128 = KeyRef.name name ∧
        JsObject.get (toUpperCase name) KEY_MAP = none) ∨
      (∃ idx, KeyRef.index 128 = KeyRef.index idx ∧ (idx < 0 ∨ 127 < idx))) ∧
    ((∃ name, KeyRef.name "Numpad1" = KeyRef.name name ∧
        JsObject.get (toUpperCase name) KEY_MAP = none) ∨
      (∃ idx, KeyRef.name "Numpad1" = KeyRef.index idx ∧ (idx < 0 ∨ 127 < idx))) ∧
    (setKey redW (KeyRef.index 128) 255 255 255 = redW ∧
      ∀ i, i < 128 → (setKey redW (KeyRef.index 128) 255 255 255).keyColors i
        = redW.keyColors i) ∧
    (setKey redW (KeyRef.name "Numpad1") 255 255 255 = redW ∧
      ∀ i, i < 128 → (setKey redW (KeyRef.name "Numpad1") 255 255 255).keyColors i
        = redW.keyColors i) :=
  ⟨Or.inr ⟨128, rfl, Or.inr (by decide)⟩, Or.inl ⟨"Numpad1", rfl, by decide⟩,
    setKey_ignores_unresolved redW (KeyRef.index 128) 255 255 255
      (Or.inr ⟨128, rfl, Or.inr (by decide)⟩),
    setKey_ignores_unresolved redW (KeyRef.name "Numpad1") 255 255 255
      (Or.inl ⟨"Numpad1", rfl, by decide⟩)⟩

/-- C8: the report `sendCmd(d)` builds has 9 bytes: the report id 0, the first
min(|d|, 8) bytes of `d`, then zeros; the report `sendData(d)` builds has 65 bytes: the
report id 0, the first min(|d|, 64) bytes of `d`, then zeros; and a successful
`sendCmd` / `sendData` hands exactly that report to the device, as a feature report
and as an output report respectively. -/
theorem report_framing (d : List Int) :
    ((cmdReport d).length = 9 ∧
      cmdReport d = 0 :: (d.take (min d.length 8) ++ List.replicate (8 - min d.length 8) 0)) ∧
    ((dataReport d).length = 65 ∧
      dataReport d
        = 0 :: (d.take (min d.length 64) ++ List.replicate (64 - min d.length 64) 0)) ∧
    (∀ (env : Env) (s : PerKeyRGBController), (sendCmd env s d).1 = true →
      (sendCmd env s d).2.sent = s.sent ++ [Report.feature (cmdReport d)]) ∧
    (∀ (env : Env) (s : PerKeyRGBController), (sendData env s d).1 = true →
      (sendData env s d).2.sent = s.sent ++ [Report.output (dataReport d)]) ∧
    (∀ (env : Env) (s : PerKeyRGBController), s.device = true →
      env.writeOk s.writes = true →
      (sendCmd env s d).1 = true ∧ (sendData env s d).1 = true) := by
  have t8 : d.take (min d.length 8) = d.take 8 := by
    rcases Nat.le_total d.length 8 with h | h
    · rw [Nat.min_eq_left h, List.take_of_length_le (Nat.le_refl _), List.take_of_length_le h]
    · rw [Nat.min_eq_right h]
  have t64 : d.take (min d.length 64) = d.take 64 := by
    rcases Nat.le_total d.length 64 with h | h
    · rw [Nat.min_eq_left h, List.take_of_length_le (Nat.le_refl _), List.take_of_length_le h]
    · rw [Nat.min_eq_right h]
  refine ⟨⟨?_, ?_⟩, ⟨?_, ?_⟩, ?_, ?_, ?_⟩
  · rw [cmdReport_eq]
    simp
    omega
  · rw [cmdReport_eq, t8]
  · rw [dataReport_eq]
    simp
    omega
  · rw [dataReport_eq, t64]
  · intro env s h
    simp only [sendCmd, noDevice, connect] at h ⊢
    (repeat' split at h) <;> simp_all
  · intro env s h
    simp only [sendData, noDevice, connect] at h ⊢
    (repeat' split at h) <;> simp_all
  · intro env s hd hw
    simp [sendCmd, sendData, noDevice, hd, hw]

theorem report_framing_witness :
    (sendCmd Env.allOk openController [0x30, 0x00]).2.sent =
      [Report.feature [0, 0x30, 0, 0, 0, 0, 0, 0, 0]] ∧
    (cmdReport [1, 2, 3, 4, 5, 6, 7, 8, 9, 10]).length = 9 ∧
    cmdReport [1, 2, 3, 4, 5, 6, 7, 8, 9, 10] = [0, 1, 2, 3, 4, 5, 6, 7, 8] := by
  have h := report_framing [0x30, 0x00]
  have h2 := report_framing [1, 2, 3, 4, 5, 6, 7, 8, 9, 10]
  refine ⟨?_, h2.1.1, ?_⟩
  · have hs := h.2.2.1 Env.allOk openController
      ((h.2.2.2.2 Env.allOk openController rfl rfl).1)
    rw [hs, h.1.2]
    rfl
  · rw [h2.1.2]
    rfl

/-- C9: for a fade step `F > 0`, a key that was pressed (brightness 255) and is not
pressed again has brightness `max(0, 255 - n * F)` after `n` executed ticks; the
brightness is positive after fewer than `ceil(255 / F)` ticks, 0 after exactly
`ceil(255 / F)` ticks and never negative; with the fade step of the code, 30, that is
9 ticks. -/
theorem reactive_decay (F : Int) (hF : 0 < F) (env : Env) (st : Bridge) (k : String)
    (t : Int) (hidle : st.reactiveApplying = false)
    (hk : JsObject.get k st.reactiveKeyStates = some ⟨255, t⟩) :
    (∀ n : Nat, brightnessOf k ((reactiveTickWith F env)^[n] st)
      = some (max 0 (255 - n * F))) ∧
    (∀ n : Nat, (n : Int) < ⌈(255 : ℚ) / F⌉ →
      ∃ b, brightnessOf k ((reactiveTickWith F env)^[n] st) = some b ∧ 0 < b) ∧
    brightnessOf k ((reactiveTickWith F env)^[⌈(255 : ℚ) / F⌉.toNat] st) = some 0 ∧
    (∀ n : Nat, ∃ b, brightnessOf k ((reactiveTickWith F env)^[n] st) = some b ∧ 0 ≤ b) ∧
    (⌈(255 : ℚ) / REACTIVE_FADE_SPEED⌉ = 9 ∧
      brightnessOf k ((reactiveTick env)^[8] st) = some 15 ∧
      brightnessOf k ((reactiveTick env)^[9] st) = some 0) := by
  have formula : ∀ (G : Int), 0 < G → ∀ n : Nat,
      brightnessOf k ((reactiveTickWith G env)^[n] st) = some (max 0 (255 - n * G)) := by
    intro G hG n
    unfold brightnessOf
    rw [(reactive_decay_formula G hG env k t n st hidle hk).1]
    rfl
  obtain ⟨c0, c1, c2⟩ := ceil_ticks F hF
  refine ⟨formula F hF, ?_, ?_, ?_, ?_, ?_, ?_⟩
  · intro n hn
    refine ⟨_, formula F hF n, ?_⟩
    have := c2 n hn
    rw [lt_max_iff]
    right
    omega
  · rw [formula F hF, Int.toNat_of_nonneg c0]
    congr 1
    apply max_eq_left
    omega
  · intro n
    exact ⟨_, formula F hF n, le_max_left _ _⟩
  · rw [Int.ceil_eq_iff]
    norm_num [REACTIVE_FADE_SPEED]
  · have h := formula 30 (by decide) 8
    exact h
  · have h := formula 30 (by decide) 9
    exact h

theorem reactive_decay_witness :
    (pressed 65).reactiveApplying = false ∧
    JsObject.get "A" (pressed 65).reactiveKeyStates = some ⟨255, 0⟩ ∧
    brightnessOf "A" ((reactiveTickWith 30 Env.allOk)^[3] (pressed 65))
      = some (max 0 (255 - (3 : Nat) * 30)) ∧
    brightnessOf "A" ((reactiveTickWith 30 Env.allOk)^[⌈(255 : ℚ) / (30 : Int)⌉.toNat]
      (pressed 65)) = some 0 :=
  have h := reactive_decay 30 (by decide) Env.allOk (pressed 65) "A" 0 (by decide) (by decide)
  ⟨by decide, by decide, h.1 3, h.2.2.1⟩

/-- C10 at a failing input: in reactive mode with the default colour (0, 255, 255), a
key-down of virtual key 192 is the key GRAVE, index 16; after the next tick GRAVE has
brightness 225, for which the claim gives the colour (0, 56, 56), but slot 16 holds
(0, 0, 0): the alias "`" of the same index, whose brightness no key press ever raises,
is painted after GRAVE. -/
theorem reactive_tick_loses_aliased_key :
    VK_TO_KEYNAME 192 = some "GRAVE" ∧ JsObject.get "GRAVE" KEY_MAP = some 16 ∧
    brightnessOf "GRAVE" (reactiveTick Env.allOk (pressed 192)) = some 225 ∧
    paintColor (pressed 192).reactiveColor ⟨225, 0⟩ = ⟨0, 56, 56⟩ ∧
    (reactiveTick Env.allOk (pressed 192)).perKeyController.keyColors 16 = ⟨0, 0, 0⟩ := by
  have hflag : (pressed 192).reactiveApplying = false := by decide
  have hany : (pressed 192).reactiveKeyStates.any (fun p => decide (p.2.brightness > 0))
      = true := by decide
  have hcol : (pressed 192).reactiveColor = ⟨0, 255, 255⟩ := by decide
  refine ⟨by decide, by decide, ?_, ?_, ?_⟩
  · unfold brightnessOf reactiveTick
    rw [(reactiveTickWith_states _ Env.allOk _ hflag).1, JsObject.get_map]
    decide
  · rw [hcol]
    simp only [paintColor, scale_eq, reactiveChannel_eq]
    decide
  · unfold reactiveTick
    rw [reactiveTickWith_keyColors _ Env.allOk _ hflag hany 16]
    rw [lastPainted_grave, hcol]
    simp only [paintColor, scale_eq, reactiveChannel_eq]
    decide

/-- C11: with smart lighting enabled and the state Active, an idle check at time `now`
makes the state Idle exactly when `now - lastKeyTime > idleTimeout`; so with a timeout
of 10000 ms, after a non-modifier key press at time 0 and no other key press, the state
is still Active after any run of idle checks at times up to 10000, and it is Idle after
the first idle check at a time above 10000. -/
theorem idle_detection (env : Env) (st : Bridge) (hs : st.smartEnabled = true) :
    (∀ now : Int, st.isIdle = false →
      ((checkIdle env st now).isIdle = true ↔ now - st.lastKeyTime > st.idleTimeout)) ∧
    (∀ code : Nat, isModifier code = false → st.idleTimeout = 10000 →
      (∀ ts : List Int, (∀ t ∈ ts, t ≤ 10000) →
        (ts.foldl (checkIdle env) (onKeyPress env st code 0)).isIdle = false) ∧
      (∀ (ts : List Int) (t : Int), (∀ u ∈ ts, u ≤ 10000) → 10000 < t →
        ((ts ++ [t]).foldl (checkIdle env) (onKeyPress env st code 0)).isIdle = true)) := by
  constructor
  · intro now hi
    constructor
    · intro h
      by_contra hn
      rw [checkIdle_of_not_due env st now (Or.inr (Or.inr (by omega)))] at h
      rw [hi] at h
      exact Bool.false_ne_true h
    · exact checkIdle_of_due env st now hs hi
  · intro code hm ht
    obtain ⟨r1, r2, r3, r4, _, _⟩ :=
      onReactiveKeyPress_fields (onSmartKeyPress env st code 0) code 0
    obtain ⟨k1, k2, k3, k4⟩ := onSmartKeyPress_active env st code 0 hs hm
    have p1 : (onKeyPress env st code 0).isIdle = false := r1.trans k1
    have p2 : (onKeyPress env st code 0).lastKeyTime = 0 := r2.trans k2
    have p3 : (onKeyPress env st code 0).idleTimeout = 10000 := (r3.trans k3).trans ht
    have p4 : (onKeyPress env st code 0).smartEnabled = true := r4.trans k4
    have quiet : ∀ ts : List Int, (∀ t ∈ ts, t ≤ 10000) →
        ts.foldl (checkIdle env) (onKeyPress env st code 0) = onKeyPress env st code 0 := by
      intro ts hts
      apply foldl_checkIdle_not_due
      intro t htm
      rw [p2, p3]
      have := hts t htm
      omega
    constructor
    · intro ts hts
      rw [quiet ts hts]
      exact p1
    · intro ts t hts hlt
      rw [List.foldl_append, quiet ts hts]
      simp only [List.foldl_cons, List.foldl_nil]
      apply checkIdle_of_due env _ t p4 p1
      rw [p2, p3]
      omega

theorem idle_detection_witness :
    smartOn.smartEnabled = true ∧
    ((checkIdle Env.allOk smartOn 10200).isIdle = true ↔
      10200 - smartOn.lastKeyTime > smartOn.idleTimeout) ∧
    ([200, 5000, 10000].foldl (checkIdle Env.allOk) (onKeyPress Env.allOk smartOn 65 0)).isIdle
      = false ∧
    (([200, 5000, 10000] ++ [10200]).foldl (checkIdle Env.allOk)
      (onKeyPress Env.allOk smartOn 65 0)).isIdle = true :=
  have h := idle_detection Env.allOk smartOn (by decide)
  ⟨by decide, h.1 10200 (by decide),
    (h.2 65 (by decide) (by decide)).1 [200, 5000, 10000] (by decide),
    (h.2 65 (by decide) (by decide)).2 [200, 5000, 10000] 10200 (by decide) (by decide)⟩

/-- C12: with smart lighting enabled, a key press of a non-modifier code leaves the
state Active (also when it was Idle) and sets the last-key time to the press time; a
key press of a modifier code (16, 17, 18, 91, 160 to 165) changes neither the state nor
the last-key time; with smart lighting disabled a key press changes neither of them,
sends no simple-mode report and sets no timer, and an idle check changes nothing. -/
theorem smart_keypress (env : Env) (st : Bridge) (code : Nat) (now : Int) :
    (st.smartEnabled = true → isModifier code = false →
      (onKeyPress env st code now).isIdle = false ∧
      (onKeyPress env st code now).lastKeyTime = now) ∧
    (isModifier code = true →
      (onKeyPress env st code now).isIdle = st.isIdle ∧
      (onKeyPress env st code now).lastKeyTime = st.lastKeyTime) ∧
    (st.smartEnabled = false →
      (onKeyPress env st code now).isIdle = st.isIdle ∧
      (onKeyPress env st code now).lastKeyTime = st.lastKeyTime ∧
      (onKeyPress env st code now).sent = st.sent ∧
      (onKeyPress env st code now).activeTimers = st.activeTimers ∧
      checkIdle env st now = st) ∧
    (isModifier code = true ↔ code ∈ [16, 17, 18, 91, 160, 161, 162, 163, 164, 165]) := by
  obtain ⟨r1, r2, _, _, r5, r6⟩ :=
    onReactiveKeyPress_fields (onSmartKeyPress env st code now) code now
  refine ⟨fun hs hm => ?_, fun hm => ?_, fun hs => ?_, ?_⟩
  · obtain ⟨k1, k2, _, _⟩ := onSmartKeyPress_active env st code now hs hm
    exact ⟨r1.trans k1, r2.trans k2⟩
  · have e := onSmartKeyPress_ignored env st code now (Or.inr hm)
    unfold onKeyPress
    rw [e] at r1 r2
    rw [e]
    exact ⟨r1, r2⟩
  · have e := onSmartKeyPress_ignored env st code now (Or.inl hs)
    unfold onKeyPress
    rw [e] at r1 r2 r5 r6
    rw [e]
    exact ⟨r1, r2, r6, r5, checkIdle_of_not_due env st now (Or.inl hs)⟩
  · simp [isModifier]

theorem smart_keypress_witness :
    (onKeyPress Env.allOk (checkIdle Env.allOk smartOn 20000) 65 20500).isIdle = false ∧
    (onKeyPress Env.allOk (checkIdle Env.allOk smartOn 20000) 65 20500).lastKeyTime = 20500 ∧
    (onKeyPress Env.allOk (checkIdle Env.allOk smartOn 20000) 160 20500).isIdle = true ∧
    (onKeyPress Env.allOk Bridge.init 65 20500).sent = Bridge.init.sent := by
  have idle : (checkIdle Env.allOk smartOn 20000).isIdle = true := by decide
  have hon : (checkIdle Env.allOk smartOn 20000).smartEnabled = true := by decide
  have h := smart_keypress Env.allOk (checkIdle Env.allOk smartOn 20000) 65 20500
  have h2 := smart_keypress Env.allOk (checkIdle Env.allOk smartOn 20000) 160 20500
  have h3 := smart_keypress Env.allOk Bridge.init 65 20500
  exact ⟨(h.1 hon (by decide)).1, (h.1 hon (by decide)).2,
    ((h2.2.1 (by decide)).1).trans idle, (h3.2.2.1 (by decide)).2.2.1⟩

/-- C13: a reactive tick that fires while the busy flag `reactiveApplying` is set does
nothing at all: the whole state is returned as it was, so no brightness changes, the
frame buffer is unchanged, no packet is sent, and there is nothing that could have
been queued. -/
theorem busy_tick_skipped (F : Int) (env : Env) (st : Bridge)
    (h : st.reactiveApplying = true) :
    reactiveTickWith F env st = st ∧ reactiveTick env st = st ∧
    (reactiveTick env st).reactiveKeyStates = st.reactiveKeyStates ∧
    (∀ i, (reactiveTick env st).perKeyController.keyColors i = st.perKeyController.keyColors i) ∧
    (reactiveTick env st).perKeyController.sent = st.perKeyController.sent ∧
    (reactiveTick env st).perKeyController.writes = st.perKeyController.writes := by
  have e : ∀ G : Int, reactiveTickWith G env st = st := by
    intro G
    unfold reactiveTickWith
    simp [h]
  have e' : reactiveTick env st = st := e REACTIVE_FADE_SPEED
  refine ⟨e F, e', ?_, ?_, ?_, ?_⟩ <;> simp [e']

theorem busy_tick_skipped_witness :
    busyBridge.reactiveApplying = true ∧
    brightnessOf "A" busyBridge = some 225 ∧
    reactiveTick Env.allOk busyBridge = busyBridge :=
  ⟨rfl, by decide, (busy_tick_skipped REACTIVE_FADE_SPEED Env.allOk busyBridge rfl).2.1⟩

/-- C14 fails as stated: the code rounds the interpolated value to an integer before it
scales it.  For `applyGradient({0,0,0}, {35,0,0})` the red value at index 1 is
`v = 35/15`; the code stores `scale(round(v)) = scale(2) = 0`, while
`round(v/255*63) = round(0.576...) = 1`. -/
theorem gradient_rounds_before_scaling :
    ((applyGradient openController ⟨0, 0, 0⟩ ⟨35, 0, 0⟩).keyColors 1).r = 0 ∧
    jsRound ((((0 : ℚ) + ((35 : ℚ) - 0) * (((1 : ℚ) - 0) / ((15 : ℚ) - 0))) / 255) * 63) = 1 := by
  constructor
  · rw [(applyGradient_apply openController ⟨0, 0, 0⟩ ⟨35, 0, 0⟩ 1).1 (0, 15) (by decide)
      (by decide) (by decide)]
    norm_num [gradientColor, gradientChannel, gradientT, scale, jsRound]
  · norm_num [jsRound]

/-- C14, as the code behaves: for each of the six row ranges and every index `i` in it,
each stored channel is `round(round(v)/255*63)` where `v = start.c + (end.c - start.c) * t`
is the linear interpolation at `t = (i - first)/(last - first)`: the interpolated value
is rounded to an integer and then scaled.  The first slot of a row holds the scaled
start colour and the last slot the scaled end colour. -/
theorem gradient_interpolation (s : PerKeyRGBController) (startColor endColor : Color)
    (row : Nat × Nat) (hrow : row ∈ gradientRows) :
    (∀ i : Nat, row.1 ≤ i → i ≤ row.2 →
      (applyGradient s startColor endColor).keyColors i =
        ⟨jsRound (((jsRound ((startColor.r : ℚ) + ((endColor.r : ℚ) - startColor.r)
            * (((i : ℚ) - row.1) / ((row.2 : ℚ) - row.1))) : Int) : ℚ) / 255 * 63),
         jsRound (((jsRound ((startColor.g : ℚ) + ((endColor.g : ℚ) - startColor.g)
            * (((i : ℚ) - row.1) / ((row.2 : ℚ) - row.1))) : Int) : ℚ) / 255 * 63),
         jsRound (((jsRound ((startColor.b : ℚ) + ((endColor.b : ℚ) - startColor.b)
            * (((i : ℚ) - row.1) / ((row.2 : ℚ) - row.1))) : Int) : ℚ) / 255 * 63)⟩) ∧
    (applyGradient s startColor endColor).keyColors row.1 =
      ⟨jsRound ((startColor.r : ℚ) / 255 * 63), jsRound ((startColor.g : ℚ) / 255 * 63),
        jsRound ((startColor.b : ℚ) / 255 * 63)⟩ ∧
    (applyGradient s startColor endColor).keyColors row.2 =
      ⟨jsRound ((endColor.r : ℚ) / 255 * 63), jsRound ((endColor.g : ℚ) / 255 * 63),
        jsRound ((endColor.b : ℚ) / 255 * 63)⟩ ∧
    gradientRows = [(0, 15), (16, 31), (32, 47), (48, 63), (64, 79), (80, 95)] := by
  have hle : row.1 ≤ row.2 := by
    simp only [gradientRows, List.mem_cons, List.mem_singleton, List.mem_nil_iff,
      or_false] at hrow
    rcases hrow with rfl | rfl | rfl | rfl | rfl | rfl <;> decide
  obtain ⟨t0, t1, _, _⟩ := gradientT_facts row hrow
  refine ⟨fun i h1 h2 => ?_, ?_, ?_, rfl⟩
  · rw [(applyGradient_apply s startColor endColor i).1 row hrow h1 h2]
    rfl
  · rw [(applyGradient_apply s startColor endColor row.1).1 row hrow (Nat.le_refl _) hle]
    simp only [gradientColor, t0, gradientChannel_zero]
    rfl
  · rw [(applyGradient_apply s startColor endColor row.2).1 row hrow hle (Nat.le_refl _)]
    simp only [gradientColor, t1, gradientChannel_one]
    rfl

theorem gradient_interpolation_witness :
    ((16, 31) : Nat × Nat) ∈ gradientRows ∧
    (applyGradient openController ⟨255, 0, 0⟩ ⟨0, 0, 255⟩).keyColors 16 =
      ⟨jsRound ((255 : ℚ) / 255 * 63), jsRound ((0 : ℚ) / 255 * 63),
        jsRound ((0 : ℚ) / 255 * 63)⟩ ∧
    (applyGradient openController ⟨255, 0, 0⟩ ⟨0, 0, 255⟩).keyColors 31 =
      ⟨jsRound ((0 : ℚ) / 255 * 63), jsRound ((0 : ℚ) / 255 * 63),
        jsRound ((255 : ℚ) / 255 * 63)⟩ :=
  have h := gradient_interpolation openController ⟨255, 0, 0⟩ ⟨0, 0, 255⟩ (16, 31) (by decide)
  ⟨by decide, by simpa using h.2.1, by simpa using h.2.2.1⟩

/-- C15: for start and end colours in 0..255, in every channel whose start value is at
most its end value the value stored by `applyGradient` is non-decreasing in the index
within each row range; and `applyGradient({0,0,0}, {255,255,255})` gives non-decreasing
r, g and b over the indices 0..15, from (0, 0, 0) at index 0 to (63, 63, 63) at index
15. -/
theorem gradient_monotone (s : PerKeyRGBController) (startColor endColor : Color)
    (_hs : startColor.InRange) (_he : endColor.InRange) :
    (startColor.r ≤ endColor.r → ∀ row ∈ gradientRows, ∀ i j : Nat,
      row.1 ≤ i → i ≤ j → j ≤ row.2 →
      ((applyGradient s startColor endColor).keyColors i).r
        ≤ ((applyGradient s startColor endColor).keyColors j).r) ∧
    (startColor.g ≤ endColor.g → ∀ row ∈ gradientRows, ∀ i j : Nat,
      row.1 ≤ i → i ≤ j → j ≤ row.2 →
      ((applyGradient s startColor endColor).keyColors i).g
        ≤ ((applyGradient s startColor endColor).keyColors j).g) ∧
    (startColor.b ≤ endColor.b → ∀ row ∈ gradientRows, ∀ i j : Nat,
      row.1 ≤ i → i ≤ j → j ≤ row.2 →
      ((applyGradient s startColor endColor).keyColors i).b
        ≤ ((applyGradient s startColor endColor).keyColors j).b) ∧
    (∀ i j : Nat, i ≤ j → j ≤ 15 →
      ((applyGradient s ⟨0, 0, 0⟩ ⟨255, 255, 255⟩).keyColors i).r
        ≤ ((applyGradient s ⟨0, 0, 0⟩ ⟨255, 255, 255⟩).keyColors j).r ∧
      ((applyGradient s ⟨0, 0, 0⟩ ⟨255, 255, 255⟩).keyColors i).g
        ≤ ((applyGradient s ⟨0, 0, 0⟩ ⟨255, 255, 255⟩).keyColors j).g ∧
      ((applyGradient s ⟨0, 0, 0⟩ ⟨255, 255, 255⟩).keyColors i).b
        ≤ ((applyGradient s ⟨0, 0, 0⟩ ⟨255, 255, 255⟩).keyColors j).b) ∧
    (applyGradient s ⟨0, 0, 0⟩ ⟨255, 255, 255⟩).keyColors 0 = ⟨0, 0, 0⟩ ∧
    (applyGradient s ⟨0, 0, 0⟩ ⟨255, 255, 255⟩).keyColors 15 = ⟨63, 63, 63⟩ := by
  have key : ∀ (sc ec : Color) (row : Nat × Nat), row ∈ gradientRows → ∀ i j : Nat,
      row.1 ≤ i → i ≤ j → j ≤ row.2 →
      (sc.r ≤ ec.r → ((applyGradient s sc ec).keyColors i).r
        ≤ ((applyGradient s sc ec).keyColors j).r) ∧
      (sc.g ≤ ec.g → ((applyGradient s sc ec).keyColors i).g
        ≤ ((applyGradient s sc ec).keyColors j).g) ∧
      (sc.b ≤ ec.b → ((applyGradient s sc ec).keyColors i).b
        ≤ ((applyGradient s sc ec).keyColors j).b) := by
    intro sc ec row hrow i j h1 h2 h3
    rw [(applyGradient_apply s sc ec i).1 row hrow h1 (by omega),
      (applyGradient_apply s sc ec j).1 row hrow (by omega) h3]
    have ht := (gradientT_facts row hrow).2.2.1 i j h2
    exact ⟨fun h => gradientChannel_mono _ _ h ht, fun h => gradientChannel_mono _ _ h ht,
      fun h => gradientChannel_mono _ _ h ht⟩
  have h255 : scale 255 = 63 := by rw [scale_eq]; rfl
  have h0 : scale 0 = 0 := by rw [scale_eq]; rfl
  have hrow0 : ((0, 15) : Nat × Nat) ∈ gradientRows := by decide
  obtain ⟨t0, t1, _, _⟩ := gradientT_facts (0, 15) hrow0
  refine ⟨fun h row hrow i j h1 h2 h3 => (key _ _ row hrow i j h1 h2 h3).1 h,
    fun h row hrow i j h1 h2 h3 => (key _ _ row hrow i j h1 h2 h3).2.1 h,
    fun h row hrow i j h1 h2 h3 => (key _ _ row hrow i j h1 h2 h3).2.2 h,
    fun i j h1 h2 => ?_, ?_, ?_⟩
  · obtain ⟨k1, k2, k3⟩ := key ⟨0, 0, 0⟩ ⟨255, 255, 255⟩ (0, 15) hrow0 i j (Nat.zero_le _) h1 h2
    exact ⟨k1 (by decide), k2 (by decide), k3 (by decide)⟩
  · rw [(applyGradient_apply s ⟨0, 0, 0⟩ ⟨255, 255, 255⟩ 0).1 (0, 15) hrow0 (by decide)
      (by decide)]
    have t0' : gradientT (0, 15) 0 = 0 := t0
    simp only [gradientColor, t0', gradientChannel_zero, h0]
  · rw [(applyGradient_apply s ⟨0, 0, 0⟩ ⟨255, 255, 255⟩ 15).1 (0, 15) hrow0 (by decide)
      (by decide)]
    have t1' : gradientT (0, 15) 15 = 1 := t1
    simp only [gradientColor, t1', gradientChannel_one, h255]

theorem gradient_monotone_witness :
    Color.InRange ⟨10, 200, 30⟩ ∧ Color.InRange ⟨250, 200, 0⟩ ∧
    ((10 : Int) ≤ 250 → ∀ row ∈ gradientRows, ∀ i j : Nat,
      row.1 ≤ i → i ≤ j → j ≤ row.2 →
      ((applyGradient openController ⟨10, 200, 30⟩ ⟨250, 200, 0⟩).keyColors i).r
        ≤ ((applyGradient openController ⟨10, 200, 30⟩ ⟨250, 200, 0⟩).keyColors j).r) ∧
    (applyGradient openController ⟨0, 0, 0⟩ ⟨255, 255, 255⟩).keyColors 15 = ⟨63, 63, 63⟩ :=
  have h := gradient_monotone openController ⟨10, 200, 30⟩ ⟨250, 200, 0⟩ (by decide) (by decide)
  ⟨by decide, by decide, h.1, h.2.2.2.2.2⟩

/-- C16: `applyRainbow()` leaves the colours stored at the indices 96..127 exactly as
they were. -/
theorem rainbow_leaves_upper_slots (s : PerKeyRGBController) (i : Nat) (h1 : 96 ≤ i)
    (_h2 : i ≤ 127) : (applyRainbow s).keyColors i = s.keyColors i := by
  rw [applyRainbow_apply, if_neg (by omega)]

theorem rainbow_leaves_upper_slots_witness :
    (applyRainbow redW).keyColors 100 = redW.keyColors 100 ∧
    (applyRainbow redW).keyColors 127 = redW.keyColors 127 :=
  ⟨rainbow_leaves_upper_slots redW 100 (by decide) (by decide),
    rainbow_leaves_upper_slots redW 127 (by decide) (by decide)⟩

/-- C17: after `applyRainbow()` every slot `i` of 0..95 holds the scaled channels of
`hslToRgb(hue, 100, 50)` for `hue = i/96*360`; the 96 hues lie in [0, 360) and are
pairwise distinct, the 96 stored colours are pairwise distinct, and every stored channel
lies in 0..63. -/
theorem rainbow_colors (s : PerKeyRGBController) :
    (∀ i : Nat, i < 96 →
      (applyRainbow s).keyColors i =
        ⟨jsRound (((hslToRgb (((i : ℚ) / 96) * 360) 100 50).r : ℚ) / 255 * 63),
         jsRound (((hslToRgb (((i : ℚ) / 96) * 360) 100 50).g : ℚ) / 255 * 63),
         jsRound (((hslToRgb (((i : ℚ) / 96) * 360) 100 50).b : ℚ) / 255 * 63)⟩) ∧
    (∀ i : Nat, i < 96 → 0 ≤ ((i : ℚ) / 96) * 360 ∧ ((i : ℚ) / 96) * 360 < 360) ∧
    (∀ i j : Nat, i < 96 → j < 96 → i ≠ j → ((i : ℚ) / 96) * 360 ≠ ((j : ℚ) / 96) * 360) ∧
    (∀ i j : Nat, i < 96 → j < 96 → i ≠ j →
      (applyRainbow s).keyColors i ≠ (applyRainbow s).keyColors j) ∧
    (∀ i : Nat, i < 96 → ((applyRainbow s).keyColors i).Stored) := by
  have hslot : ∀ i : Nat, i < 96 → (applyRainbow s).keyColors i = rainbowColor i := by
    intro i hi
    rw [applyRainbow_apply, if_pos hi]
  refine ⟨fun i hi => ?_, fun i hi => ?_, fun i j _ _ hij => ?_, fun i j hi hj hij => ?_,
    fun i hi => ?_⟩
  · rw [hslot i hi]
    rfl
  · have h : (i : ℚ) < 96 := by exact_mod_cast hi
    have h0 : (0 : ℚ) ≤ (i : ℚ) := by positivity
    constructor
    · positivity
    · linarith
  · intro h
    apply hij
    have h' : (i : ℚ) = (j : ℚ) := by linarith
    exact_mod_cast h'
  · rw [hslot i hi, hslot j hj, rainbowColor_eq, rainbowColor_eq]
    intro h
    exact hij (rainbowStored_injective i hi j hj h)
  · rw [hslot i hi, rainbowColor_eq]
    exact rainbowStored_range i hi

/-- C18: when the handle of the module is there or can be opened and the write
succeeds, `send(mode, color, speed, brightness, direction)` hands the device exactly one
feature report of 65 bytes: 0x03, 0x08, mode, `round(brightness/100*63)`,
`max(1, round(6 - speed/100*5))`, direction, color and 58 zeros; the brightness byte lies
in 0..63 for every brightness of 0..100. -/
theorem simple_report_layout (env : Env) (st : Bridge)
    (mode color speed brightness direction : Int)
    (hdev : st.device = true ∨ env.simpleConnectOk st.connects = true)
    (hw : env.simpleWriteOk st.writes = true) :
    (Bridge.send env st mode color speed brightness direction).sent =
      st.sent ++
        [Report.feature
          ([0x03, 0x08, mode, jsRound (((brightness : ℚ) / 100) * 63),
            max 1 (jsRound (6 - ((speed : ℚ) / 100) * 5)), direction, color]
            ++ List.replicate 58 0)] ∧
    ([0x03, 0x08, mode, jsRound (((brightness : ℚ) / 100) * 63),
        max 1 (jsRound (6 - ((speed : ℚ) / 100) * 5)), direction, color]
      ++ List.replicate 58 0).length = 65 ∧
    (0 ≤ brightness → brightness ≤ 100 →
      0 ≤ jsRound (((brightness : ℚ) / 100) * 63) ∧
        jsRound (((brightness : ℚ) / 100) * 63) ≤ 63) := by
  refine ⟨?_, by simp, fun h0 h1 => ?_⟩
  · rw [Bridge.send_sent env st mode color speed brightness direction hdev hw, simpleReport_eq]
    rfl
  · have e := brightnessByte_eq brightness
    unfold brightnessByte at e
    rw [e]
    omega

theorem simple_report_layout_witness :
    (simpleOpen.device = true ∨ Env.allOk.simpleConnectOk simpleOpen.connects = true) ∧
    Env.allOk.simpleWriteOk simpleOpen.writes = true ∧
    (Bridge.send Env.allOk simpleOpen 8 6 100 100 0).sent =
      simpleOpen.sent ++
        [Report.feature
          ([0x03, 0x08, 8, jsRound ((((100 : Int) : ℚ) / 100) * 63),
            max 1 (jsRound (6 - (((100 : Int) : ℚ) / 100) * 5)), 0, 6]
            ++ List.replicate 58 0)] :=
  ⟨Or.inl rfl, rfl, (simple_report_layout Env.allOk simpleOpen 8 6 100 100 0 (Or.inl rfl) rfl).1⟩

/-- C19: the speed byte `max(1, round(6 - speed/100*5))` of a simple-mode report is 6
at speed 0 and 1 at speed 100, lies in 1..6 for every speed of 0..100, does not
increase when the speed increases, and is never below 1 for any speed; it is byte 4 of
the report that `send` builds. -/
theorem speed_mapping :
    max 1 (jsRound (6 - (((0 : Int) : ℚ) / 100) * 5)) = 6 ∧
    max 1 (jsRound (6 - (((100 : Int) : ℚ) / 100) * 5)) = 1 ∧
    (∀ v : Int, 0 ≤ v → v ≤ 100 →
      1 ≤ max 1 (jsRound (6 - ((v : ℚ) / 100) * 5)) ∧
        max 1 (jsRound (6 - ((v : ℚ) / 100) * 5)) ≤ 6) ∧
    (∀ v w : Int, v ≤ w →
      max 1 (jsRound (6 - ((w : ℚ) / 100) * 5)) ≤ max 1 (jsRound (6 - ((v : ℚ) / 100) * 5))) ∧
    (∀ v : Int, 1 ≤ max 1 (jsRound (6 - ((v : ℚ) / 100) * 5))) ∧
    (∀ mode color speed brightness direction : Int,
      (simpleReport mode color speed brightness direction)[4]?
        = some (max 1 (jsRound (6 - ((speed : ℚ) / 100) * 5)))) := by
  have e : ∀ v : Int, max 1 (jsRound (6 - ((v : ℚ) / 100) * 5)) = max 1 ((130 - v) / 20) :=
    speedByte_eq
  refine ⟨?_, ?_, fun v h0 h1 => ?_, fun v w hvw => ?_, fun v => le_max_left _ _,
    fun mode color speed brightness direction => ?_⟩
  · rw [e]
    decide
  · rw [e]
    decide
  · rw [e]
    constructor
    · exact le_max_left _ _
    · apply max_le (by decide)
      omega
  · rw [e, e]
    apply max_le_max (le_refl _)
    omega
  · rw [simpleReport_eq]
    rfl

/-- C20: in the constructor state, and after any finite sequence of `setKey`, `setAll`,
`clearAll`, `applyGradient` and `applyRainbow` calls whose input channels are integers
of 0..255, every one of the 128 slots holds channels of 0..63; `scale` is monotone with
`scale(0) = 0` and `scale(255) = 63`. -/
theorem channel_range_invariant :
    PerKeyRGBController.new.Stored ∧
    (∀ ops : List BufferOp, (∀ op ∈ ops, op.InRange) →
      ∀ i, i < 128 →
        (0 ≤ ((ops.foldl BufferOp.run PerKeyRGBController.new).keyColors i).r ∧
          ((ops.foldl BufferOp.run PerKeyRGBController.new).keyColors i).r ≤ 63) ∧
        (0 ≤ ((ops.foldl BufferOp.run PerKeyRGBController.new).keyColors i).g ∧
          ((ops.foldl BufferOp.run PerKeyRGBController.new).keyColors i).g ≤ 63) ∧
        (0 ≤ ((ops.foldl BufferOp.run PerKeyRGBController.new).keyColors i).b ∧
          ((ops.foldl BufferOp.run PerKeyRGBController.new).keyColors i).b ≤ 63)) ∧
    (∀ a b : Int, a ≤ b → scale a ≤ scale b) ∧ scale 0 = 0 ∧ scale 255 = 63 := by
  refine ⟨new_stored, fun ops hops i hi => ?_, fun a b h => scale_mono h, ?_, ?_⟩
  · exact foldl_run_stored ops hops PerKeyRGBController.new new_stored i hi
  · rw [scale_eq]
    rfl
  · rw [scale_eq]
    rfl

/-- C21: after `clearAll()`, at every index below 128 the stored colour is (0, 0, 0)
and the encoded planes have flags 0 and red, green and blue 0; the same holds for a
freshly constructed controller. -/
theorem clearAll_clears (s : PerKeyRGBController) :
    (∀ i, i < 128 →
      (clearAll s).keyColors i = ⟨0, 0, 0⟩ ∧
      (encodePlanes (clearAll s).keyColors).flags[i]? = some 0 ∧
      (encodePlanes (clearAll s).keyColors).redChannel[i]? = some 0 ∧
      (encodePlanes (clearAll s).keyColors).greenChannel[i]? = some 0 ∧
      (encodePlanes (clearAll s).keyColors).blueChannel[i]? = some 0) ∧
    (∀ i, i < 128 →
      PerKeyRGBController.new.keyColors i = ⟨0, 0, 0⟩ ∧
      (encodePlanes PerKeyRGBController.new.keyColors).flags[i]? = some 0 ∧
      (encodePlanes PerKeyRGBController.new.keyColors).redChannel[i]? = some 0 ∧
      (encodePlanes PerKeyRGBController.new.keyColors).greenChannel[i]? = some 0 ∧
      (encodePlanes PerKeyRGBController.new.keyColors).blueChannel[i]? = some 0) := by
  constructor
  · intro i hi
    have h := clearAll_keyColors s i hi
    exact ⟨h, encodePlanes_off _ i hi h⟩
  · intro i hi
    have h := new_keyColors i
    exact ⟨h, encodePlanes_off _ i hi h⟩

/-- C22: when the handle is absent and the reconnect attempt fails, `apply()` rejects
with "Cannot connect to keyboard", hands nothing to the device and leaves the frame
buffer as it was; a later `apply()` that finds the device sends the whole sequence,
starting with the UNLOCK packet. -/
theorem apply_device_unavailable (env : Env) (s : PerKeyRGBController)
    (hd : s.device = false) (hc : env.connectOk s.connects = false) :
    (apply env s).1 = Except.error "Cannot connect to keyboard" ∧
    (apply env s).2.sent = s.sent ∧ (apply env s).2.writes = s.writes ∧
    (apply env s).2.keyColors = s.keyColors ∧ (apply env s).2.device = false ∧
    (env.connectOk (s.connects + 1) = true → (∀ n, env.writeOk n = true) →
      (apply env (apply env s).2).1 = Except.ok true ∧
      (apply env (apply env s).2).2.sent =
        s.sent ++ specApplySequence (encodePlanes s.keyColors).flags
          (encodePlanes s.keyColors).redChannel (encodePlanes s.keyColors).greenChannel
          (encodePlanes s.keyColors).blueChannel ∧
      (specApplySequence (encodePlanes s.keyColors).flags
          (encodePlanes s.keyColors).redChannel (encodePlanes s.keyColors).greenChannel
          (encodePlanes s.keyColors).blueChannel).head?
        = some (Report.feature [0, 0x30, 0, 0, 0, 0, 0x55, 0xAA, 0])) := by
  rw [apply_of_no_device env s hd hc]
  refine ⟨rfl, rfl, rfl, rfl, hd, fun hc2 hw => ?_⟩
  obtain ⟨h1, h2⟩ := apply_allOk env { s with connects := s.connects + 1 } (Or.inr hc2) hw
  exact ⟨h1, h2, rfl⟩

theorem apply_device_unavailable_witness :
    closedRedW.device = false ∧ Env.lateDevice.connectOk closedRedW.connects = false ∧
    (apply Env.lateDevice closedRedW).1 = Except.error "Cannot connect to keyboard" ∧
    (apply Env.lateDevice closedRedW).2.sent = closedRedW.sent ∧
    (apply Env.lateDevice (apply Env.lateDevice closedRedW).2).1 = Except.ok true :=
  have h := apply_device_unavailable Env.lateDevice closedRedW rfl rfl
  ⟨rfl, rfl, h.1, h.2.1, (h.2.2.2.2.2 rfl (fun _ => rfl)).1⟩

/-- C23: for every name `n` of the key table and every string `s` whose upper-casing
is `n`, `setKey(s, ...)` resolves to the index of `n` and has the same effect as
`setKey(n, ...)`; each punctuation alias has the index of its symbolic name; and every
index of the table is below 127. -/
theorem key_lookup :
    (∀ (n : String) (i : Nat), JsObject.get n KEY_MAP = some i →
      ∀ s : String, toUpperCase s = n →
        resolveKey (KeyRef.name s) = some (i : Int) ∧
        resolveKey (KeyRef.name n) = some (i : Int) ∧
        ∀ (c : PerKeyRGBController) (r g b : Int),
          setKey c (KeyRef.name s) r g b = setKey c (KeyRef.name n) r g b) ∧
    (resolveKey (KeyRef.name "GRAVE") = resolveKey (KeyRef.name "`") ∧
      resolveKey (KeyRef.name "MINUS") = resolveKey (KeyRef.name "-") ∧
      resolveKey (KeyRef.name "EQUAL") = resolveKey (KeyRef.name "=") ∧
      resolveKey (KeyRef.name "LBRACKET") = resolveKey (KeyRef.name "[") ∧
      resolveKey (KeyRef.name "RBRACKET") = resolveKey (KeyRef.name "]") ∧
      resolveKey (KeyRef.name "BACKSLASH") = resolveKey (KeyRef.name "\\") ∧
      resolveKey (KeyRef.name "CAPSLOCK") = resolveKey (KeyRef.name "CAPS") ∧
      resolveKey (KeyRef.name "SEMICOLON") = resolveKey (KeyRef.name ";") ∧
      resolveKey (KeyRef.name "QUOTE") = resolveKey (KeyRef.name "'") ∧
      resolveKey (KeyRef.name "COMMA") = resolveKey (KeyRef.name ",") ∧
      resolveKey (KeyRef.name "PERIOD") = resolveKey (KeyRef.name ".") ∧
      resolveKey (KeyRef.name "SLASH") = resolveKey (KeyRef.name "/")) ∧
    (resolveKey (KeyRef.name "GRAVE") = some 16 ∧ resolveKey (KeyRef.name "slash") = some 74) ∧
    (∀ (n : String) (i : Nat), JsObject.get n KEY_MAP = some i → i < 127) := by
  refine ⟨fun n i hn s hs => ?_, by decide, by decide, fun n i hn => ?_⟩
  · have hup : toUpperCase n = n := KEY_MAP_upper _ (JsObject.mem_of_get n i KEY_MAP hn)
    have r1 : resolveKey (KeyRef.name s) = some (i : Int) := by
      rw [resolveKey_of_upper s n hs, hn]
      rfl
    have r2 : resolveKey (KeyRef.name n) = some (i : Int) := by
      rw [resolveKey_of_upper n n hup, hn]
      rfl
    refine ⟨r1, r2, fun c r g b => ?_⟩
    unfold setKey
    rw [r1, r2]
  · have := KEY_MAP_lt n i hn
    omega

/-- C30: for each of the 96 rainbow hues `h = i/96*360`, `hslToRgb(h, 100, 50)` has
channels in 0..255 with maximum 255 and minimum 0; it is (255, 0, 0) at h = 0,
(0, 255, 0) at h = 120 and (0, 0, 255) at h = 240. -/
theorem rainbow_saturated :
    (∀ i : Nat, i < 96 →
      (hslToRgb (((i : ℚ) / 96) * 360) 100 50).InRange ∧
      max (max (hslToRgb (((i : ℚ) / 96) * 360) 100 50).r
          (hslToRgb (((i : ℚ) / 96) * 360) 100 50).g)
        (hslToRgb (((i : ℚ) / 96) * 360) 100 50).b = 255 ∧
      min (min (hslToRgb (((i : ℚ) / 96) * 360) 100 50).r
          (hslToRgb (((i : ℚ) / 96) * 360) 100 50).g)
        (hslToRgb (((i : ℚ) / 96) * 360) 100 50).b = 0) ∧
    hslToRgb 0 100 50 = ⟨255, 0, 0⟩ ∧ hslToRgb 120 100 50 = ⟨0, 255, 0⟩ ∧
    hslToRgb 240 100 50 = ⟨0, 0, 255⟩ ∧
    (((0 : Nat) : ℚ) / 96) * 360 = 0 ∧ (((32 : Nat) : ℚ) / 96) * 360 = 120 ∧
    (((64 : Nat) : ℚ) / 96) * 360 = 240 := by
  have hraw : ∀ i : Nat, hslToRgb (((i : ℚ) / 96) * 360) 100 50
      = ⟨rainbowRaw 0 i, rainbowRaw 8 i, rainbowRaw 4 i⟩ := hslToRgb_rainbow
  have h0 : (((0 : Nat) : ℚ) / 96) * 360 = 0 := by norm_num
  have h32 : (((32 : Nat) : ℚ) / 96) * 360 = 120 := by norm_num
  have h64 : (((64 : Nat) : ℚ) / 96) * 360 = 240 := by norm_num
  refine ⟨fun i hi => ?_, ?_, ?_, ?_, h0, h32, h64⟩
  · rw [hraw i]
    exact rainbowRaw_saturated i hi
  · rw [← h0, hraw 0]
    decide
  · rw [← h32, hraw 32]
    decide
  · rw [← h64, hraw 64]
    decide

/-- C25: each of `setKey(k, r, g, b)`, `setAll(r, g, b)`, `clearAll()`,
`applyGradient(start, end)` and `applyRainbow()`, called twice in a row with the same
arguments, leaves the controller in the state the first call left it in. -/
theorem buffer_ops_idempotent (s : PerKeyRGBController) :
    (∀ (key : KeyRef) (r g b : Int),
      setKey (setKey s key r g b) key r g b = setKey s key r g b) ∧
    (∀ r g b : Int, setAll (setAll s r g b) r g b = setAll s r g b) ∧
    clearAll (clearAll s) = clearAll s ∧
    (∀ startColor endColor : Color,
      applyGradient (applyGradient s startColor endColor) startColor endColor
        = applyGradient s startColor endColor) ∧
    applyRainbow (applyRainbow s) = applyRainbow s ∧
    (∀ op : BufferOp, op.run (op.run s) = op.run s) := by
  refine ⟨setKey_idem s, setAll_idem s, clearAll_idem s, applyGradient_idem s,
    applyRainbow_idem s, fun op => ?_⟩
  cases op with
  | setKey key r g b => exact setKey_idem s key r g b
  | setAll r g b => exact setAll_idem s r g b
  | clearAll => exact clearAll_idem s
  | applyGradient sc ec => exact applyGradient_idem s sc ec
  | applyRainbow => exact applyRainbow_idem s

/-- C27 fails as stated: index 100 is below 128 and lies in none of the six row
ranges, and `applyGradient` leaves the colour of slot 100 as it was (here white, while
the gradient runs from red to blue). -/
theorem gradient_rows_miss_upper_slots :
    (100 < 128 ∧ ¬ ∃ row ∈ gradientRows, row.1 ≤ 100 ∧ 100 ≤ row.2) ∧
    whiteSlot100.keyColors 100 = ⟨63, 63, 63⟩ ∧
    (applyGradient whiteSlot100 ⟨255, 0, 0⟩ ⟨0, 0, 255⟩).keyColors 100 = ⟨63, 63, 63⟩ := by
  have hw : whiteSlot100.keyColors 100 = ⟨63, 63, 63⟩ := by
    have h255 : scale 255 = 63 := by rw [scale_eq]; rfl
    rw [whiteSlot100, setKey_index, h255]
    simp
  refine ⟨⟨by decide, (gradientRows_disjoint 100).1 (by decide)⟩, hw, ?_⟩
  rw [(applyGradient_apply whiteSlot100 ⟨255, 0, 0⟩ ⟨0, 0, 255⟩ 100).2 (by decide)]
  exact hw

/-- C27, as the code behaves: the six row ranges partition the indices 0..95: every
index below 96 lies in exactly one of them and `applyGradient` stores the colour of that
row there; the indices 96..127 lie in no row and `applyGradient` leaves their slots as
they were. -/
theorem gradient_rows_partition (s : PerKeyRGBController) (startColor endColor : Color) :
    (∀ i, i < 96 →
      ∃ row ∈ gradientRows, (row.1 ≤ i ∧ i ≤ row.2) ∧
        (∀ row' ∈ gradientRows, row'.1 ≤ i ∧ i ≤ row'.2 → row' = row) ∧
        (applyGradient s startColor endColor).keyColors i
          = gradientColor startColor endColor row i) ∧
    (∀ i, 96 ≤ i →
      (¬ ∃ row ∈ gradientRows, row.1 ≤ i ∧ i ≤ row.2) ∧
      (applyGradient s startColor endColor).keyColors i = s.keyColors i) := by
  constructor
  · intro i hi
    obtain ⟨row, hrow, h1, h2⟩ := row_of_index i hi
    exact ⟨row, hrow, ⟨h1, h2⟩,
      fun row' hrow' h' => (gradientRows_disjoint i).2 row hrow row' hrow' ⟨h1, h2⟩ h',
      (applyGradient_apply s startColor endColor i).1 row hrow h1 h2⟩
  · intro i hi
    exact ⟨(gradientRows_disjoint i).1 hi, (applyGradient_apply s startColor endColor i).2 hi⟩

theorem gradient_rows_partition_witness :
    (127 : Nat) < 128 ∧ 96 ≤ 127 ∧
    (¬ ∃ row ∈ gradientRows, row.1 ≤ 127 ∧ 127 ≤ row.2) ∧
    (applyGradient whiteSlot100 ⟨255, 0, 0⟩ ⟨0, 0, 255⟩).keyColors 127
      = whiteSlot100.keyColors 127 :=
  ⟨by decide, by decide,
    (gradient_rows_partition whiteSlot100 ⟨255, 0, 0⟩ ⟨0, 0, 255⟩).2 127 (by decide)⟩

/-- C26 at a failing input: the bridge is in the middle of a reactive tick, the busy
flag is set and the apply of the tick is in flight.  A reactive tick is skipped, but
`perkey-apply`, the neighbor flash and the reactive deactivation each run their own
apply: 22 more packets go to the device, the first of them the UNLOCK packet. -/
theorem second_apply_not_guarded :
    busyBridge.reactiveApplying = true ∧
    reactiveTick Env.allOk busyBridge = busyBridge ∧
    (handleCommand Env.allOk busyBridge Command.perkeyApply).perKeyController.sent.length
      = busyBridge.perKeyController.sent.length + 22 ∧
    ((handleCommand Env.allOk busyBridge Command.perkeyApply).perKeyController.sent.drop
        busyBridge.perKeyController.sent.length).head?
      = some (Report.feature [0, 0x30, 0, 0, 0, 0, 0x55, 0xAA, 0]) ∧
    (flashNeighbors Env.allOk busyBridge 65).perKeyController.sent.length
      = busyBridge.perKeyController.sent.length + 22 ∧
    (handleCommand Env.allOk busyBridge
        (Command.toggleReactive false none)).perKeyController.sent.length
      = busyBridge.perKeyController.sent.length + 22 := by
  have hflag : busyBridge.reactiveApplying = true := rfl
  have hw : ∀ n, Env.allOk.writeOk n = true := fun _ => rfl
  have hskip : reactiveTick Env.allOk busyBridge = busyBridge := by
    unfold reactiveTick reactiveTickWith
    rw [if_pos hflag]
  obtain ⟨c1, c2, c3⟩ := command_applies Env.allOk busyBridge (Or.inr rfl) hw
  exact ⟨hflag, hskip, c1, c2,
    flashNeighbors_sent_length Env.allOk busyBridge 65 "A" (by decide) (Or.inr rfl) hw, c3⟩

/-- C28 at a failing input: `set-mode` with `speed: 0` and `brightness: 0` sends the
speed byte 1 and the brightness byte 63, those of 100%, where the claim gives 6 and 0:
`cmd.speed || 100` and `cmd.brightness || 100` replace a 0 by 100.  For a speed and a
brightness other than 0 the bytes are computed from the command's own values. -/
theorem set_mode_zero_becomes_default :
    (handleCommand Env.allOk simpleOpen
        (Command.setMode 1 0 (some 0) (some 0) (some 0))).sent
      = [Report.feature ([0x03, 0x08, 1, 63, 1, 0, 0] ++ List.replicate 58 0)] ∧
    max 1 (jsRound (6 - (((0 : Int) : ℚ) / 100) * 5)) = 6 ∧
    jsRound ((((0 : Int) : ℚ) / 100) * 63) = 0 ∧
    (∀ (st : Bridge) (mode color v b : Int) (direction : Option Int),
      v ≠ 0 → b ≠ 0 → st.device = true → Env.allOk.simpleWriteOk st.writes = true →
      (handleCommand Env.allOk st
          (Command.setMode mode color (some v) (some b) direction)).sent
        = st.sent ++
          [Report.feature
            ([0x03, 0x08, mode, jsRound (((b : ℚ) / 100) * 63),
              max 1 (jsRound (6 - ((v : ℚ) / 100) * 5)), orDefault direction 0, color]
              ++ List.replicate 58 0)]) := by
  have hb : brightnessByte 100 = 63 := by rw [brightnessByte_eq]; rfl
  have hs : speedByte 100 = 1 := by rw [speedByte_eq]; rfl
  have hb0 : brightnessByte 0 = 0 := by rw [brightnessByte_eq]; rfl
  have hs0 : speedByte 0 = 6 := by rw [speedByte_eq]; rfl
  refine ⟨?_, hs0, hb0, ?_⟩
  · simp only [handleCommand, orDefault, if_true]
    rw [Bridge.send_sent Env.allOk _ _ _ _ _ _ (Or.inl rfl) rfl, simpleReport_eq, hb, hs]
    rfl
  · intro st mode color v b direction hv hb' hd hw
    simp only [handleCommand, orDefault, hv, hb', if_false]
    have hd' : ({ st with smartEnabled := false } : Bridge).device = true := hd
    have hw' : Env.allOk.simpleWriteOk ({ st with smartEnabled := false } : Bridge).writes
        = true := hw
    rw [Bridge.send_sent Env.allOk _ _ _ _ _ _ (Or.inl hd') hw', simpleReport_eq]
    rfl

/-- C29: for a virtual-key code that maps to the key name `k`, every name among `k` and
its neighbours in `KEY_NEIGHBORS` has an index in the key table, and after
`flashNeighbors(code)` a slot below 128 holds (0, 63, 63) when it is the index of one
of these names and (0, 0, 0) otherwise, whatever the state before; the apply is issued
(22 packets when the device works).  For a code without a key name the whole state,
frame buffer and device trace included, is left as it was. -/
theorem neighbor_flash (env : Env) (st : Bridge) (code : Nat) :
    (∀ k : String, VK_TO_KEYNAME code = some k →
      (∀ n ∈ k :: (JsObject.get k KEY_NEIGHBORS).getD [],
        ∃ i, JsObject.get n KEY_MAP = some i ∧ i < 128) ∧
      (∀ i, i < 128 →
        ((∃ n ∈ k :: (JsObject.get k KEY_NEIGHBORS).getD [], JsObject.get n KEY_MAP = some i) →
          (flashNeighbors env st code).perKeyController.keyColors i = ⟨0, 63, 63⟩) ∧
        ((¬ ∃ n ∈ k :: (JsObject.get k KEY_NEIGHBORS).getD [],
            JsObject.get n KEY_MAP = some i) →
          (flashNeighbors env st code).perKeyController.keyColors i = ⟨0, 0, 0⟩)) ∧
      ((st.perKeyController.device = true ∨
          env.connectOk st.perKeyController.connects = true) →
        (∀ n, env.writeOk n = true) →
        (flashNeighbors env st code).perKeyController.sent.length
          = st.perKeyController.sent.length + 22)) ∧
    (VK_TO_KEYNAME code = none → flashNeighbors env st code = st) := by
  constructor
  · intro k hk
    have hmem : (code, k) ∈ VK_TO_KEYNAME_TABLE := mem_of_lookup code k _ hk
    have hres : ∀ n ∈ k :: (JsObject.get k KEY_NEIGHBORS).getD [],
        (JsObject.get n KEY_MAP).isSome = true := flash_names_resolve (code, k) hmem
    have hidx : ∀ n ∈ k :: (JsObject.get k KEY_NEIGHBORS).getD [],
        ∃ i, JsObject.get n KEY_MAP = some i ∧ i < 128 := by
      intro n hn
      obtain ⟨i, hi⟩ := Option.isSome_iff_exists.mp (hres n hn)
      have := KEY_MAP_lt n i hi
      exact ⟨i, hi, by omega⟩
    have hup : ∀ n ∈ k :: (JsObject.get k KEY_NEIGHBORS).getD [], toUpperCase n = n := by
      intro n hn
      obtain ⟨i, hi, _⟩ := hidx n hn
      exact KEY_MAP_upper _ (JsObject.mem_of_get n i KEY_MAP hi)
    have h255 : scale 255 = 63 := by rw [scale_eq]; rfl
    have h0 : scale 0 = 0 := by rw [scale_eq]; rfl
    have hkc : ∀ i, (flashNeighbors env st code).perKeyController.keyColors i =
        ((k :: (JsObject.get k KEY_NEIGHBORS).getD []).foldl
          (fun c n => setKey c (KeyRef.name n) 0 255 255)
          (clearAll st.perKeyController)).keyColors i := by
      intro i
      simp only [flashNeighbors, hk, apply_keyColors]
      rfl
    refine ⟨hidx, fun i hi => ?_, fun hg hw => ?_⟩
    · obtain ⟨f1, f2⟩ := foldl_setKey_const 0 255 255 i
        (k :: (JsObject.get k KEY_NEIGHBORS).getD []) (clearAll st.perKeyController)
      constructor
      · rintro ⟨n, hn, hni⟩
        rw [hkc i, f1 ⟨n, hn, by rw [hup n hn]; exact hni⟩, h0, h255]
      · intro hno
        have hno' : ¬ ∃ n ∈ k :: (JsObject.get k KEY_NEIGHBORS).getD [],
            JsObject.get (toUpperCase n) KEY_MAP = some i := by
          rintro ⟨n, hn, hni⟩
          exact hno ⟨n, hn, by rw [hup n hn] at hni; exact hni⟩
        rw [hkc i, f2 hno', clearAll_keyColors _ i hi]
    · exact flashNeighbors_sent_length env st code k hk hg hw
  · intro hk
    simp only [flashNeighbors, hk]

/-- C24: a key press while reactive mode is disabled changes no entry of the brightness
table; while it is enabled, a press whose code maps to a name with an entry sets that
entry's brightness to 255 and leaves every other entry as it was, and a code without a
mapping changes nothing.  In every state reached from the initial state through
commands, key presses, timer ticks, idle checks and deferred colour switches, every
brightness is in 0..255 and, while the mode is enabled, every mapped name has an
entry; every event other than a key press leaves each brightness or lowers it. -/
theorem reactive_keypress (env : Env) :
    (∀ (st : Bridge) (code : Nat) (now : Int), st.reactiveEnabled = false →
      (onKeyPress env st code now).reactiveKeyStates = st.reactiveKeyStates) ∧
    (∀ (st : Bridge) (code : Nat) (now : Int) (k : String) (v : KeyState),
      st.reactiveEnabled = true → VK_TO_KEYNAME code = some k →
      JsObject.get k st.reactiveKeyStates = some v →
      brightnessOf k (onKeyPress env st code now) = some 255 ∧
      ∀ k2 : String, k2 ≠ k →
        JsObject.get k2 (onKeyPress env st code now).reactiveKeyStates
          = JsObject.get k2 st.reactiveKeyStates) ∧
    (∀ (st : Bridge) (code : Nat) (now : Int), VK_TO_KEYNAME code = none →
      (onKeyPress env st code now).reactiveKeyStates = st.reactiveKeyStates) ∧
    (∀ events : List Event,
      BrightnessInRange (run env events) ∧
      ((run env events).reactiveEnabled = true →
        ∀ (code : Nat) (k : String), VK_TO_KEYNAME code = some k →
          (JsObject.get k (run env events).reactiveKeyStates).isSome = true)) ∧
    (∀ (events : List Event) (e : Event) (k : String), e.isKeyPress = false →
      (brightnessOf k (step env (run env events) e)).getD 0
        ≤ (brightnessOf k (run env events)).getD 0) := by
  refine ⟨?_, ?_, ?_, ?_, ?_⟩
  · intro st code now he
    rw [(onKeyPress_reactive env st code now).2.2, if_neg (by simp [he])]
  · intro st code now k v he hv hg
    have hs : (JsObject.get k st.reactiveKeyStates).isSome = true := by
      rw [hg]
      rfl
    have h3 : (onKeyPress env st code now).reactiveKeyStates
        = JsObject.set k ⟨255, now⟩ st.reactiveKeyStates := by
      rw [(onKeyPress_reactive env st code now).2.2, if_pos he, hv]
      simp only
      rw [if_pos hs]
    constructor
    · unfold brightnessOf
      rw [h3, JsObject.get_set, if_pos rfl]
      rfl
    · intro k2 hk
      rw [h3, JsObject.get_set, if_neg (fun e => hk e.symm)]
  · intro st code now hv
    rw [(onKeyPress_reactive env st code now).2.2, hv]
    simp
  · intro events
    obtain ⟨hb, hk1, hk2⟩ := foldl_step_inv env events Bridge.init init_inv
    refine ⟨hb, fun he code k hv => ?_⟩
    exact hk2 (hk1 he) k (vk_names_in_key_map (code, k) (mem_of_lookup code k _ hv))
  · intro events e k he
    exact step_nonincreasing env (run env events) e
      (foldl_step_inv env events Bridge.init init_inv).1 he k

set_option maxRecDepth 100000 in
theorem reactive_keypress_witness :
    reactiveOn.reactiveEnabled = true ∧ VK_TO_KEYNAME 65 = some "A" ∧
    JsObject.get "A" reactiveOn.reactiveKeyStates = some ⟨0, 0⟩ ∧
    brightnessOf "A" (onKeyPress Env.allOk reactiveOn 65 7) = some 255 ∧
    JsObject.get "B" (onKeyPress Env.allOk reactiveOn 65 7).reactiveKeyStates
      = JsObject.get "B" reactiveOn.reactiveKeyStates :=
  have h := (reactive_keypress Env.allOk).2.1 reactiveOn 65 7 "A" ⟨0, 0⟩
    (by decide) (by decide) (by decide)
  ⟨by decide, by decide, by decide, h.1, h.2 "B" (by decide)⟩

/-- C31: for every index `i` with an entry in `INDEX_TO_KEY`, the name stored there
has index `i` in `KEY_MAP` and is the last name of index `i` in the enumeration order
of `KEY_MAP`; an index has an entry exactly when it is a value of `KEY_MAP`, and every
property key of `INDEX_TO_KEY` is the decimal string of such an index; there are 87
entries, as many as distinct values of `KEY_MAP` (which has 99 names); for the twelve
shared indices the entry is the punctuation alias (`CAPS` for 48). -/
theorem index_to_key_round_trip :
    (∀ (i : Nat) (k : String), JsObject.get (toString i) INDEX_TO_KEY = some k →
      JsObject.get k KEY_MAP = some i ∧
      ((JsObject.entries KEY_MAP).filter (fun q => decide (q.2 = i))).getLast?
        = some (k, i)) ∧
    (∀ i : Nat, (JsObject.get (toString i) INDEX_TO_KEY).isSome = true ↔
      ∃ n, JsObject.get n KEY_MAP = some i) ∧
    (∀ s k : String, JsObject.get s INDEX_TO_KEY = some k →
      ∃ i, i < 127 ∧ s = toString i ∧ JsObject.get k KEY_MAP = some i) ∧
    (INDEX_TO_KEY.length = 87 ∧ (INDEX_TO_KEY.map Prod.fst).Nodup ∧
      (KEY_MAP.map Prod.snd).dedup.length = 87 ∧ KEY_MAP.length = 99) ∧
    (JsObject.get (toString 16) INDEX_TO_KEY = some "`" ∧
      JsObject.get (toString 27) INDEX_TO_KEY = some "-" ∧
      JsObject.get (toString 28) INDEX_TO_KEY = some "=" ∧
      JsObject.get (toString 43) INDEX_TO_KEY = some "[" ∧
      JsObject.get (toString 44) INDEX_TO_KEY = some "]" ∧
      JsObject.get (toString 45) INDEX_TO_KEY = some "\\" ∧
      JsObject.get (toString 48) INDEX_TO_KEY = some "CAPS" ∧
      JsObject.get (toString 58) INDEX_TO_KEY = some ";" ∧
      JsObject.get (toString 59) INDEX_TO_KEY = some "'" ∧
      JsObject.get (toString 72) INDEX_TO_KEY = some "," ∧
      JsObject.get (toString 73) INDEX_TO_KEY = some "." ∧
      JsObject.get (toString 74) INDEX_TO_KEY = some "/") := by
  have h3 : ∀ s k : String, JsObject.get s INDEX_TO_KEY = some k →
      ∃ i, i < 127 ∧ s = toString i ∧ JsObject.get k KEY_MAP = some i := by
    intro s k h
    obtain ⟨e1, e2, _⟩ := INDEX_TO_KEY_entries (s, k) (JsObject.mem_of_get s k _ h)
    have hlt := KEY_MAP_lt k _ e1
    exact ⟨_, by omega, e2, e1⟩
  have h1 : ∀ (i : Nat) (k : String), JsObject.get (toString i) INDEX_TO_KEY = some k →
      JsObject.get k KEY_MAP = some i ∧
      ((JsObject.entries KEY_MAP).filter (fun q => decide (q.2 = i))).getLast?
        = some (k, i) := by
    intro i k h
    obtain ⟨e1, e2, e3⟩ :=
      INDEX_TO_KEY_entries (toString i, k) (JsObject.mem_of_get (toString i) k _ h)
    have hij : i = (JsObject.get k KEY_MAP).getD 0 := toString_nat_injective _ _ e2
    rw [← hij] at e1 e3
    exact ⟨e1, e3⟩
  refine ⟨h1, fun i => ⟨fun h => ?_, ?_⟩, h3, INDEX_TO_KEY_count, INDEX_TO_KEY_aliases⟩
  · obtain ⟨k, hk⟩ := Option.isSome_iff_exists.mp h
    exact ⟨k, (h1 i k hk).1⟩
  · rintro ⟨n, hn⟩
    exact KEY_MAP_reversed (n, i) (JsObject.mem_of_get n i KEY_MAP hn)

end Nebula
